import Mathlib

/-! # Activity log and resync tracking of DRBD (`drbd/drbd_actlog.c`)

A shallow embedding of `drbd_actlog.c` and the properties proved about it.

Conventions of the embedding.

* C `unsigned int` values are natural numbers, the results of `unsigned int`
  arithmetic are reduced with `u32`; `sector_t` and `unsigned long` are 64 bit wide
  (`u64`), `int` values are integers.
* Everything that the C code keeps behind `device->...` is a field of `drbd_device`;
  functions return the changed device next to their C return value.
* A call that would sleep for ever unless another task changes the state returns
  `none` as its result (next to the state in which it sleeps).
* `BUG_ON` sets the flag `bug`; nothing is claimed about what happens after a `BUG()`.
* `D_ASSERT`, `expect` and the `drbd_err` / `drbd_warn` / `drbd_info` calls only print.
  The statistics counters of the LRU cache (`hits`, `misses`, `starving`, `locked`,
  `changed`) are not part of the model.
-/

namespace Drbd

/-! ## Machine integers -/

/-- The value of a C expression of type `unsigned int`. -/
def u32 (n : Nat) : Nat := n % 2 ^ 32

/-- The value of a C expression of type `unsigned long` or `sector_t`. -/
def u64 (n : Nat) : Nat := n % 2 ^ 64

/-- The value of `a - b` computed in `unsigned int`. -/
def u32_sub (a b : Nat) : Nat := (a % 2 ^ 32 + (2 ^ 32 - b % 2 ^ 32)) % 2 ^ 32

/-- The value of `a - b` computed in `sector_t` / `unsigned long`. -/
def u64_sub (a b : Nat) : Nat := (a % 2 ^ 64 + (2 ^ 64 - b % 2 ^ 64)) % 2 ^ 64

/-- The value of a `sector_t` expression with signed summands. -/
def sector_wrap (z : Int) : Int := z % 2 ^ 64

/-- The value of an `unsigned int` converted to `int`. -/
def int_of_u32 (n : Nat) : Int := if n % 2 ^ 32 < 2 ^ 31 then (n % 2 ^ 32 : Nat) else ((n % 2 ^ 32 : Nat) : Int) - 2 ^ 32

/-- The value of `cpu_to_be16 (x)`: the low 16 bits of x (their order in memory is fixed
by `be16_bytes`). -/
def cpu_to_be16 (n : Nat) : Nat := n % 2 ^ 16

/-- The value of `cpu_to_be32 (x)`: the low 32 bits of x (their order in memory is fixed
by `be32_bytes`). -/
def cpu_to_be32 (n : Nat) : Nat := n % 2 ^ 32

/-- The two bytes of a `__be16` field, most significant byte first. -/
def be16_bytes (n : Nat) : List Nat := [n / 2 ^ 8 % 2 ^ 8, n % 2 ^ 8]

/-- The four bytes of a `__be32` field, most significant byte first. -/
def be32_bytes (n : Nat) : List Nat :=
  [n / 2 ^ 24 % 2 ^ 8, n / 2 ^ 16 % 2 ^ 8, n / 2 ^ 8 % 2 ^ 8, n % 2 ^ 8]

/-! ## Constants of `drbd_int.h`, `lru_cache.h` and `errno.h` -/

/-- Modelled from the spec: `AL_EXTENT_SHIFT` of drbd_int.h, which is not among the
sources; an activity log extent is 4 MiB. -/
def AL_EXTENT_SHIFT : Nat := 22

/-- Modelled from the spec: `BM_BLOCK_SHIFT` of drbd_int.h; one bitmap bit per 4 KiB. -/
def BM_BLOCK_SHIFT : Nat := 12

/-- Modelled from the spec: `BM_EXT_SHIFT` of drbd_int.h; a bitmap extent is 16 MiB. -/
def BM_EXT_SHIFT : Nat := 24

/-- Modelled from the spec: `AL_EXT_PER_BM_SECT` of drbd_int.h, the number of activity
log extents per bitmap extent, currently 4. -/
def AL_EXT_PER_BM_SECT : Nat := 2 ^ (BM_EXT_SHIFT - AL_EXTENT_SHIFT)

/-- Modelled from the spec: `BM_SECT_PER_BIT` of drbd_int.h, the number of 512 byte
sectors per bitmap bit. -/
def BM_SECT_PER_BIT : Nat := 2 ^ (BM_BLOCK_SHIFT - 9)

/-- Modelled from the spec: `BM_SECT_TO_BIT` of drbd_int.h, a pure shift. -/
def BM_SECT_TO_BIT (x : Nat) : Nat := x >>> (BM_BLOCK_SHIFT - 9)

/-- Modelled from the spec: `BM_SECT_TO_EXT` of drbd_int.h, a pure shift. -/
def BM_SECT_TO_EXT (x : Nat) : Nat := x >>> (BM_EXT_SHIFT - 9)

/-- Modelled from the spec: `BM_EXT_TO_SECT` of drbd_int.h, a pure shift on `sector_t`. -/
def BM_EXT_TO_SECT (x : Nat) : Nat := u64 (x <<< (BM_EXT_SHIFT - 9))

/-- Modelled from the spec: `LC_FREE` of lru_cache.h, the sentinel `~0U` of an unused
element. -/
def LC_FREE : Nat := 2 ^ 32 - 1

/-- Modelled from the spec: `AL_UPDATES_PER_TRANSACTION` of drbd_int.h. -/
def AL_UPDATES_PER_TRANSACTION : Nat := 64

/-- Modelled from the spec: `AL_CONTEXT_PER_TRANSACTION` of drbd_int.h. -/
def AL_CONTEXT_PER_TRANSACTION : Nat := 919

/-- The value of `AL_TR_UPDATE` in `enum al_transaction_types`. -/
def AL_TR_UPDATE : Nat := 0

/-- The value of `AL_TR_INITIALIZED` in `enum al_transaction_types`. -/
def AL_TR_INITIALIZED : Nat := 0xffff

/-- Linux `EINTR`. -/
def EINTR : Int := 4

/-- Linux `EIO`. -/
def EIO : Int := 5

/-- Linux `EAGAIN`. -/
def EAGAIN : Int := 11

/-- Linux `EWOULDBLOCK`, the same number as `EAGAIN`. -/
def EWOULDBLOCK : Int := EAGAIN

/-- Linux `EBUSY`. -/
def EBUSY : Int := 16

/-- Linux `ENODEV`. -/
def ENODEV : Int := 19

/-! ## The LRU cache (`lru_cache.c`) -/

/-- Modelled from the spec: the flag word of `struct bm_extent` (drbd_int.h), a subset of
`BME_NO_WRITES`, `BME_LOCKED`, `BME_PRIORITY`; one boolean per bit. -/
structure bme_flags where
  no_writes : Bool := false
  locked : Bool := false
  priority : Bool := false
deriving DecidableEq, Repr

/-- Modelled from the spec: `struct lc_element` of lru_cache.h together with the fields of
the `struct bm_extent` that encloses it in the resync LRU (`lc_entry (e, struct bm_extent,
lce)` is the element itself). Elements of the activity log leave `rs_left`, `rs_failed`
and `flags` untouched. `hashed` says that the element is on a chain of the hash table
(free elements are not). -/
structure lc_element where
  lc_index : Nat
  lc_number : Nat := LC_FREE
  lc_new_number : Nat := LC_FREE
  refcnt : Nat := 0
  hashed : Bool := false
  rs_left : Int := 0
  rs_failed : Int := 0
  flags : bme_flags := {}
deriving DecidableEq, Repr

/-- The four lists an element of the cache can be on. -/
inductive lc_list where
  | free
  | lru
  | in_use
  | to_be_changed
deriving DecidableEq, Repr

/-- Modelled from the spec: `struct lru_cache` of lru_cache.h, which is not among the
sources: an associative cache of `nr_elements` elements keyed by extent number, with
reference counts, a `to_be_changed` list and transactional commit. `elements i` is
`lc_element_by_index (lc, i)`. The lists hold element indices, the first entry of a list
is the one next to the list head. `dirty`, `locked` and `starving` are the bits
`__LC_DIRTY`, `__LC_LOCKED` and `__LC_STARVING` of `flags`. -/
structure lru_cache where
  nr_elements : Nat
  max_pending_changes : Nat
  elements : Nat → lc_element
  free : List Nat
  lru : List Nat := []
  in_use : List Nat := []
  to_be_changed : List Nat := []
  used : Nat := 0
  pending_changes : Nat := 0
  dirty : Bool := false
  locked : Bool := false
  starving : Bool := false
  bug : Bool := false

/-- Modelled from the spec: `lc_create`; all elements are unused (`LC_FREE`) and on the
free list, element `nr_elements - 1` next to the list head. -/
def lc_create (nr_elements max_pending_changes : Nat) : lru_cache :=
  { nr_elements := nr_elements
    max_pending_changes := max_pending_changes
    elements := fun i => { lc_index := i }
    free := (List.range nr_elements).reverse }

/-- Modelled from the spec: `lc_element_by_index`. -/
def lc_element_by_index (lc : lru_cache) (i : Nat) : lc_element := lc.elements i

/-- Write element `i` of the cache. -/
def lc_set_element (lc : lru_cache) (i : Nat) (e : lc_element) : lru_cache :=
  { lc with elements := Function.update lc.elements i e }

/-- Modelled from the spec: `list_move (&e->list, head)` for the element with index `i`:
the element leaves the list it is on and becomes the first entry of `target`. -/
def lc_list_move (lc : lru_cache) (i : Nat) (target : lc_list) : lru_cache :=
  let free := lc.free.filter (fun j => j != i)
  let lru := lc.lru.filter (fun j => j != i)
  let in_use := lc.in_use.filter (fun j => j != i)
  let to_be_changed := lc.to_be_changed.filter (fun j => j != i)
  match target with
  | lc_list.free => { lc with free := i :: free, lru := lru, in_use := in_use, to_be_changed := to_be_changed }
  | lc_list.lru => { lc with free := free, lru := i :: lru, in_use := in_use, to_be_changed := to_be_changed }
  | lc_list.in_use => { lc with free := free, lru := lru, in_use := i :: in_use, to_be_changed := to_be_changed }
  | lc_list.to_be_changed => { lc with free := free, lru := lru, in_use := in_use, to_be_changed := i :: to_be_changed }

/-- Modelled from the spec: `__lc_find` of lru_cache.c. Elements are hashed by their
`lc_new_number`; an element whose change is not committed yet (`lc_new_number` differs
from `lc_number`) is returned only with `include_changing`. The result is the index of
the element. -/
def lc_find_raw (lc : lru_cache) (enr : Nat) (include_changing : Bool) : Option Nat :=
  match (List.range lc.nr_elements).find?
      (fun i => (lc.elements i).hashed && (lc.elements i).lc_new_number == enr) with
  | none => none
  | some i =>
    if (lc.elements i).lc_new_number = (lc.elements i).lc_number ∨ include_changing = true
    then some i else none

/-- Modelled from the spec: `lc_find`, the committed element for `enr` if there is one. -/
def lc_find (lc : lru_cache) (enr : Nat) : Option Nat := lc_find_raw lc enr false

/-- Modelled from the spec: `lc_is_used`, whether `enr` is held with a reference count
above zero, pending changes included. -/
def lc_is_used (lc : lru_cache) (enr : Nat) : Bool :=
  match lc_find_raw lc enr true with
  | some i => (lc.elements i).refcnt != 0
  | none => false

/-- Modelled from the spec: `lc_unused_element_available`. -/
def lc_unused_element_available (lc : lru_cache) : Bool :=
  !lc.free.isEmpty || !lc.lru.isEmpty

/-- Modelled from the spec: `lc_prepare_for_change`: take the first free element, or else
the least recently used one, hash it under `new_number` and move it to `to_be_changed`. -/
def lc_prepare_for_change (lc : lru_cache) (new_number : Nat) : Option Nat × lru_cache :=
  let n : Option Nat :=
    match lc.free.head? with
    | some i => some i
    | none => lc.lru.getLast?
  match n with
  | none => (none, lc)
  | some i =>
    let e := lc.elements i
    let lc1 := lc_set_element lc i { e with lc_new_number := new_number, hashed := true }
    (some i, lc_list_move lc1 i lc_list.to_be_changed)

/-- Modelled from the spec: `__lc_get` of lru_cache.c with the flags `LC_GET_MAY_CHANGE`
and `LC_GET_MAY_USE_UNCOMMITTED`. A hit takes a reference; a miss that may change the
set recycles an unused element and records the change in `to_be_changed`, unless the
cache is locked for a transaction, no element is unused, or `max_pending_changes` changes
are pending already. -/
def lc_get_flags (lc : lru_cache) (enr : Nat) (may_change may_use_uncommitted : Bool) :
    Option Nat × lru_cache :=
  if lc.starving then (none, lc)
  else
    match lc_find_raw lc enr true with
    | some i =>
      let e := lc.elements i
      if e.lc_new_number ≠ e.lc_number then
        if !may_use_uncommitted then (none, lc)
        else (some i, lc_set_element lc i { e with refcnt := u32 (e.refcnt + 1) })
      else
        let lc1 := lc_set_element lc i { e with refcnt := u32 (e.refcnt + 1) }
        let lc2 := if e.refcnt = 0 then { lc1 with used := u32 (lc1.used + 1) } else lc1
        (some i, lc_list_move lc2 i lc_list.in_use)
    | none =>
      if !may_change then (none, lc)
      else
        let lc1 := { lc with dirty := true }
        if lc1.locked then (none, lc1)
        else if !lc_unused_element_available lc1 then (none, { lc1 with starving := true })
        else if lc1.pending_changes ≥ lc1.max_pending_changes then (none, lc1)
        else
          match lc_prepare_for_change lc1 enr with
          | (none, lc2) => (none, { lc2 with bug := true })
          | (some i, lc2) =>
            let e := lc2.elements i
            let lc3 := lc_set_element { lc2 with starving := false } i
              { e with refcnt := u32 (e.refcnt + 1) }
            let lc4 := if u32 (e.refcnt + 1) ≠ 1 then { lc3 with bug := true } else lc3
            (some i, { lc4 with used := u32 (lc4.used + 1),
                                pending_changes := u32 (lc4.pending_changes + 1) })

/-- Modelled from the spec: `lc_get`, which may change the active set. -/
def lc_get (lc : lru_cache) (enr : Nat) : Option Nat × lru_cache :=
  lc_get_flags lc enr true false

/-- Modelled from the spec: `lc_get_cumulative`, which may change the active set and may
take a further reference on an element whose change is still pending. -/
def lc_get_cumulative (lc : lru_cache) (enr : Nat) : Option Nat × lru_cache :=
  lc_get_flags lc enr true true

/-- Modelled from the spec: `lc_try_get`, which never changes the active set. -/
def lc_try_get (lc : lru_cache) (enr : Nat) : Option Nat × lru_cache :=
  lc_get_flags lc enr false false

/-- Modelled from the spec: `lc_committed`: every element on `to_be_changed` gets its new
number installed and moves to `in_use`; no change is pending afterwards. -/
def lc_committed (lc : lru_cache) : lru_cache :=
  let lc1 := lc.to_be_changed.foldl
    (fun (acc : lru_cache) i =>
      let e := acc.elements i
      lc_list_move (lc_set_element acc i { e with lc_number := e.lc_new_number }) i
        lc_list.in_use)
    lc
  { lc1 with pending_changes := 0 }

/-- Modelled from the spec: `lc_put`: give back one reference, the element becomes the
most recently used entry of the lru list when the count drops to zero. The result is the
remaining count. It is a `BUG` to put an element without reference or with a pending
change. -/
def lc_put (lc : lru_cache) (i : Nat) : Nat × lru_cache :=
  let e := lc.elements i
  if e.refcnt = 0 ∨ e.lc_number ≠ e.lc_new_number then (e.refcnt, { lc with bug := true })
  else
    let lc1 := lc_set_element lc i { e with refcnt := e.refcnt - 1 }
    if e.refcnt - 1 = 0 then
      let lc2 := lc_list_move lc1 i lc_list.lru
      (0, { lc2 with used := u32_sub lc2.used 1, starving := false })
    else (e.refcnt - 1, lc1)

/-- Modelled from the spec: `lc_del`: an element without reference becomes unused and
free. -/
def lc_del (lc : lru_cache) (i : Nat) : lru_cache :=
  let e := lc.elements i
  let lc0 := if e.refcnt ≠ 0 then { lc with bug := true } else lc
  let lc1 := lc_set_element lc0 i
    { e with lc_number := LC_FREE, lc_new_number := LC_FREE, hashed := false }
  lc_list_move lc1 i lc_list.free

/-- Modelled from the spec: `lc_reset`: all elements are zeroed, unused and free. -/
def lc_reset (lc : lru_cache) : lru_cache :=
  { lc_create lc.nr_elements lc.max_pending_changes with bug := lc.bug }

/-- Modelled from the spec: `lc_try_lock_for_transaction`, a test-and-set of
`__LC_LOCKED`; the result says whether the lock was taken. -/
def lc_try_lock_for_transaction (lc : lru_cache) : Bool × lru_cache :=
  (!lc.locked, { lc with locked := true })

/-- Modelled from the spec: `lc_unlock`, which clears `__LC_DIRTY` and `__LC_LOCKED`. -/
def lc_unlock (lc : lru_cache) : lru_cache :=
  { lc with dirty := false, locked := false }

/-! ## The bitmap (`drbd_bitmap.c`) -/

/-- Modelled from the spec: the bitmap store of drbd_bitmap.c, which is not among the
sources: one bitmap of `bm_bits` bits per bitmap index, a set bit marks a 4 KiB block
that is out of sync; `bm_max_peers` is the number of bitmap indexes. -/
structure drbd_bitmap where
  bm_bits : Nat
  bits : Nat → Nat → Bool
  bm_max_peers : Nat

/-- The bit numbers `s .. e` (both inclusive) that exist in the bitmap. -/
def bm_range (bm : drbd_bitmap) (s e : Nat) : List Nat :=
  List.range' s (min (e + 1) bm.bm_bits - s)

/-- Modelled from the spec: `drbd_bm_count_bits`, the number of set bits in the inclusive
bit range `s .. e` of the bitmap with index `bitmap_index`. -/
def drbd_bm_count_bits (bm : drbd_bitmap) (bitmap_index s e : Nat) : Nat :=
  ((bm_range bm s e).filter (fun k => bm.bits bitmap_index k)).length

/-- Modelled from the spec: `drbd_bm_clear_bits`: clears the inclusive bit range `s .. e`
and returns the number of bits that were set before. -/
def drbd_bm_clear_bits (bm : drbd_bitmap) (bitmap_index s e : Nat) : Nat × drbd_bitmap :=
  (drbd_bm_count_bits bm bitmap_index s e,
   { bm with bits := fun idx k =>
      if idx = bitmap_index ∧ s ≤ k ∧ k ≤ e ∧ k < bm.bm_bits then false else bm.bits idx k })

/-- Modelled from the spec: `drbd_bm_set_bits`: sets the inclusive bit range `s .. e` and
returns the number of bits that were clear before. -/
def drbd_bm_set_bits (bm : drbd_bitmap) (bitmap_index s e : Nat) : Nat × drbd_bitmap :=
  (((bm_range bm s e).filter (fun k => !bm.bits bitmap_index k)).length,
   { bm with bits := fun idx k =>
      if idx = bitmap_index ∧ s ≤ k ∧ k ≤ e ∧ k < bm.bm_bits then true else bm.bits idx k })

/-- Modelled from the spec: `drbd_bm_total_weight`, the number of set bits of one bitmap
index. -/
def bm_total_weight (bm : drbd_bitmap) (bitmap_index : Nat) : Nat :=
  ((List.range bm.bm_bits).filter (fun k => bm.bits bitmap_index k)).length

/-! ## Device state -/

/-- Modelled from the spec: `enum drbd_disk_state` of drbd.h; only the order of the
states matters. -/
inductive drbd_disk_state where
  | D_DISKLESS
  | D_ATTACHING
  | D_FAILED
  | D_NEGOTIATING
  | D_INCONSISTENT
  | D_OUTDATED
  | D_UNKNOWN
  | D_CONSISTENT
  | D_UP_TO_DATE
deriving DecidableEq, Repr

/-- The numeric value of a disk state. -/
def drbd_disk_state.val : drbd_disk_state → Nat
  | D_DISKLESS => 0
  | D_ATTACHING => 1
  | D_FAILED => 2
  | D_NEGOTIATING => 3
  | D_INCONSISTENT => 4
  | D_OUTDATED => 5
  | D_UNKNOWN => 6
  | D_CONSISTENT => 7
  | D_UP_TO_DATE => 8

/-- Modelled from the spec: the replication states of `enum drbd_repl_state` (drbd.h)
that this file looks at; `L_OTHER` stands for all the others. -/
inductive drbd_repl_state where
  | L_ESTABLISHED
  | L_SYNC_SOURCE
  | L_SYNC_TARGET
  | L_PAUSED_SYNC_S
  | L_PAUSED_SYNC_T
  | L_OTHER
deriving DecidableEq, Repr

/-- Modelled from the spec: the meta data geometry of `struct drbd_md` (drbd_int.h):
`md_offset` is a `u64`, `al_offset` a signed 32 bit sector offset relative to it, the
stripe parameters are `u32`. -/
structure drbd_md where
  md_offset : Nat
  al_offset : Int
  al_stripes : Nat
  al_stripe_size_4k : Nat
  al_size_4k : Nat
deriving DecidableEq, Repr

/-- The on disk transaction block `struct al_transaction_on_disk`; every field holds the
number that is stored big endian. -/
structure al_transaction_on_disk where
  magic : Nat
  tr_number : Nat
  crc32c : Nat
  transaction_type : Nat
  n_updates : Nat
  context_size : Nat
  context_start_slot_nr : Nat
  reserved : List Nat
  update_slot_nr : List Nat
  update_extent_nr : List Nat
  context : List Nat
deriving DecidableEq, Repr

/-- The block after `memset (buffer, 0, sizeof (*buffer))`. -/
def al_transaction_zero : al_transaction_on_disk :=
  { magic := 0, tr_number := 0, crc32c := 0, transaction_type := 0, n_updates := 0,
    context_size := 0, context_start_slot_nr := 0,
    reserved := List.replicate 4 0,
    update_slot_nr := List.replicate AL_UPDATES_PER_TRANSACTION 0,
    update_extent_nr := List.replicate AL_UPDATES_PER_TRANSACTION 0,
    context := List.replicate AL_CONTEXT_PER_TRANSACTION 0 }

/-- The 4096 bytes of a transaction block in the order of the packed struct. -/
def al_transaction_bytes (b : al_transaction_on_disk) : List Nat :=
  be32_bytes b.magic ++ be32_bytes b.tr_number ++ be32_bytes b.crc32c
    ++ be16_bytes b.transaction_type ++ be16_bytes b.n_updates
    ++ be16_bytes b.context_size ++ be16_bytes b.context_start_slot_nr
    ++ (b.reserved.map be32_bytes).flatten
    ++ (b.update_slot_nr.map be16_bytes).flatten
    ++ (b.update_extent_nr.map be32_bytes).flatten
    ++ (b.context.map be32_bytes).flatten

/-- The work item `struct update_odbm_work`: write out the bitmap of extent `enr` of the
peer device with index `peer_device`. -/
structure update_odbm_work where
  peer_device : Nat
  enr : Nat
deriving DecidableEq, Repr

/-- What the device sends to its meta data disk. -/
inductive md_io_event where
  | bm_write_hinted (ok : Bool)
  | al_write (sector : Int) (block : al_transaction_on_disk) (ok : Bool)
deriving DecidableEq, Repr

/-- The fields of `struct drbd_peer_device` (drbd_int.h) that this file uses. -/
structure drbd_peer_device where
  bitmap_index : Nat
  resync_lru : lru_cache
  resync_locked : Nat := 0
  resync_wenr : Nat := LC_FREE
  rs_failed : Nat := 0
  repl_state : drbd_repl_state := drbd_repl_state.L_ESTABLISHED
  rs_mark_time : Nat → Nat := fun _ => 0
  rs_mark_left : Nat → Nat := fun _ => 0
  rs_last_mark : Nat := 0

/-- The fields of `struct drbd_device` (drbd_int.h) that this file uses. The peer devices
are `peer 0`, ..., `peer (nr_peers - 1)`, in the order of `for_each_peer_device`.
`capacity` is `drbd_get_capacity (device->this_bdev)`, `al_updates` the field of
`device->ldev->disk_conf`. `al_wait_wakeups` counts the calls of
`wake_up (&device->al_wait)`, `work` is the queue `device->resource->work`, `bm_hints`
the bit ranges marked for writeout, `md_log` what was sent to the meta data disk, most
recent first, and `meta_io_errors` the calls of `drbd_chk_io_error` for a meta data
error. -/
structure drbd_device where
  act_log : lru_cache
  nr_peers : Nat
  peer : Nat → drbd_peer_device
  bitmap : drbd_bitmap
  capacity : Nat
  disk_state : drbd_disk_state := drbd_disk_state.D_UP_TO_DATE
  md : drbd_md
  al_updates : Bool := true
  al_tr_number : Nat := 0
  al_tr_cycle : Nat := 0
  al_writ_cnt : Nat := 0
  md_io_in_use : Nat := 0
  al_wait_wakeups : Nat := 0
  work : List update_odbm_work := []
  bm_hints : List (Nat × Nat) := []
  md_log : List md_io_event := []
  meta_io_errors : Nat := 0
  bug : Bool := false

/-- What the functions of this file get from outside: constants of drbd_int.h and
drbd_limits.h that the specification does not fix, the checksum routine, and the outcome
of the calls that leave the file during one call of a function. `int_shift_overflow n`
is the value that the `int` expression `(1 << n) - 1` has as an `unsigned long` for the
shift counts `n` of 31 and more, for which C does not define it. -/
structure drbd_env where
  DRBD_AL_MAGIC : Nat
  DRBD_MAX_BIO_SIZE : Nat
  DRBD_SYNC_MARKS : Nat
  DRBD_SYNC_MARK_STEP : Nat
  crc32c : Nat → List Nat → Nat
  jiffies : Nat
  kmalloc_ok : Bool
  bm_write_hinted_ok : Bool
  md_write_ok : Bool
  current_is_worker : Bool
  signal_pending : Bool
  int_shift_overflow : Nat → Nat := fun _ => 0

/-- The request `struct drbd_interval` : start sector and size in bytes. -/
structure drbd_interval where
  sector : Nat
  size : Nat
deriving DecidableEq, Repr

/-- Replace peer device `p`. -/
def drbd_device.set_peer (dev : drbd_device) (p : Nat) (pd : drbd_peer_device) :
    drbd_device :=
  { dev with peer := Function.update dev.peer p pd }

/-- Replace element `i` of the resync LRU of peer device `p`. -/
def drbd_device.set_bm_ext (dev : drbd_device) (p i : Nat) (e : lc_element) : drbd_device :=
  dev.set_peer p { dev.peer p with resync_lru := lc_set_element (dev.peer p).resync_lru i e }

/-- The element `i` of the resync LRU of peer device `p`. -/
def drbd_device.bm_ext (dev : drbd_device) (p i : Nat) : lc_element :=
  (dev.peer p).resync_lru.elements i

/-- One call of `wake_up (&device->al_wait)`. -/
def wake_up_al_wait (dev : drbd_device) : drbd_device :=
  { dev with al_wait_wakeups := dev.al_wait_wakeups + 1 }

/-- Modelled from the spec: `get_ldev` of drbd_int.h: the local disk may be used in the
states from `D_INCONSISTENT` on. The reference on `local_cnt` is given back with
`put_ldev` before each function returns and is not part of the model. -/
def get_ldev (dev : drbd_device) : Bool :=
  drbd_disk_state.D_INCONSISTENT.val ≤ dev.disk_state.val

/-- A device with empty activity log and empty resync LRUs: `al_extents` activity log
elements, `nr_peers` peers with `rs_elements` resync elements each (peer `p` uses bitmap
index `p`). -/
def drbd_device.create (al_extents nr_peers rs_elements : Nat) (md : drbd_md)
    (capacity : Nat) : drbd_device :=
  { act_log := lc_create al_extents AL_UPDATES_PER_TRANSACTION
    nr_peers := nr_peers
    peer := fun p => { bitmap_index := p, resync_lru := lc_create rs_elements 1 }
    bitmap := { bm_bits := BM_SECT_TO_BIT (capacity + (BM_SECT_PER_BIT - 1)),
                bits := fun _ _ => false, bm_max_peers := nr_peers }
    capacity := capacity
    md := md }

/-! ## `drbd_actlog.c`: the activity log -/

/-- `find_active_resync_extent`: the first peer device whose resync LRU holds the bitmap
extent of activity log extent `enr` with `BME_NO_WRITES` set; the result is the pair of
peer index and element index. -/
def find_active_resync_extent (dev : drbd_device) (enr : Nat) : Option (Nat × Nat) :=
  (List.range dev.nr_peers).findSome? (fun p =>
    match lc_find (dev.peer p).resync_lru (enr / AL_EXT_PER_BM_SECT) with
    | some i => if (dev.bm_ext p i).flags.no_writes then some (p, i) else none
    | none => none)

/-- `_al_get`: refuse the activity log extent while resync holds the bitmap extent
(raising `BME_PRIORITY` there and waking `al_wait` if it was not raised before),
else `lc_try_get` or `lc_get` on the activity log. -/
def _al_get (dev : drbd_device) (enr : Nat) (nonblock : Bool) : Option Nat × drbd_device :=
  match find_active_resync_extent dev enr with
  | some (p, i) =>
    let bm_ext := dev.bm_ext p i
    let wake := !bm_ext.flags.priority
    let dev1 := dev.set_bm_ext p i { bm_ext with flags := { bm_ext.flags with priority := true } }
    (none, if wake then wake_up_al_wait dev1 else dev1)
  | none =>
    let r := if nonblock then lc_try_get dev.act_log enr else lc_get dev.act_log enr
    (r.1, { dev with act_log := r.2 })

/-- The local `first` of the `begin_io` / `complete_io` functions. -/
def al_first (i : drbd_interval) : Nat := u32 (i.sector >>> (AL_EXTENT_SHIFT - 9))

/-- The local `last` of the `begin_io` / `complete_io` functions. -/
def al_last (i : drbd_interval) : Nat :=
  if i.size = 0 then al_first i
  else u32 (u64_sub (u64 (i.sector + (i.size >>> 9))) 1 >>> (AL_EXTENT_SHIFT - 9))

/-- The values of `enr` in `for (enr = first; enr <= last; enr++)`. -/
def al_enrs (i : drbd_interval) : List Nat :=
  List.range' (al_first i) (al_last i + 1 - al_first i)

/-- `drbd_al_begin_io_fastpath`. -/
def drbd_al_begin_io_fastpath (dev : drbd_device) (i : drbd_interval) : Bool × drbd_device :=
  let first := al_first i
  let last := al_last i
  if first ≠ last then (false, dev)
  else
    let r := _al_get dev first true
    (r.1.isSome, r.2)

/-- The loop of `drbd_al_begin_io_prepare` over the extents that are left; each
`wait_event` calls `_al_get` and sleeps when that returns `NULL`. -/
def al_begin_io_prepare_loop : List Nat → Bool → drbd_device → Option Bool × drbd_device
  | [], need_transaction, dev => (some need_transaction, dev)
  | enr :: rest, need_transaction, dev =>
    match _al_get dev enr false with
    | (none, dev1) => (none, dev1)
    | (some al_ext, dev1) =>
      al_begin_io_prepare_loop rest
        (need_transaction || (dev1.act_log.elements al_ext).lc_number != enr) dev1

/-- `drbd_al_begin_io_prepare`. -/
def drbd_al_begin_io_prepare (dev : drbd_device) (i : drbd_interval) :
    Option Bool × drbd_device :=
  al_begin_io_prepare_loop (al_enrs i) false dev

/-- `al_extent_to_bm_bit`. -/
def al_extent_to_bm_bit (al_enr : Nat) : Nat := u64 (al_enr <<< (AL_EXTENT_SHIFT - BM_BLOCK_SHIFT))

/-- `rs_extent_to_bm_bit`. -/
def rs_extent_to_bm_bit (rs_enr : Nat) : Nat := u64 (rs_enr <<< (BM_EXT_SHIFT - BM_BLOCK_SHIFT))

/-- `al_tr_number_to_on_disk_sector`, as a function of the meta data geometry and of
`device->al_tr_number`. The result is `none` where the C code divides by zero. -/
def al_tr_number_to_on_disk_sector (md : drbd_md) (al_tr_number : Nat) : Option Int :=
  let stripes := md.al_stripes
  let stripe_size_4kB := md.al_stripe_size_4k
  if md.al_size_4k = 0 ∨ stripes = 0 then none
  else
    let t := al_tr_number % md.al_size_4k
    let t := u32 (u32 ((t % stripes) * stripe_size_4kB) + t / stripes)
    let t := u32 (t * 8)
    some (sector_wrap ((md.md_offset : Int) + md.al_offset + (t : Int)))

/-- The block index of the specification for transaction number `t`. -/
def al_block_index (md : drbd_md) (t : Nat) : Nat :=
  ((t % md.al_size_4k) % md.al_stripes) * md.al_stripe_size_4k
    + (t % md.al_size_4k) / md.al_stripes

/-- Modelled from the spec: `drbd_bm_mark_range_for_writeout` of drbd_bitmap.c: remember
that the bitmap pages of the bit range have to be written. -/
def drbd_bm_mark_range_for_writeout (hints : List (Nat × Nat)) (s e : Nat) : List (Nat × Nat) :=
  (s, e) :: hints

/-- The walk over `to_be_changed` in `_al_write_transaction`, started at slot `i`: the
result is the final `i`, the buffer and the writeout hints. -/
def al_fill_updates (al : lru_cache) :
    List Nat → Nat → al_transaction_on_disk → List (Nat × Nat) →
      Nat × al_transaction_on_disk × List (Nat × Nat)
  | [], i, buffer, hints => (i, buffer, hints)
  | e :: rest, i, buffer, hints =>
    if i = AL_UPDATES_PER_TRANSACTION then (i + 1, buffer, hints)
    else
      let el := al.elements e
      let buffer1 := { buffer with
        update_slot_nr := buffer.update_slot_nr.set i (cpu_to_be16 el.lc_index)
        update_extent_nr := buffer.update_extent_nr.set i (cpu_to_be32 el.lc_new_number) }
      let hints1 :=
        if el.lc_number ≠ LC_FREE then
          drbd_bm_mark_range_for_writeout hints (al_extent_to_bm_bit el.lc_number)
            (u64_sub (al_extent_to_bm_bit (u32 (el.lc_number + 1))) 1)
        else hints
      al_fill_updates al rest (i + 1) buffer1 hints1

/-- The loop `for ( ; i < AL_UPDATES_PER_TRANSACTION; i++)` that marks the unused update
slots. -/
def al_pad_updates (i : Nat) (buffer : al_transaction_on_disk) : al_transaction_on_disk :=
  (List.range' i (AL_UPDATES_PER_TRANSACTION - i)).foldl
    (fun (b : al_transaction_on_disk) j =>
      { b with update_slot_nr := b.update_slot_nr.set j (cpu_to_be16 (2 ^ 32 - 1))
               update_extent_nr := b.update_extent_nr.set j (cpu_to_be32 LC_FREE) })
    buffer

/-- The two loops of `_al_write_transaction` that fill `context`; `mx` is the `int`
computed with `min_t`. -/
def al_fill_context (al : lru_cache) (al_tr_cycle : Nat) (mx : Int)
    (buffer : al_transaction_on_disk) : al_transaction_on_disk :=
  let b1 := (List.range mx.toNat).foldl
    (fun (b : al_transaction_on_disk) i =>
      let idx := u32 (al_tr_cycle + i)
      let extent_nr := (lc_element_by_index al idx).lc_number
      { b with context := b.context.set i (cpu_to_be32 extent_nr) })
    buffer
  (List.range' mx.toNat (AL_CONTEXT_PER_TRANSACTION - mx.toNat)).foldl
    (fun (b : al_transaction_on_disk) i =>
      { b with context := b.context.set i (cpu_to_be32 LC_FREE) })
    b1

/-- The buffer of `_al_write_transaction` up to and including the checksum, with the
final value of `i` after the walk over `to_be_changed` and the new writeout hints. -/
def al_build_transaction (env : drbd_env) (dev : drbd_device) :
    Nat × al_transaction_on_disk × List (Nat × Nat) :=
  let buffer := { al_transaction_zero with
    magic := cpu_to_be32 env.DRBD_AL_MAGIC
    tr_number := cpu_to_be32 dev.al_tr_number }
  let r := al_fill_updates dev.act_log dev.act_log.to_be_changed 0 buffer dev.bm_hints
  let i := r.1
  let buffer := { r.2.1 with n_updates := cpu_to_be16 i }
  let buffer := al_pad_updates i buffer
  let buffer := { buffer with
    context_size := cpu_to_be16 dev.act_log.nr_elements
    context_start_slot_nr := cpu_to_be16 dev.al_tr_cycle }
  let mx := min (AL_CONTEXT_PER_TRANSACTION : Int)
    (int_of_u32 (u32_sub dev.act_log.nr_elements dev.al_tr_cycle))
  let buffer := al_fill_context dev.act_log dev.al_tr_cycle mx buffer
  let crc := env.crc32c 0 (al_transaction_bytes buffer)
  (i, { buffer with crc32c := cpu_to_be32 crc }, r.2.2)

/-- `_al_write_transaction`. The result is `none` when the call sleeps in
`drbd_md_get_buffer` because the meta data buffer is in use. A division by zero in
`al_tr_number_to_on_disk_sector` is recorded like a `BUG`. -/
def _al_write_transaction (env : drbd_env) (dev : drbd_device) : Option Int × drbd_device :=
  if !get_ldev dev then (some (- EIO), dev)
  else if dev.disk_state.val < drbd_disk_state.D_INCONSISTENT.val then (some (- EIO), dev)
  else if dev.md_io_in_use ≠ 0 then
    (if dev.disk_state.val ≤ drbd_disk_state.D_FAILED.val then some (-ENODEV) else none, dev)
  else
    let dev := { dev with md_io_in_use := 1 }
    let r := al_build_transaction env dev
    let i := r.1
    let buffer := r.2.1
    let dev := { dev with bm_hints := r.2.2 }
    if i > AL_UPDATES_PER_TRANSACTION then (none, { dev with bug := true })
    else
      let al_tr_cycle := u32 (dev.al_tr_cycle + AL_CONTEXT_PER_TRANSACTION)
      let dev := { dev with
        al_tr_cycle := if al_tr_cycle ≥ dev.act_log.nr_elements then 0 else al_tr_cycle }
      match al_tr_number_to_on_disk_sector dev.md dev.al_tr_number with
      | none => (none, { dev with bug := true })
      | some sector =>
        let dev := { dev with
          md_log := md_io_event.bm_write_hinted env.bm_write_hinted_ok :: dev.md_log
          bm_hints := if env.bm_write_hinted_ok then [] else dev.bm_hints }
        let r : Int × drbd_device :=
          if !env.bm_write_hinted_ok then (- EIO, dev)
          else if dev.al_updates then
            let dev := { dev with
              md_log := md_io_event.al_write sector buffer env.md_write_ok :: dev.md_log }
            if !env.md_write_ok then
              (- EIO, { dev with meta_io_errors := dev.meta_io_errors + 1 })
            else
              (0, { dev with al_tr_number := u32 (dev.al_tr_number + 1)
                             al_writ_cnt := u32 (dev.al_writ_cnt + 1) })
          else (0, dev)
        (some r.1, { r.2 with md_io_in_use := r.2.md_io_in_use - 1 })

/-- `w_al_write_transaction`, the work item run by the worker; the result is the pair of
`aw->err` and the return value of the work function. -/
def w_al_write_transaction (env : drbd_env) (dev : drbd_device) :
    Option (Int × Int) × drbd_device :=
  match _al_write_transaction env dev with
  | (none, dev1) => (none, dev1)
  | (some err, dev1) => (some (err, if err ≠ - EIO then err else 0), dev1)

/-- `al_write_transaction`: with `delegate` the worker runs the transaction and the
caller waits for its completion. -/
def al_write_transaction (env : drbd_env) (dev : drbd_device) (delegate : Bool) :
    Option Int × drbd_device :=
  if delegate then
    match w_al_write_transaction env dev with
    | (none, dev1) => (none, dev1)
    | (some r, dev1) => (some r.1, dev1)
  else _al_write_transaction env dev

/-- `drbd_al_begin_io_commit`. The result is `none` when the caller sleeps: on `al_wait`
because another transaction holds the lock, or inside the transaction. -/
def drbd_al_begin_io_commit (env : drbd_env) (dev : drbd_device) (delegate : Bool) :
    Option Unit × drbd_device :=
  let dev := if delegate && env.current_is_worker then { dev with bug := true } else dev
  if dev.act_log.pending_changes = 0 then (some (), dev)
  else
    let l := lc_try_lock_for_transaction dev.act_log
    let dev := { dev with act_log := l.2 }
    if !l.1 then (none, dev)
    else
      let r : Option Unit × drbd_device :=
        if dev.act_log.pending_changes ≠ 0 then
          let write_al_updates := dev.al_updates
          let w : Option Int × drbd_device :=
            if write_al_updates then al_write_transaction env dev delegate else (some 0, dev)
          match w with
          | (none, dev1) => (none, dev1)
          | (some _, dev1) => (some (), { dev1 with act_log := lc_committed dev1.act_log })
        else (some (), dev)
      match r with
      | (none, dev1) => (none, dev1)
      | (some _, dev1) =>
        (some (), wake_up_al_wait { dev1 with act_log := lc_unlock dev1.act_log })

/-- `drbd_al_begin_io`. -/
def drbd_al_begin_io (env : drbd_env) (dev : drbd_device) (i : drbd_interval)
    (delegate : Bool) : Option Unit × drbd_device :=
  let dev := if delegate && env.current_is_worker then { dev with bug := true } else dev
  match drbd_al_begin_io_prepare dev i with
  | (none, dev1) => (none, dev1)
  | (some true, dev1) => drbd_al_begin_io_commit env dev1 delegate
  | (some false, dev1) => (some (), dev1)

/-- The first loop of `drbd_al_begin_io_nonblock`: is resync active in this area? The
empty statement after `if (!test_and_set_bit (BME_PRIORITY, ...))` makes `return -EBUSY`
unconditional. The result is the return value if the loop returns. -/
def al_nonblock_check_resync : List Nat → drbd_device → Option Int × drbd_device
  | [], dev => (none, dev)
  | enr :: rest, dev =>
    match find_active_resync_extent dev enr with
    | some (p, i) =>
      let bm_ext := dev.bm_ext p i
      if bm_ext.flags.no_writes then
        let dev1 := dev.set_bm_ext p i
          { bm_ext with flags := { bm_ext.flags with priority := true } }
        (some (-EBUSY), dev1)
      else al_nonblock_check_resync rest dev
    | none => al_nonblock_check_resync rest dev

/-- The second loop of `drbd_al_begin_io_nonblock`: take the references. -/
def al_nonblock_get : List Nat → drbd_device → drbd_device
  | [], dev => dev
  | enr :: rest, dev =>
    al_nonblock_get rest { dev with act_log := (lc_get_cumulative dev.act_log enr).2 }

/-- `drbd_al_begin_io_nonblock`. -/
def drbd_al_begin_io_nonblock (dev : drbd_device) (i : drbd_interval) : Int × drbd_device :=
  let al := dev.act_log
  let first := al_first i
  let last := al_last i
  let nr_al_extents := u32_sub (u32 (1 + last)) first
  let available_update_slots := min (u32_sub al.nr_elements al.used)
    (u32_sub al.max_pending_changes al.pending_changes)
  if available_update_slots < nr_al_extents then (-EWOULDBLOCK, dev)
  else
    match al_nonblock_check_resync (al_enrs i) dev with
    | (some rv, dev1) => (rv, dev1)
    | (none, dev1) => (0, al_nonblock_get (al_enrs i) dev1)

/-- The loop of `drbd_al_complete_io`; the result says whether to wake `al_wait`. -/
def al_complete_io_loop : List Nat → Bool → drbd_device → Bool × drbd_device
  | [], wake, dev => (wake, dev)
  | enr :: rest, wake, dev =>
    match lc_find dev.act_log enr with
    | none => al_complete_io_loop rest wake dev
    | some extent =>
      let r := lc_put dev.act_log extent
      al_complete_io_loop rest (wake || r.1 == 0) { dev with act_log := r.2 }

/-- `drbd_al_complete_io`. -/
def drbd_al_complete_io (dev : drbd_device) (i : drbd_interval) : drbd_device :=
  let r := al_complete_io_loop (al_enrs i) false dev
  if r.1 then wake_up_al_wait r.2 else r.2

/-! ## `drbd_actlog.c`: the resync extents -/

/-- `bm_e_weight`: the number of set bits of bitmap extent `enr` for peer device `p`,
returned as `int`. -/
def bm_e_weight (dev : drbd_device) (p enr : Nat) : Int :=
  let start := u64 (enr <<< (BM_EXT_SHIFT - BM_BLOCK_SHIFT))
  let stop := u64_sub (u64 ((enr + 1) <<< (BM_EXT_SHIFT - BM_BLOCK_SHIFT))) 1
  int_of_u32 (drbd_bm_count_bits dev.bitmap (dev.peer p).bitmap_index start stop)

/-- `_bme_get`: get the resync element for `enr` (at most `nr_elements / 2` extents may be
held already), count it in `resync_locked` when it is newly held, set `BME_NO_WRITES`. -/
def _bme_get (dev : drbd_device) (p enr : Nat) : Option Nat × drbd_device :=
  let pd := dev.peer p
  if pd.resync_locked > pd.resync_lru.nr_elements / 2 then (none, dev)
  else
    let r := lc_get pd.resync_lru enr
    match r.1 with
    | some i =>
      let bm_ext := r.2.elements i
      let changed : Bool := bm_ext.lc_number != enr
      let lru1 :=
        if changed then
          lc_committed (lc_set_element r.2 i
            { bm_ext with rs_left := bm_e_weight dev p enr, rs_failed := 0 })
        else r.2
      let bm_ext1 := lru1.elements i
      let resync_locked :=
        if bm_ext1.refcnt = 1 then u32 (pd.resync_locked + 1) else pd.resync_locked
      let lru2 := lc_set_element lru1 i
        { bm_ext1 with flags := { bm_ext1.flags with no_writes := true } }
      let dev1 := dev.set_peer p { pd with resync_lru := lru2, resync_locked := resync_locked }
      (some i, if changed then wake_up_al_wait dev1 else dev1)
    | none =>
      let dev1 := dev.set_peer p { pd with resync_lru := r.2 }
      (none, if r.2.locked then { dev1 with bug := true } else dev1)

/-- `_is_in_al`. -/
def _is_in_al (dev : drbd_device) (enr : Nat) : Bool := lc_is_used dev.act_log enr

/-- How the `for` loop of `drbd_rs_begin_io` over the activity log extents ends. -/
inductive rs_wait_result where
  | proceed
  | sleeps
  | aside (sig : Bool)
deriving DecidableEq, Repr

/-- The `for` loop of `drbd_rs_begin_io` for the values of `i` that are left: wait until
the activity log extent is unused or `BME_PRIORITY` is set; step aside when the wait was
interrupted, or when `BME_PRIORITY` is set and `sa` is not used up. -/
def rs_begin_io_wait (dev : drbd_device) (p bm_ext enr : Nat) (signal_pending : Bool)
    (sa : Nat) : List Nat → rs_wait_result
  | [] => rs_wait_result.proceed
  | i :: rest =>
    let priority := (dev.bm_ext p bm_ext).flags.priority
    let cond := !_is_in_al dev (u32 (enr * AL_EXT_PER_BM_SECT + i)) || priority
    if !cond && !signal_pending then rs_wait_result.sleeps
    else
      let sig := !cond
      if sig || (priority && sa != 0) then rs_wait_result.aside sig
      else rs_begin_io_wait dev p bm_ext enr signal_pending sa rest

/-- Stepping aside in `drbd_rs_begin_io`: `lc_put` of the extent and, when that was the
last reference, clearing its flags, decrementing `resync_locked` and waking `al_wait`. -/
def rs_begin_io_step_aside (dev : drbd_device) (p bm_ext : Nat) : drbd_device :=
  let pd := dev.peer p
  let r := lc_put pd.resync_lru bm_ext
  let dev2 := dev.set_peer p { pd with resync_lru := r.2 }
  if r.1 = 0 then
    let e := dev2.bm_ext p bm_ext
    let dev2a := dev2.set_bm_ext p bm_ext { e with flags := {} }
    wake_up_al_wait (dev2a.set_peer p { dev2a.peer p with
      resync_locked := u32_sub (dev2a.peer p).resync_locked 1 })
  else dev2

/-- The part of `drbd_rs_begin_io` between the label `retry` and `goto retry`; `retry` is
what happens after the jump. -/
def rs_begin_io_body (env : drbd_env) (p enr sa : Nat)
    (retry : drbd_device → Option Int × drbd_device) (dev : drbd_device) :
    Option Int × drbd_device :=
  match _bme_get dev p enr with
  | (none, dev1) => (if env.signal_pending then some (-EINTR) else none, dev1)
  | (some bm_ext, dev1) =>
    if (dev1.bm_ext p bm_ext).flags.locked then (some 0, dev1)
    else
      match rs_begin_io_wait dev1 p bm_ext enr env.signal_pending sa
          (List.range AL_EXT_PER_BM_SECT) with
      | rs_wait_result.sleeps => (none, dev1)
      | rs_wait_result.proceed =>
        let e := dev1.bm_ext p bm_ext
        (some 0, dev1.set_bm_ext p bm_ext { e with flags := { e.flags with locked := true } })
      | rs_wait_result.aside sig =>
        let dev3 := rs_begin_io_step_aside dev1 p bm_ext
        if sig then (some (-EINTR), dev3)
        else if env.signal_pending then (some (-EINTR), dev3)
        else retry dev3

/-- `drbd_rs_begin_io` from the label `retry` on, with the current value of `sa`. A jump
back to `retry` is taken only while `sa` is not zero and decrements it. -/
def drbd_rs_begin_io_retry (env : drbd_env) (p enr : Nat) :
    Nat → drbd_device → Option Int × drbd_device
  | 0, dev => rs_begin_io_body env p enr 0 (fun d => (none, d)) dev
  | sa + 1, dev =>
    rs_begin_io_body env p enr (sa + 1) (fun d => drbd_rs_begin_io_retry env p enr sa d) dev

/-- `drbd_rs_begin_io` for peer device `p`. The result is `none` when the call sleeps on
`al_wait`. -/
def drbd_rs_begin_io (env : drbd_env) (dev : drbd_device) (p sector : Nat) :
    Option Int × drbd_device :=
  drbd_rs_begin_io_retry env p (u32 (BM_SECT_TO_EXT sector)) 200 dev

/-- The first part of `drbd_try_rs_begin_io`: give up the extent remembered in
`resync_wenr` when another extent is asked for. -/
def try_rs_release_wenr (dev : drbd_device) (p enr : Nat) : drbd_device :=
  let pd := dev.peer p
  if pd.resync_wenr ≠ LC_FREE ∧ pd.resync_wenr ≠ enr then
    match lc_find pd.resync_lru pd.resync_wenr with
    | some i =>
      let bm_ext := pd.resync_lru.elements i
      let lru1 := lc_set_element pd.resync_lru i
        { bm_ext with flags := { bm_ext.flags with no_writes := false } }
      let r := lc_put lru1 i
      let resync_locked :=
        if r.1 = 0 then u32_sub pd.resync_locked 1 else pd.resync_locked
      wake_up_al_wait (dev.set_peer p { pd with
        resync_lru := r.2, resync_wenr := LC_FREE, resync_locked := resync_locked })
    | none => dev
  else dev

/-- The labels `check_al`, `proceed` and `try_again` of `drbd_try_rs_begin_io` for the
element `bm_ext`. -/
def try_rs_check_al (dev : drbd_device) (p enr bm_ext : Nat) : Int × drbd_device :=
  let al_enr := u32 (enr * AL_EXT_PER_BM_SECT)
  if (List.range AL_EXT_PER_BM_SECT).any (fun i => lc_is_used dev.act_log (u32 (al_enr + i)))
  then (-EAGAIN, dev.set_peer p { dev.peer p with resync_wenr := enr })
  else
    let e := dev.bm_ext p bm_ext
    let dev1 := dev.set_bm_ext p bm_ext { e with flags := { e.flags with locked := true } }
    (0, dev1.set_peer p { dev1.peer p with resync_wenr := LC_FREE })

/-- `drbd_try_rs_begin_io` for peer device `p`. -/
def drbd_try_rs_begin_io (dev : drbd_device) (p sector : Nat) : Int × drbd_device :=
  let enr := u32 (BM_SECT_TO_EXT sector)
  let dev := try_rs_release_wenr dev p enr
  let pd := dev.peer p
  let r := lc_try_get pd.resync_lru enr
  match r.1 with
  | some i =>
    let bm_ext := r.2.elements i
    let dev1 := dev.set_peer p { pd with resync_lru := r.2 }
    if bm_ext.flags.locked then
      (0, dev1.set_peer p { dev1.peer p with resync_wenr := LC_FREE })
    else if !bm_ext.flags.no_writes then
      let dev2 := dev1.set_bm_ext p i
        { bm_ext with flags := { bm_ext.flags with no_writes := true } }
      let dev3 := dev2.set_peer p { dev2.peer p with
        resync_locked := u32 ((dev2.peer p).resync_locked + 1) }
      try_rs_check_al dev3 p enr i
    else
      let dev2 := dev1.set_bm_ext p i { bm_ext with refcnt := u32_sub bm_ext.refcnt 1 }
      try_rs_check_al dev2 p enr i
  | none =>
    let dev1 := dev.set_peer p { pd with resync_lru := r.2 }
    if pd.resync_locked > u32_sub pd.resync_lru.nr_elements 3 then (-EAGAIN, dev1)
    else
      let r2 := lc_get r.2 enr
      match r2.1 with
      | none =>
        let dev2 := dev1.set_peer p { dev1.peer p with resync_lru := r2.2 }
        (-EAGAIN, if r2.2.locked then { dev2 with bug := true } else dev2)
      | some i =>
        let bm_ext := r2.2.elements i
        let changed : Bool := bm_ext.lc_number != enr
        let lru1 :=
          if changed then
            lc_committed (lc_set_element r2.2 i
              { bm_ext with rs_left := bm_e_weight dev1 p enr, rs_failed := 0 })
          else r2.2
        let bm_ext1 := lru1.elements i
        let lru2 := lc_set_element lru1 i
          { bm_ext1 with flags := { bm_ext1.flags with no_writes := true } }
        let dev2 := dev1.set_peer p { dev1.peer p with
          resync_lru := lru2, resync_locked := u32 ((dev1.peer p).resync_locked + 1) }
        let dev3 := if changed then wake_up_al_wait dev2 else dev2
        try_rs_check_al dev3 p enr i

/-- `drbd_rs_complete_io` for peer device `p`. -/
def drbd_rs_complete_io (dev : drbd_device) (p sector : Nat) : drbd_device :=
  let enr := u32 (BM_SECT_TO_EXT sector)
  let pd := dev.peer p
  match lc_find pd.resync_lru enr with
  | none => dev
  | some i =>
    if (pd.resync_lru.elements i).refcnt = 0 then dev
    else
      let r := lc_put pd.resync_lru i
      if r.1 = 0 then
        let e := r.2.elements i
        wake_up_al_wait (dev.set_peer p { pd with
          resync_lru := lc_set_element r.2 i { e with flags := {} }
          resync_locked := u32_sub pd.resync_locked 1 })
      else dev.set_peer p { pd with resync_lru := r.2 }

/-- `drbd_rs_cancel_all` for peer device `p`. -/
def drbd_rs_cancel_all (dev : drbd_device) (p : Nat) : drbd_device :=
  let pd := dev.peer p
  let lru :=
    if drbd_disk_state.D_FAILED.val ≤ dev.disk_state.val then lc_reset pd.resync_lru
    else pd.resync_lru
  wake_up_al_wait (dev.set_peer p { pd with
    resync_lru := lru, resync_locked := 0, resync_wenr := LC_FREE })

/-- The loop of `drbd_rs_del_all` over the element indices that are left; the result is
`true` when the loop returns `-EAGAIN`. -/
def rs_del_all_loop : List Nat → drbd_peer_device → Bool × drbd_peer_device
  | [], pd => (false, pd)
  | i :: rest, pd =>
    let bm_ext := pd.resync_lru.elements i
    if bm_ext.lc_number = LC_FREE then rs_del_all_loop rest pd
    else
      let pd1 :=
        if bm_ext.lc_number = pd.resync_wenr then
          let lru1 := lc_set_element pd.resync_lru i
            { bm_ext with flags := { bm_ext.flags with no_writes := false } }
          { pd with resync_wenr := LC_FREE, resync_lru := (lc_put lru1 i).2 }
        else pd
      if (pd1.resync_lru.elements i).refcnt ≠ 0 then (true, pd1)
      else rs_del_all_loop rest { pd1 with resync_lru := lc_del pd1.resync_lru i }

/-- `drbd_rs_del_all` for peer device `p`. -/
def drbd_rs_del_all (dev : drbd_device) (p : Nat) : Int × drbd_device :=
  if drbd_disk_state.D_FAILED.val ≤ dev.disk_state.val then
    let r := rs_del_all_loop (List.range (dev.peer p).resync_lru.nr_elements) (dev.peer p)
    if r.1 then (-EAGAIN, dev.set_peer p r.2)
    else (0, wake_up_al_wait (dev.set_peer p r.2))
  else (0, wake_up_al_wait dev)

/-! ## `drbd_actlog.c`: setting blocks in sync -/

/-- `drbd_try_clear_on_disk_bm` for peer device `p`; `count` and `success` are the `int`
parameters. -/
def drbd_try_clear_on_disk_bm (env : drbd_env) (dev : drbd_device) (p enr : Nat)
    (count : Int) (success : Bool) : drbd_device :=
  let pd := dev.peer p
  let r := lc_get pd.resync_lru enr
  match r.1 with
  | some i =>
    let ext := r.2.elements i
    let lru1 :=
      if ext.lc_number = enr then
        let ext1 := if success then { ext with rs_left := ext.rs_left - count }
                    else { ext with rs_failed := ext.rs_failed + count }
        let ext2 := if ext1.rs_left < ext1.rs_failed
                    then { ext1 with rs_left := bm_e_weight dev p enr } else ext1
        lc_set_element r.2 i ext2
      else
        let rs_left := bm_e_weight dev p enr
        let ext1 := if ext.flags ≠ {} then { ext with flags := {} } else ext
        lc_committed (lc_set_element r.2 i
          { ext1 with rs_left := rs_left, rs_failed := if success then 0 else count })
    let lru2 := (lc_put lru1 i).2
    let ext3 := lru2.elements i
    if ext3.rs_left = ext3.rs_failed then
      let lru3 := lc_set_element lru2 i { ext3 with rs_failed := 0 }
      let dev1 := dev.set_peer p { pd with resync_lru := lru3 }
      if env.kmalloc_ok then
        { dev1 with work := dev1.work ++ [{ peer_device := p, enr := ext3.lc_number }] }
      else dev1
    else dev.set_peer p { pd with resync_lru := lru2 }
  | none => dev.set_peer p { pd with resync_lru := r.2 }

/-- `drbd_advance_rs_marks` for peer device `p`; `time_after_eq` compares the jiffies as
signed differences. -/
def drbd_advance_rs_marks (env : drbd_env) (dev : drbd_device) (p still_to_go : Nat) :
    drbd_device :=
  let pd := dev.peer p
  let now := env.jiffies
  let last := pd.rs_mark_time pd.rs_last_mark
  let next := (pd.rs_last_mark + 1) % env.DRBD_SYNC_MARKS
  if u64_sub now (u64 (last + env.DRBD_SYNC_MARK_STEP)) < 2 ^ 63 then
    if pd.rs_mark_left pd.rs_last_mark ≠ still_to_go ∧
        pd.repl_state ≠ drbd_repl_state.L_PAUSED_SYNC_T ∧
        pd.repl_state ≠ drbd_repl_state.L_PAUSED_SYNC_S then
      dev.set_peer p { pd with
        rs_mark_time := Function.update pd.rs_mark_time next now
        rs_mark_left := Function.update pd.rs_mark_left next still_to_go
        rs_last_mark := next }
    else dev
  else dev

/-- `after_clear_bits` for peer device `p`. -/
def after_clear_bits (env : drbd_env) (dev : drbd_device) (p sbnr count : Nat) : drbd_device :=
  let enr := u32 (sbnr >>> (BM_EXT_SHIFT - BM_BLOCK_SHIFT))
  let dev1 := drbd_advance_rs_marks env dev p
    (bm_total_weight dev.bitmap (dev.peer p).bitmap_index)
  drbd_try_clear_on_disk_bm env dev1 p enr (int_of_u32 count) true

/-- `__set_in_sync` for peer device `p`. -/
def __set_in_sync (env : drbd_env) (dev : drbd_device) (p sbnr ebnr : Nat) :
    Bool × drbd_device :=
  let r := drbd_bm_clear_bits dev.bitmap (dev.peer p).bitmap_index sbnr ebnr
  let count := r.1
  let dev1 := { dev with bitmap := r.2 }
  if count ≠ 0 then (true, after_clear_bits env dev1 p sbnr count)
  else (false, dev1)

/-- `__set_in_sync_locked` for peer device `p`. -/
def __set_in_sync_locked (env : drbd_env) (dev : drbd_device) (p sbnr ebnr : Nat) :
    Bool × drbd_device :=
  let r := drbd_bm_clear_bits dev.bitmap (dev.peer p).bitmap_index sbnr ebnr
  let count := r.1
  let dev1 := { dev with bitmap := r.2 }
  (decide (count > 0), if count ≠ 0 then after_clear_bits env dev1 p sbnr count else dev1)

/-- The bit range `sbnr .. ebnr` that `set_in_sync` clears for a request that passed the
check of `size`, on a device of `nr_sectors` sectors; `none` where the function jumps to
`out`. -/
def set_in_sync_range (nr_sectors sector : Nat) (size : Int) : Option (Nat × Nat) :=
  let esector := u64_sub (u64 (sector + (size / 2 ^ 9).toNat)) 1
  if ¬ sector < nr_sectors then none
  else
    let esector := if ¬ esector < nr_sectors then u64_sub nr_sectors 1 else esector
    let lbnr := BM_SECT_TO_BIT (u64_sub nr_sectors 1)
    if esector < BM_SECT_PER_BIT - 1 then none
    else
      let ebnr :=
        if esector = u64_sub nr_sectors 1 then lbnr
        else BM_SECT_TO_BIT (u64_sub esector (BM_SECT_PER_BIT - 1))
      let sbnr := BM_SECT_TO_BIT (u64 (u64 (sector + BM_SECT_PER_BIT) - 1))
      if sbnr > ebnr then none else some (sbnr, ebnr)

/-- The statement `for_each_peer_device (peer_device, device) wake_up |= __set_in_sync
(...)` of `set_in_sync` for the peer devices that are left. -/
def set_in_sync_all (env : drbd_env) (sbnr ebnr : Nat) :
    List Nat → Bool → drbd_device → Bool × drbd_device
  | [], wake_up, dev => (wake_up, dev)
  | p :: rest, wake_up, dev =>
    let r := __set_in_sync env dev p sbnr ebnr
    set_in_sync_all env sbnr ebnr rest (wake_up || r.1) r.2

/-- `set_in_sync`; `peer_device` is `none` for the `NULL` pointer, `size` is an `int`. -/
def set_in_sync (env : drbd_env) (dev : drbd_device) (peer_device : Option Nat)
    (sector : Nat) (size : Int) : drbd_device :=
  if size ≤ 0 ∨ size % 512 ≠ 0 ∨ size > env.DRBD_MAX_BIO_SIZE then dev
  else if !get_ldev dev then dev
  else
    match set_in_sync_range dev.capacity sector size with
    | none => dev
    | some (sbnr, ebnr) =>
      let r :=
        match peer_device with
        | some p => __set_in_sync env dev p sbnr ebnr
        | none => set_in_sync_all env sbnr ebnr (List.range dev.nr_peers) false dev
      if r.1 then wake_up_al_wait r.2 else r.2

/-- `drbd_set_in_sync` for peer device `p`. -/
def drbd_set_in_sync (env : drbd_env) (dev : drbd_device) (p sector : Nat) (size : Int) :
    drbd_device :=
  set_in_sync env dev (some p) sector size

/-! ## `drbd_actlog.c`: setting blocks out of sync -/

/-- The `int` that results when the `unsigned int` value of `z` is stored in an `int`. -/
def int_of_unsigned (z : Int) : Int := int_of_u32 (z % 2 ^ 32).toNat

/-- `__set_out_of_sync` for peer device `p`; `count` is an `unsigned int`, `rs_left` an
`int`. -/
def __set_out_of_sync (dev : drbd_device) (p sbnr ebnr : Nat) : Bool × drbd_device :=
  let enr := u32 (sbnr >>> (BM_EXT_SHIFT - BM_BLOCK_SHIFT))
  let r := drbd_bm_set_bits dev.bitmap (dev.peer p).bitmap_index sbnr ebnr
  let count := u32 r.1
  let dev1 := { dev with bitmap := r.2 }
  match lc_find (dev1.peer p).resync_lru enr with
  | some e =>
    let bm_ext := dev1.bm_ext p e
    (count != 0,
      dev1.set_bm_ext p e { bm_ext with rs_left := int_of_unsigned (bm_ext.rs_left + count) })
  | none => (count != 0, dev1)

/-- The bit range `sbnr .. ebnr` that `set_out_of_sync` sets for a request that passed the
check of `size`, on a device of `nr_sectors` sectors; `none` where the function jumps to
`out`. -/
def set_out_of_sync_range (nr_sectors sector : Nat) (size : Int) : Option (Nat × Nat) :=
  let esector := u64_sub (u64 (sector + (size / 2 ^ 9).toNat)) 1
  if ¬ sector < nr_sectors then none
  else
    let esector := if ¬ esector < nr_sectors then u64_sub nr_sectors 1 else esector
    some (BM_SECT_TO_BIT sector, BM_SECT_TO_BIT esector)

/-- The statement `for_each_peer_device (peer_device, device) set |= __set_out_of_sync
(...)` of `set_out_of_sync` for the peer devices that are left. -/
def set_out_of_sync_all (sbnr ebnr : Nat) : List Nat → Bool → drbd_device → Bool × drbd_device
  | [], set, dev => (set, dev)
  | p :: rest, set, dev =>
    let r := __set_out_of_sync dev p sbnr ebnr
    set_out_of_sync_all sbnr ebnr rest (set || r.1) r.2

/-- `set_out_of_sync`; `peer_device` is `none` for the `NULL` pointer, `size` is an
`int`. -/
def set_out_of_sync (env : drbd_env) (dev : drbd_device) (peer_device : Option Nat)
    (sector : Nat) (size : Int) : Bool × drbd_device :=
  if size = 0 then (false, dev)
  else if size < 0 ∨ size % 512 ≠ 0 ∨ size > env.DRBD_MAX_BIO_SIZE then (false, dev)
  else if !get_ldev dev then (false, dev)
  else
    match set_out_of_sync_range dev.capacity sector size with
    | none => (false, dev)
    | some (sbnr, ebnr) =>
      match peer_device with
      | some p => __set_out_of_sync dev p sbnr ebnr
      | none => set_out_of_sync_all sbnr ebnr (List.range dev.nr_peers) false dev

/-- `drbd_set_out_of_sync` for peer device `p`. -/
def drbd_set_out_of_sync (env : drbd_env) (dev : drbd_device) (p sector : Nat) (size : Int) :
    Bool × drbd_device :=
  set_out_of_sync env dev (some p) sector size

/-! ## `drbd_actlog.c`: `drbd_set_sync` -/

/-- The locals `set_start`, `set_end`, `clear_start` and `clear_end` of `drbd_set_sync`
on a device of `nr_sectors` sectors; `none` where the function jumps to `out`. The
sector arithmetic is that of the 64 bit `sector_t`. -/
def set_sync_range (nr_sectors sector : Nat) (size : Int) : Option (Nat × Nat × Nat × Nat) :=
  let esector := u64_sub (u64 (sector + (size / 2 ^ 9).toNat)) 1
  if ¬ sector < nr_sectors then none
  else
    let esector := if ¬ esector < nr_sectors then u64_sub nr_sectors 1 else esector
    let set_start := BM_SECT_TO_BIT sector
    let set_end := BM_SECT_TO_BIT esector
    let clear_start := BM_SECT_TO_BIT (u64_sub (u64 (sector + BM_SECT_PER_BIT)) 1)
    let clear_end :=
      if esector = u64_sub nr_sectors 1 then BM_SECT_TO_BIT (u64_sub nr_sectors 1)
      else BM_SECT_TO_BIT (u64 (u64_sub esector BM_SECT_PER_BIT + 1))
    some (set_start, set_end, clear_start, clear_end)

/-- The word `mask` after `clear_bit (nr, &mask)`. -/
def clear_bit (nr mask : Nat) : Nat := if mask.testBit nr then mask - 2 ^ nr else mask

/-- The loop `for_each_peer_device` of `drbd_set_sync` for the peer devices that are
left; the state is `mask`, `set`, `wake_up` and the device. -/
def set_sync_peers (env : drbd_env) (bits set_start set_end clear_start clear_end : Nat) :
    List Nat → Nat → Bool → Bool → drbd_device → Nat × Bool × Bool × drbd_device
  | [], mask, set, wake_up, dev => (mask, set, wake_up, dev)
  | p :: rest, mask, set, wake_up, dev =>
    let bitmap_index := (dev.peer p).bitmap_index
    if !mask.testBit bitmap_index then
      set_sync_peers env bits set_start set_end clear_start clear_end rest mask set wake_up dev
    else
      let mask := clear_bit bitmap_index mask
      if bits.testBit bitmap_index then
        let r := __set_out_of_sync dev p set_start set_end
        set_sync_peers env bits set_start set_end clear_start clear_end rest mask set
          (wake_up || r.1) r.2
      else if clear_start ≤ clear_end then
        let r := __set_in_sync_locked env dev p clear_start clear_end
        set_sync_peers env bits set_start set_end clear_start clear_end rest mask
          (set || r.1) wake_up r.2
      else
        set_sync_peers env bits set_start set_end clear_start clear_end rest mask set wake_up
          dev

/-- The loop `for_each_set_bit (bitmap_index, &mask, BITS_PER_LONG)` of `drbd_set_sync`
for the bitmap indexes that are left. -/
def set_sync_rest (bits mask set_start set_end clear_start clear_end : Nat) :
    List Nat → drbd_bitmap → drbd_bitmap
  | [], bm => bm
  | bitmap_index :: rest, bm =>
    if mask.testBit bitmap_index then
      if bits.testBit bitmap_index then
        set_sync_rest bits mask set_start set_end clear_start clear_end rest
          (drbd_bm_set_bits bm bitmap_index set_start set_end).2
      else if clear_start ≤ clear_end then
        set_sync_rest bits mask set_start set_end clear_start clear_end rest
          (drbd_bm_clear_bits bm bitmap_index clear_start clear_end).2
      else set_sync_rest bits mask set_start set_end clear_start clear_end rest bm
    else set_sync_rest bits mask set_start set_end clear_start clear_end rest bm

/-- `drbd_set_sync`; `bits` and `mask` are `unsigned long`, `size` is an `int`. The
expression `(1 << bm_max_peers) - 1` is computed in `int` and converted to
`unsigned long`: it is `2 ^ bm_max_peers - 1` for `bm_max_peers` below 31, and for larger
values, where C leaves the shift undefined, the value comes from the environment. -/
def drbd_set_sync (env : drbd_env) (dev : drbd_device) (sector : Nat) (size : Int)
    (bits mask : Nat) : Bool × drbd_device :=
  let peers : Nat :=
    if dev.bitmap.bm_max_peers < 31 then 2 ^ dev.bitmap.bm_max_peers - 1
    else env.int_shift_overflow dev.bitmap.bm_max_peers
  let mask := u64 mask &&& u64 peers
  if size ≤ 0 ∨ size % 512 ≠ 0 then (false, dev)
  else if !get_ldev dev then (false, dev)
  else
    match set_sync_range dev.capacity sector size with
    | none => (false, dev)
    | some (set_start, set_end, clear_start, clear_end) =>
      let r := set_sync_peers env bits set_start set_end clear_start clear_end
        (List.range dev.nr_peers) mask false false dev
      let mask := r.1
      let set := r.2.1
      let wake_up := r.2.2.1
      let dev1 := r.2.2.2
      let dev2 :=
        if mask ≠ 0 then
          { dev1 with
            bitmap := (set_sync_rest bits mask set_start set_end clear_start clear_end
              (List.range 64) dev1.bitmap) }
        else dev1
      (set, if wake_up then wake_up_al_wait dev2 else dev2)

/-- `drbd_set_all_out_of_sync`. -/
def drbd_set_all_out_of_sync (env : drbd_env) (dev : drbd_device) (sector : Nat) (size : Int) :
    Bool × drbd_device :=
  drbd_set_sync env dev sector size (2 ^ 64 - 1) (2 ^ 64 - 1)

/-! ## Predicates used in the statements and proofs -/

/-- All bits of the inclusive range `s .. e` of bitmap `idx` are clear. -/
def bm_clear_in (bm : drbd_bitmap) (idx s e : Nat) : Prop :=
  ∀ k, s ≤ k → k ≤ e → k < bm.bm_bits → bm.bits idx k = false

/-- The fields that `set_in_sync` reads before it touches the bitmap are the same in both
devices. -/
def sync_frame (d d' : drbd_device) : Prop :=
  d'.capacity = d.capacity ∧ d'.disk_state = d.disk_state ∧ d'.nr_peers = d.nr_peers ∧
    ∀ q, (d'.peer q).bitmap_index = (d.peer q).bitmap_index

/-! ## A small device for the concrete runs -/

/-- Meta data geometry of the example device: four stripes of two 4 KiB blocks. -/
def example_md : drbd_md :=
  { md_offset := 4096, al_offset := -64, al_stripes := 4, al_stripe_size_4k := 2,
    al_size_4k := 8 }

/-- The example device: 4 activity log extents, one peer with 7 resync extents, 2 ^ 20
sectors, everything empty. -/
def example_device : drbd_device := drbd_device.create 4 1 7 example_md (2 ^ 20)

/-- An environment in which every allocation and every write succeeds. -/
def example_env : drbd_env :=
  { DRBD_AL_MAGIC := 0x69cb65a2, DRBD_MAX_BIO_SIZE := 2 ^ 20, DRBD_SYNC_MARKS := 8,
    DRBD_SYNC_MARK_STEP := 750, crc32c := fun _ _ => 0, jiffies := 0, kmalloc_ok := true,
    bm_write_hinted_ok := true, md_write_ok := true, current_is_worker := false,
    signal_pending := false }

/-- The example environment with a failing write of the transaction block. -/
def example_env_md_fails : drbd_env := { example_env with md_write_ok := false }

/-- `BME_LOCKED` implies `BME_NO_WRITES` on every element of every peer's resync LRU. -/
def bme_locked_implies_no_writes (dev : drbd_device) : Prop :=
  ∀ p, p < dev.nr_peers → ∀ i, i < (dev.peer p).resync_lru.nr_elements →
    (dev.bm_ext p i).flags.locked = true → (dev.bm_ext p i).flags.no_writes = true

instance (dev : drbd_device) : Decidable (bme_locked_implies_no_writes dev) := by
  unfold bme_locked_implies_no_writes
  infer_instance

/-! ## Invariants of the LRU caches and of the device -/

/-- Consistency of the lists of an LRU cache with its elements: an element on the free or
the lru list has a valid index, no reference and no pending change; no two hashed
elements have the same `lc_new_number`; an element with a pending change is on
`to_be_changed`. -/
def lc_wf (lc : lru_cache) : Prop :=
  (∀ i, i ∈ lc.free ∨ i ∈ lc.lru →
    i < lc.nr_elements ∧ (lc.elements i).refcnt = 0 ∧
      (lc.elements i).lc_number = (lc.elements i).lc_new_number) ∧
  (∀ i j, i < lc.nr_elements → j < lc.nr_elements →
    (lc.elements i).hashed = true → (lc.elements j).hashed = true →
    (lc.elements i).lc_new_number = (lc.elements j).lc_new_number → i = j) ∧
  (∀ i, i < lc.nr_elements →
    (lc.elements i).lc_number ≠ (lc.elements i).lc_new_number → i ∈ lc.to_be_changed)

/-- Two caches agree in everything that `lc_wf` and the lookups depend on. -/
def lc_same_core (a b : lru_cache) : Prop :=
  a.nr_elements = b.nr_elements ∧ a.elements = b.elements ∧ a.free = b.free ∧
    a.lru = b.lru ∧ a.to_be_changed = b.to_be_changed

/-- None of the activity log extents of bitmap extent `enr` is in use: the condition
`!_is_in_al (device, enr * AL_EXT_PER_BM_SECT + i)` that `drbd_rs_begin_io` waits for,
for every `i`. -/
def rs_al_extents_unused (dev : drbd_device) (enr : Nat) : Bool :=
  (List.range AL_EXT_PER_BM_SECT).all
    (fun i => !_is_in_al dev (u32 (enr * AL_EXT_PER_BM_SECT + i)))

/-- The part of `drbd_rs_begin_io` between `retry` and `goto retry` ends in the forced
take: the `for` loop is left with `BME_PRIORITY` set and `sa` used up, and `BME_LOCKED` is
set although an activity log extent of the bitmap extent is still in use. `retry` says
the same of what happens after the jump. -/
def rs_begin_io_body_forced (env : drbd_env) (p enr sa : Nat)
    (retry : drbd_device → Bool) (dev : drbd_device) : Bool :=
  match _bme_get dev p enr with
  | (none, _) => false
  | (some bm_ext, dev1) =>
    if (dev1.bm_ext p bm_ext).flags.locked then false
    else
      match rs_begin_io_wait dev1 p bm_ext enr env.signal_pending sa
          (List.range AL_EXT_PER_BM_SECT) with
      | rs_wait_result.sleeps => false
      | rs_wait_result.proceed =>
        (dev1.bm_ext p bm_ext).flags.priority && sa == 0 && !rs_al_extents_unused dev1 enr
      | rs_wait_result.aside sig =>
        if sig then false
        else if env.signal_pending then false
        else retry (rs_begin_io_step_aside dev1 p bm_ext)

/-- The call of `drbd_rs_begin_io` from the label `retry` on, with the current value of
`sa`, ends in the forced take ("Step aside 200 times, then grab the extent and let app-IO
wait"). -/
def drbd_rs_begin_io_forced (env : drbd_env) (p enr : Nat) : Nat → drbd_device → Bool
  | 0, dev => rs_begin_io_body_forced env p enr 0 (fun _ => false) dev
  | sa + 1, dev =>
    rs_begin_io_body_forced env p enr (sa + 1)
      (fun d => drbd_rs_begin_io_forced env p enr sa d) dev

/-- The operations on activity log and resync extents, each one an atomic step. -/
inductive al_rs_op where
  | al_begin_io_fastpath (i : drbd_interval)
  | al_begin_io_prepare (i : drbd_interval)
  | al_begin_io_commit (env : drbd_env) (delegate : Bool)
  | al_begin_io_nonblock (i : drbd_interval)
  | al_complete_io (i : drbd_interval)
  | rs_begin_io (env : drbd_env) (p sector : Nat)
  | try_rs_begin_io (p sector : Nat)
  | rs_complete_io (p sector : Nat)

/-- The device after one operation. -/
def al_rs_step (dev : drbd_device) : al_rs_op → drbd_device
  | al_rs_op.al_begin_io_fastpath i => (drbd_al_begin_io_fastpath dev i).2
  | al_rs_op.al_begin_io_prepare i => (drbd_al_begin_io_prepare dev i).2
  | al_rs_op.al_begin_io_commit env delegate => (drbd_al_begin_io_commit env dev delegate).2
  | al_rs_op.al_begin_io_nonblock i => (drbd_al_begin_io_nonblock dev i).2
  | al_rs_op.al_complete_io i => drbd_al_complete_io dev i
  | al_rs_op.rs_begin_io env p sector => (drbd_rs_begin_io env dev p sector).2
  | al_rs_op.try_rs_begin_io p sector => (drbd_try_rs_begin_io dev p sector).2
  | al_rs_op.rs_complete_io p sector => drbd_rs_complete_io dev p sector

/-- The device after a sequence of operations. -/
def al_rs_run (dev : drbd_device) (ops : List al_rs_op) : drbd_device :=
  ops.foldl al_rs_step dev

/-- The calls under which the mutual exclusion is kept: the resync operations are made for
a peer device that exists, and a call of `drbd_rs_begin_io` is neither made for the extent
remembered in `resync_wenr` nor does it end in the forced take. A call that finds an
activity log extent in use and sleeps or steps aside is admitted. -/
def al_rs_op_admitted (dev : drbd_device) : al_rs_op → Prop
  | al_rs_op.rs_begin_io env p sector =>
    p < dev.nr_peers ∧
    ((dev.peer p).resync_wenr = LC_FREE ∨
      (dev.peer p).resync_wenr ≠ u32 (BM_SECT_TO_EXT sector)) ∧
    drbd_rs_begin_io_forced env p (u32 (BM_SECT_TO_EXT sector)) 200 dev = false
  | al_rs_op.try_rs_begin_io p _ => p < dev.nr_peers
  | _ => True

/-- Every operation of the sequence is admitted in the state in which it is made. -/
def al_rs_run_admitted : drbd_device → List al_rs_op → Prop
  | _, [] => True
  | dev, op :: ops => al_rs_op_admitted dev op ∧ al_rs_run_admitted (al_rs_step dev op) ops

instance (dev : drbd_device) (op : al_rs_op) : Decidable (al_rs_op_admitted dev op) := by
  cases op <;> unfold al_rs_op_admitted <;> infer_instance

/-- Whether every operation of a sequence is admitted can be computed. -/
def al_rs_run_admitted_dec : (dev : drbd_device) → (ops : List al_rs_op) →
    Decidable (al_rs_run_admitted dev ops)
  | _, [] => isTrue trivial
  | dev, op :: ops =>
    match (inferInstance : Decidable (al_rs_op_admitted dev op)),
        al_rs_run_admitted_dec (al_rs_step dev op) ops with
    | isTrue h1, isTrue h2 => isTrue ⟨h1, h2⟩
    | isFalse h1, _ => isFalse (fun h => h1 h.1)
    | _, isFalse h2 => isFalse (fun h => h2 h.2)

instance (dev : drbd_device) (ops : List al_rs_op) : Decidable (al_rs_run_admitted dev ops) :=
  al_rs_run_admitted_dec dev ops

/-- The example device after `drbd_al_begin_io_prepare` for a request of 4 KiB that
crosses from activity log extent 0 into extent 1. -/
def example_device_prepared : drbd_device :=
  (drbd_al_begin_io_prepare example_device ⟨8190, 4096⟩).2

/-! ## Statements about the transactions -/

/-- The call of `_al_write_transaction` gets past its checks and builds a block: the disk
can be used, the meta data buffer is free, at most `AL_UPDATES_PER_TRANSACTION` changes
are pending and the geometry of the on disk activity log is not degenerate. -/
def al_transaction_ready (dev : drbd_device) : Prop :=
  get_ldev dev = true ∧ dev.md_io_in_use = 0 ∧
    dev.act_log.to_be_changed.length ≤ AL_UPDATES_PER_TRANSACTION ∧
    dev.md.al_size_4k ≠ 0 ∧ dev.md.al_stripes ≠ 0

instance (dev : drbd_device) : Decidable (al_transaction_ready dev) := by
  unfold al_transaction_ready
  infer_instance

/-- The events that were added to the log `before` to give the log `after` (the most
recent event first). -/
def md_log_new (before after : List md_io_event) : List md_io_event :=
  after.take (after.length - before.length)

/-- The device after `t` calls of `_al_write_transaction`, call number `k` made in the
environment `envs k`. -/
def al_write_transactions (envs : Nat → drbd_env) (dev : drbd_device) : Nat → drbd_device
  | 0 => dev
  | t + 1 => (_al_write_transaction (envs t) (al_write_transactions envs dev t)).2

/-- The example environment with a failing write of the hinted bitmap pages. -/
def example_env_bm_fails : drbd_env := { example_env with bm_write_hinted_ok := false }

/-- A device with 1000 activity log extents, for which the context of the activity log
needs two transactions. -/
def example_device_large : drbd_device := drbd_device.create 1000 1 7 example_md (2 ^ 20)

/-- A device of 64 sectors (8 bitmap bits) with one peer, all of it out of sync for
that peer. -/
def example_device_dirty : drbd_device :=
  (drbd_set_out_of_sync example_env (drbd_device.create 4 1 7 example_md 64) 0 0 32768).2

/-- The example device after `_bme_get` for the extents 0, 1 and 2 of peer 0: three of
its seven resync elements are held. -/
def example_device_three_held : drbd_device :=
  (_bme_get (_bme_get (_bme_get example_device 0 0).2 0 1).2 0 2).2

/-- The first part of `drbd_try_clear_on_disk_bm` for peer device `p` when `lc_get` has
supplied element `i`, up to and including `lc_put`: the resync LRU after the update of
`rs_left` and `rs_failed`. -/
def drbd_try_clear_on_disk_bm_update (dev : drbd_device) (p enr : Nat) (count : Int)
    (success : Bool) (i : Nat) : lru_cache :=
  let pd := dev.peer p
  let r := lc_get pd.resync_lru enr
  let ext := r.2.elements i
  let lru1 :=
    if ext.lc_number = enr then
      let ext1 := if success then { ext with rs_left := ext.rs_left - count }
                  else { ext with rs_failed := ext.rs_failed + count }
      let ext2 := if ext1.rs_left < ext1.rs_failed
                  then { ext1 with rs_left := bm_e_weight dev p enr } else ext1
      lc_set_element r.2 i ext2
    else
      let rs_left := bm_e_weight dev p enr
      let ext1 := if ext.flags ≠ {} then { ext with flags := {} } else ext
      lc_committed (lc_set_element r.2 i
        { ext1 with rs_left := rs_left, rs_failed := if success then 0 else count })
  (lc_put lru1 i).2

/-- The example device with one bit of bitmap extent 7 out of sync for peer 0 (bit 28772,
sectors 230176 to 230183). -/
def example_device_one_bit : drbd_device :=
  (drbd_set_out_of_sync example_env example_device 0 230176 4096).2

/-- A device state with 65 elements of the activity log on `to_be_changed`. -/
def example_device_overfull : drbd_device :=
  { example_device_large with
    act_log := { example_device_large.act_log with to_be_changed := List.range 65 } }

/-- The example device after five calls of `drbd_try_rs_begin_io` for the bitmap extents
0 to 4 of peer 0: five of its seven resync extents are locked, the activity log is
empty. -/
def example_device_five_locked : drbd_device :=
  (drbd_try_rs_begin_io (drbd_try_rs_begin_io (drbd_try_rs_begin_io (drbd_try_rs_begin_io
    (drbd_try_rs_begin_io example_device 0 0).2 0 32768).2 0 65536).2 0 98304).2 0 131072).2

/-- The value of `device->al_tr_number` after `k` further transactions were written:
`_al_write_transaction` increments the `unsigned int` by one for each. -/
def al_tr_number_after (t : Nat) : Nat → Nat
  | 0 => t
  | k + 1 => u32 (al_tr_number_after t k + 1)

/-! # Properties -/

/-! ## Properties: placement of the transactions on disk -/

theorem u32_of_lt {n : Nat} (h : n < 2 ^ 32) : u32 n = n := Nat.mod_eq_of_lt h

theorem al_block_index_lt (md : drbd_md) (t : Nat)
    (hprod : md.al_size_4k = md.al_stripes * md.al_stripe_size_4k)
    (hstripes : 0 < md.al_stripes) (hss : 0 < md.al_stripe_size_4k) :
    al_block_index md t < md.al_size_4k := by
  unfold al_block_index
  have hpos : 0 < md.al_size_4k := by rw [hprod]; exact Nat.mul_pos hstripes hss
  generalize hr : t % md.al_size_4k = r
  have hrlt : r < md.al_stripes * md.al_stripe_size_4k := by
    rw [← hr, ← hprod]; exact Nat.mod_lt _ hpos
  have h1 : r % md.al_stripes ≤ md.al_stripes - 1 := by
    have := Nat.mod_lt r hstripes; omega
  have h2 : r / md.al_stripes < md.al_stripe_size_4k := by
    rw [Nat.div_lt_iff_lt_mul hstripes]; rw [Nat.mul_comm]; exact hrlt
  have h3 : r % md.al_stripes * md.al_stripe_size_4k
      ≤ (md.al_stripes - 1) * md.al_stripe_size_4k := Nat.mul_le_mul_right _ h1
  have h4 : (md.al_stripes - 1) * md.al_stripe_size_4k + md.al_stripe_size_4k
      = md.al_stripes * md.al_stripe_size_4k := by
    obtain ⟨k, hk⟩ : ∃ k, md.al_stripes = k + 1 := ⟨md.al_stripes - 1, by omega⟩
    rw [hk]; simp [Nat.add_mul]
  rw [hprod]
  omega

/-- C1: with `al_size_4k > 0` and `al_stripes > 0`, for every transaction number `t`
whose block index `b = ((t mod al_size_4k) mod al_stripes) * al_stripe_size_4k +
(t mod al_size_4k) / al_stripes` satisfies `8 * b < 2 ^ 32`,
`al_tr_number_to_on_disk_sector` returns the sector `md_offset + al_offset + 8 * b`
(as a `sector_t`; it is that very number when the sum is a 64 bit sector number). -/
theorem al_tr_number_to_on_disk_sector_formula (md : drbd_md) (t : Nat)
    (hsize : 0 < md.al_size_4k) (hstripes : 0 < md.al_stripes)
    (hfit : 8 * al_block_index md t < 2 ^ 32) :
    al_tr_number_to_on_disk_sector md t
        = some (sector_wrap ((md.md_offset : Int) + md.al_offset
            + 8 * (al_block_index md t : Int)))
      ∧ (0 ≤ (md.md_offset : Int) + md.al_offset + 8 * (al_block_index md t : Int) →
          (md.md_offset : Int) + md.al_offset + 8 * (al_block_index md t : Int) < 2 ^ 64 →
          al_tr_number_to_on_disk_sector md t
            = some ((md.md_offset : Int) + md.al_offset
                + 8 * (al_block_index md t : Int))) := by
  have hb : al_block_index md t < 2 ^ 32 := by omega
  have hmul : (t % md.al_size_4k % md.al_stripes) * md.al_stripe_size_4k < 2 ^ 32 :=
    lt_of_le_of_lt (Nat.le_add_right _ _) hb
  have hval : al_tr_number_to_on_disk_sector md t
        = some (sector_wrap ((md.md_offset : Int) + md.al_offset
            + 8 * (al_block_index md t : Int))) := by
    unfold al_tr_number_to_on_disk_sector
    have h0 : ¬ (md.al_size_4k = 0 ∨ md.al_stripes = 0) := by omega
    simp only [h0, if_false]
    rw [u32_of_lt hmul]
    have e1 : t % md.al_size_4k % md.al_stripes * md.al_stripe_size_4k
        + t % md.al_size_4k / md.al_stripes = al_block_index md t := rfl
    rw [e1, u32_of_lt hb, u32_of_lt (by omega)]
    congr 2
    push_cast
    ring
  refine ⟨hval, fun h0 h1 => ?_⟩
  rw [hval]
  unfold sector_wrap
  rw [Int.emod_eq_of_lt h0 h1]

/-- Witness for C1: four stripes of two blocks, transaction number 1003. -/
theorem al_tr_number_to_on_disk_sector_formula_witness :
    al_tr_number_to_on_disk_sector ⟨4096, -64, 4, 2, 8⟩ 1003 = some (4096 + (-64) + 8 * 6) :=
  ((al_tr_number_to_on_disk_sector_formula ⟨4096, -64, 4, 2, 8⟩ 1003 (by decide) (by decide)
    (by decide)).2 (by decide) (by decide))

/-- C2: when `al_size_4k = al_stripes * al_stripe_size_4k` with both factors positive, the
sector computed for any transaction number is `md_offset + al_offset + 8 * b` (as a
`sector_t`) for a block number `b < al_size_4k`: an 8 sector aligned 4 KiB block inside
the activity log area. -/
theorem al_transaction_sector_in_al_area (md : drbd_md) (t : Nat)
    (hprod : md.al_size_4k = md.al_stripes * md.al_stripe_size_4k)
    (hstripes : 0 < md.al_stripes) (hss : 0 < md.al_stripe_size_4k) :
    ∃ b : Nat, b < md.al_size_4k ∧
      al_tr_number_to_on_disk_sector md t
        = some (sector_wrap ((md.md_offset : Int) + md.al_offset + 8 * (b : Int))) := by
  have hlt := al_block_index_lt md t hprod hstripes hss
  have hpos : 0 < md.al_size_4k := by omega
  refine ⟨al_block_index md t % 2 ^ 29, ?_, ?_⟩
  · exact lt_of_le_of_lt (Nat.mod_le _ _) hlt
  · unfold al_tr_number_to_on_disk_sector
    have h0 : ¬ (md.al_size_4k = 0 ∨ md.al_stripes = 0) := by omega
    simp only [h0, if_false]
    have e1 : u32 (u32 (t % md.al_size_4k % md.al_stripes * md.al_stripe_size_4k)
        + t % md.al_size_4k / md.al_stripes) = al_block_index md t % 2 ^ 32 := by
      unfold u32 al_block_index
      omega
    rw [e1]
    have e2 : u32 (al_block_index md t % 2 ^ 32 * 8)
        = 8 * (al_block_index md t % 2 ^ 29) := by
      unfold u32
      omega
    rw [e2]
    congr 2

/-- Witness for C2: four stripes of two blocks, transaction number 1003. -/
theorem al_transaction_sector_in_al_area_witness :
    ∃ b : Nat, b < 8 ∧
      al_tr_number_to_on_disk_sector ⟨4096, -64, 4, 2, 8⟩ 1003
        = some (sector_wrap ((4096 : Int) + (-64) + 8 * (b : Int))) :=
  al_transaction_sector_in_al_area ⟨4096, -64, 4, 2, 8⟩ 1003 (by decide) (by decide)
    (by decide)

/-! ## Properties: setting blocks in sync -/

/-- C4: for a request with `sector` below the capacity and a `size` that is a positive
multiple of 512 not above `DRBD_MAX_BIO_SIZE`, every bit `b` of the range `sbnr .. ebnr`
that `set_in_sync` clears starts at or after `sector`, and every sector of the bit that is
below the capacity is at most the last sector `sector + size / 512 - 1` of the request.
(Capacities are below `2 ^ 63` sectors and `DRBD_MAX_BIO_SIZE` is an `int`.) -/
theorem set_in_sync_range_covers (nr_sectors sector max_bio : Nat) (size : Int)
    (sbnr ebnr b : Nat)
    (hcap : nr_sectors < 2 ^ 63) (hmb : max_bio < 2 ^ 31)
    (hsec : sector < nr_sectors) (hpos : 0 < size) (halign : size % 512 = 0)
    (hmax : size ≤ max_bio)
    (hrange : set_in_sync_range nr_sectors sector size = some (sbnr, ebnr))
    (hlo : sbnr ≤ b) (hhi : b ≤ ebnr) :
    (sector : Int) ≤ 8 * b ∧
      ∀ s : Nat, 8 * b ≤ s → s ≤ 8 * b + 7 → s < nr_sectors →
        (s : Int) ≤ sector + size / 512 - 1 := by
  unfold set_in_sync_range at hrange
  simp only [BM_SECT_TO_BIT, BM_SECT_PER_BIT, BM_BLOCK_SHIFT, u64, u64_sub,
    Nat.shiftRight_eq_div_pow] at hrange
  split_ifs at hrange <;> simp only [Option.some.injEq, Prod.mk.injEq, reduceCtorEq] at hrange
  all_goals (obtain ⟨h1, h2⟩ := hrange; subst h1 h2)
  all_goals (refine ⟨by omega, fun s hs1 hs2 hs3 => ?_⟩)
  all_goals omega

/-- Witness for C4: sectors 8 .. 23 of a device of 1000 sectors, bit 1. -/
theorem set_in_sync_range_covers_witness :
    ((8 : Nat) : Int) ≤ 8 * (1 : Nat) ∧
      ∀ s : Nat, 8 * 1 ≤ s → s ≤ 8 * 1 + 7 → s < 1000 →
        (s : Int) ≤ (8 : Nat) + (8192 : Int) / 512 - 1 :=
  set_in_sync_range_covers 1000 8 (2 ^ 20) 8192 1 2 1 (by decide) (by decide) (by decide)
    (by decide) (by decide) (by decide) (by decide) (by decide) (by decide)

theorem mem_bm_range {bm : drbd_bitmap} {s e k : Nat} :
    k ∈ bm_range bm s e ↔ (s ≤ k ∧ k ≤ e) ∧ k < bm.bm_bits := by
  unfold bm_range
  simp only [List.mem_range'_1]
  omega

theorem bm_clear_in_clear_bits (bm : drbd_bitmap) (idx s e : Nat) :
    bm_clear_in (drbd_bm_clear_bits bm idx s e).2 idx s e := by
  intro k h1 h2 h3
  simp only [drbd_bm_clear_bits] at h3 ⊢
  simp [h1, h2, h3]

theorem bm_clear_in_mono (bm : drbd_bitmap) (idx idx' s e : Nat)
    (h : bm_clear_in bm idx' s e) :
    bm_clear_in (drbd_bm_clear_bits bm idx s e).2 idx' s e := by
  intro k h1 h2 h3
  simp only [drbd_bm_clear_bits] at h3 ⊢
  split_ifs
  · rfl
  · exact h k h1 h2 h3

theorem drbd_bm_clear_bits_of_clear (bm : drbd_bitmap) (idx s e : Nat)
    (h : bm_clear_in bm idx s e) : drbd_bm_clear_bits bm idx s e = (0, bm) := by
  unfold drbd_bm_clear_bits
  refine Prod.ext ?_ ?_
  · simp only [drbd_bm_count_bits, List.length_eq_zero, List.filter_eq_nil_iff]
    intro k hk
    rw [mem_bm_range] at hk
    simp [h k hk.1.1 hk.1.2 hk.2]
  · cases bm with
    | mk n bits mp =>
      simp only [drbd_bitmap.mk.injEq, true_and, and_true]
      funext i k
      split_ifs with hc
      · obtain ⟨rfl, h1, h2, h3⟩ := hc
        exact (h k h1 h2 h3).symm
      · rfl

theorem sync_frame_refl (d : drbd_device) : sync_frame d d := ⟨rfl, rfl, rfl, fun _ => rfl⟩

theorem sync_frame_trans {a b c : drbd_device} (h1 : sync_frame a b) (h2 : sync_frame b c) :
    sync_frame a c :=
  ⟨h2.1.trans h1.1, h2.2.1.trans h1.2.1, h2.2.2.1.trans h1.2.2.1,
    fun q => (h2.2.2.2 q).trans (h1.2.2.2 q)⟩

theorem sync_frame_set_peer (d : drbd_device) (p : Nat) (pd : drbd_peer_device)
    (h : pd.bitmap_index = (d.peer p).bitmap_index) : sync_frame d (d.set_peer p pd) := by
  refine ⟨rfl, rfl, rfl, fun q => ?_⟩
  simp only [drbd_device.set_peer, Function.update_apply]
  split_ifs with hq
  · rw [hq]; exact h
  · rfl

theorem sync_frame_work {d d' : drbd_device} (w : List update_odbm_work)
    (h : sync_frame d d') : sync_frame d { d' with work := w } :=
  ⟨h.1, h.2.1, h.2.2.1, h.2.2.2⟩

theorem drbd_try_clear_on_disk_bm_frame (env : drbd_env) (dev : drbd_device) (p enr : Nat)
    (count : Int) (success : Bool) :
    (drbd_try_clear_on_disk_bm env dev p enr count success).bitmap = dev.bitmap ∧
      sync_frame dev (drbd_try_clear_on_disk_bm env dev p enr count success) := by
  unfold drbd_try_clear_on_disk_bm
  simp only []
  split
  · split_ifs
    all_goals first
      | exact ⟨rfl, sync_frame_set_peer _ _ _ rfl⟩
      | exact ⟨rfl, sync_frame_work _ (sync_frame_set_peer _ _ _ rfl)⟩
  · exact ⟨rfl, sync_frame_set_peer _ _ _ rfl⟩

theorem drbd_advance_rs_marks_frame (env : drbd_env) (dev : drbd_device) (p n : Nat) :
    (drbd_advance_rs_marks env dev p n).bitmap = dev.bitmap ∧
      sync_frame dev (drbd_advance_rs_marks env dev p n) := by
  unfold drbd_advance_rs_marks
  simp only []
  split_ifs
  · exact ⟨rfl, sync_frame_set_peer _ _ _ rfl⟩
  · exact ⟨rfl, sync_frame_refl _⟩
  · exact ⟨rfl, sync_frame_refl _⟩

theorem after_clear_bits_frame (env : drbd_env) (dev : drbd_device) (p sbnr count : Nat) :
    (after_clear_bits env dev p sbnr count).bitmap = dev.bitmap ∧
      sync_frame dev (after_clear_bits env dev p sbnr count) := by
  unfold after_clear_bits
  have h1 := drbd_advance_rs_marks_frame env dev p
    (bm_total_weight dev.bitmap (dev.peer p).bitmap_index)
  have h2 := drbd_try_clear_on_disk_bm_frame env
    (drbd_advance_rs_marks env dev p (bm_total_weight dev.bitmap (dev.peer p).bitmap_index))
    p (u32 (sbnr >>> (BM_EXT_SHIFT - BM_BLOCK_SHIFT))) (int_of_u32 count) true
  exact ⟨h2.1.trans h1.1, sync_frame_trans h1.2 h2.2⟩

theorem __set_in_sync_frame (env : drbd_env) (dev : drbd_device) (p sbnr ebnr : Nat) :
    (__set_in_sync env dev p sbnr ebnr).2.bitmap
        = (drbd_bm_clear_bits dev.bitmap (dev.peer p).bitmap_index sbnr ebnr).2 ∧
      sync_frame dev (__set_in_sync env dev p sbnr ebnr).2 := by
  unfold __set_in_sync
  simp only []
  split_ifs
  · have h := after_clear_bits_frame env
      { dev with bitmap := (drbd_bm_clear_bits dev.bitmap (dev.peer p).bitmap_index sbnr ebnr).2 }
      p sbnr (drbd_bm_clear_bits dev.bitmap (dev.peer p).bitmap_index sbnr ebnr).1
    exact ⟨h.1, h.2⟩
  · exact ⟨rfl, sync_frame_refl _⟩

theorem __set_in_sync_of_clear (env : drbd_env) (dev : drbd_device) (p sbnr ebnr : Nat)
    (h : bm_clear_in dev.bitmap (dev.peer p).bitmap_index sbnr ebnr) :
    __set_in_sync env dev p sbnr ebnr = (false, dev) := by
  unfold __set_in_sync
  rw [drbd_bm_clear_bits_of_clear _ _ _ _ h]
  simp

theorem set_in_sync_all_of_clear (env : drbd_env) (sbnr ebnr : Nat) (ps : List Nat) (w : Bool)
    (dev : drbd_device)
    (h : ∀ p ∈ ps, bm_clear_in dev.bitmap (dev.peer p).bitmap_index sbnr ebnr) :
    set_in_sync_all env sbnr ebnr ps w dev = (w, dev) := by
  induction ps generalizing w with
  | nil => rfl
  | cons p rest ih =>
    unfold set_in_sync_all
    rw [__set_in_sync_of_clear env dev p sbnr ebnr (h p (List.mem_cons_self _ _))]
    simp only [Bool.or_false]
    exact ih w (fun q hq => h q (List.mem_cons_of_mem _ hq))

theorem set_in_sync_all_frame (env : drbd_env) (sbnr ebnr : Nat) (ps : List Nat) (w : Bool)
    (dev : drbd_device) :
    sync_frame dev (set_in_sync_all env sbnr ebnr ps w dev).2 ∧
      (∀ idx, bm_clear_in dev.bitmap idx sbnr ebnr →
        bm_clear_in (set_in_sync_all env sbnr ebnr ps w dev).2.bitmap idx sbnr ebnr) ∧
      ∀ p ∈ ps, bm_clear_in (set_in_sync_all env sbnr ebnr ps w dev).2.bitmap
        (dev.peer p).bitmap_index sbnr ebnr := by
  induction ps generalizing w dev with
  | nil => exact ⟨sync_frame_refl _, fun _ h => h, fun _ hp => absurd hp (List.not_mem_nil _)⟩
  | cons p rest ih =>
    unfold set_in_sync_all
    have hf := __set_in_sync_frame env dev p sbnr ebnr
    obtain ⟨ih1, ih2, ih3⟩ := ih (w || (__set_in_sync env dev p sbnr ebnr).1)
      (__set_in_sync env dev p sbnr ebnr).2
    have hmono : ∀ idx, bm_clear_in dev.bitmap idx sbnr ebnr →
        bm_clear_in (__set_in_sync env dev p sbnr ebnr).2.bitmap idx sbnr ebnr := by
      intro idx hidx
      rw [hf.1]
      exact bm_clear_in_mono _ _ _ _ _ hidx
    refine ⟨sync_frame_trans hf.2 ih1, fun idx hidx => ih2 idx (hmono idx hidx), ?_⟩
    intro q hq
    rcases List.mem_cons.mp hq with rfl | hq'
    · apply ih2
      rw [hf.1]
      exact bm_clear_in_clear_bits _ _ _ _
    · have := ih3 q hq'
      rw [hf.2.2.2.2 q] at this
      exact this

/-- C5: a second call of `set_in_sync` with the same arguments (whatever the time and the
outcome of allocations are then) changes nothing: the device, with its bitmap and the
`rs_left` and `rs_failed` of every resync extent, is the one the first call left. -/
theorem set_in_sync_twice (env : drbd_env) (jiffies : Nat) (kmalloc_ok : Bool)
    (dev : drbd_device) (peer_device : Option Nat) (sector : Nat) (size : Int) :
    set_in_sync { env with jiffies := jiffies, kmalloc_ok := kmalloc_ok }
        (set_in_sync env dev peer_device sector size) peer_device sector size
      = set_in_sync env dev peer_device sector size := by
  generalize henv : ({ env with jiffies := jiffies, kmalloc_ok := kmalloc_ok } : drbd_env) = env2
  have hmax : env2.DRBD_MAX_BIO_SIZE = env.DRBD_MAX_BIO_SIZE := by rw [← henv]
  -- the state after the first call: unchanged frame, and the range is clear
  have key : ∀ d1 : drbd_device, sync_frame dev d1 →
      (∀ sbnr ebnr, set_in_sync_range dev.capacity sector size = some (sbnr, ebnr) →
        ¬ (size ≤ 0 ∨ size % 512 ≠ 0 ∨ size > env.DRBD_MAX_BIO_SIZE) → get_ldev dev = true →
        match peer_device with
        | some p => bm_clear_in d1.bitmap (d1.peer p).bitmap_index sbnr ebnr
        | none => ∀ p ∈ List.range d1.nr_peers,
            bm_clear_in d1.bitmap (d1.peer p).bitmap_index sbnr ebnr) →
      set_in_sync env2 d1 peer_device sector size = d1 := by
    intro d1 hfr hclear
    unfold set_in_sync
    rw [hmax]
    by_cases hsz : size ≤ 0 ∨ size % 512 ≠ 0 ∨ size > env.DRBD_MAX_BIO_SIZE
    · rw [if_pos hsz]
    · rw [if_neg hsz]
      have hld : get_ldev d1 = get_ldev dev := by unfold get_ldev; rw [hfr.2.1]
      rw [hld]
      cases hl : get_ldev dev with
      | false => rfl
      | true =>
        simp only [Bool.not_true, Bool.false_eq_true, if_false]
        rw [hfr.1]
        cases hr : set_in_sync_range dev.capacity sector size with
        | none => rfl
        | some se =>
          obtain ⟨sbnr, ebnr⟩ := se
          have hc := hclear sbnr ebnr hr hsz hl
          cases peer_device with
          | some p =>
            simp only [__set_in_sync_of_clear env2 d1 p sbnr ebnr hc]
            rfl
          | none =>
            simp only [set_in_sync_all_of_clear env2 sbnr ebnr _ false d1 hc]
            rfl
  apply key
  · -- frame of the first call
    unfold set_in_sync
    split_ifs
    · exact sync_frame_refl _
    · exact sync_frame_refl _
    · cases hr : set_in_sync_range dev.capacity sector size with
      | none => exact sync_frame_refl _
      | some se =>
        obtain ⟨sbnr, ebnr⟩ := se
        cases peer_device with
        | some p =>
          have hf := (__set_in_sync_frame env dev p sbnr ebnr).2
          simp only []
          split_ifs
          · exact ⟨hf.1, hf.2.1, hf.2.2.1, hf.2.2.2⟩
          · exact hf
        | none =>
          have hf := (set_in_sync_all_frame env sbnr ebnr (List.range dev.nr_peers) false dev).1
          simp only []
          split_ifs
          · exact ⟨hf.1, hf.2.1, hf.2.2.1, hf.2.2.2⟩
          · exact hf
  · intro sbnr ebnr hr hsz hl
    unfold set_in_sync
    rw [if_neg hsz]
    simp only [hl, Bool.not_true, Bool.false_eq_true, if_false, hr]
    cases peer_device with
    | some p =>
      have hf := __set_in_sync_frame env dev p sbnr ebnr
      have hcl : bm_clear_in (__set_in_sync env dev p sbnr ebnr).2.bitmap
          ((__set_in_sync env dev p sbnr ebnr).2.peer p).bitmap_index sbnr ebnr := by
        rw [hf.1, hf.2.2.2.2 p]
        exact bm_clear_in_clear_bits _ _ _ _
      simp only []
      split_ifs
      · exact hcl
      · exact hcl
    | none =>
      have hf := set_in_sync_all_frame env sbnr ebnr (List.range dev.nr_peers) false dev
      have hcl : ∀ p ∈ List.range (set_in_sync_all env sbnr ebnr (List.range dev.nr_peers)
            false dev).2.nr_peers,
          bm_clear_in (set_in_sync_all env sbnr ebnr (List.range dev.nr_peers) false dev).2.bitmap
            ((set_in_sync_all env sbnr ebnr (List.range dev.nr_peers) false dev).2.peer
              p).bitmap_index sbnr ebnr := by
        intro p hp
        rw [hf.1.2.2.1] at hp
        rw [hf.1.2.2.2 p]
        exact hf.2.2 p hp
      simp only []
      split_ifs
      · exact hcl
      · exact hcl

/-! ## Properties: the activity log -/

theorem find_active_resync_extent_eq_none (dev : drbd_device) (enr : Nat) :
    find_active_resync_extent dev enr = none ↔
      ∀ p, p < dev.nr_peers → ∀ j,
        lc_find (dev.peer p).resync_lru (enr / AL_EXT_PER_BM_SECT) = some j →
          (dev.bm_ext p j).flags.no_writes = false := by
  unfold find_active_resync_extent
  rw [List.findSome?_eq_none_iff]
  constructor
  · intro h p hp j hj
    have := h p (List.mem_range.mpr hp)
    rw [hj] at this
    simp only [ite_eq_right_iff, reduceCtorEq, imp_false, Bool.not_eq_true] at this
    exact this
  · intro h p hp
    cases hj : lc_find (dev.peer p).resync_lru (enr / AL_EXT_PER_BM_SECT) with
    | none => rfl
    | some j =>
      have := h p (List.mem_range.mp hp) j hj
      simp [this]

/-- C8: `drbd_al_begin_io_fastpath` returns true if and only if the interval lies in a
single activity log extent (`first == last`), no peer's resync LRU holds the bitmap
extent of that extent with `BME_NO_WRITES` set, and `lc_try_get` finds the extent in the
activity log; so it returns false whenever `last == first + 1`. -/
theorem drbd_al_begin_io_fastpath_iff (dev : drbd_device) (i : drbd_interval) :
    ((drbd_al_begin_io_fastpath dev i).1 = true ↔
        al_first i = al_last i ∧
        (∀ p, p < dev.nr_peers → ∀ j,
          lc_find (dev.peer p).resync_lru (al_first i / AL_EXT_PER_BM_SECT) = some j →
            (dev.bm_ext p j).flags.no_writes = false) ∧
        (lc_try_get dev.act_log (al_first i)).1.isSome = true) ∧
      (al_last i = al_first i + 1 → (drbd_al_begin_io_fastpath dev i).1 = false) := by
  unfold drbd_al_begin_io_fastpath
  simp only []
  constructor
  · by_cases hfl : al_first i = al_last i
    · rw [if_neg (not_not.mpr hfl)]
      rw [← find_active_resync_extent_eq_none]
      unfold _al_get
      cases hfa : find_active_resync_extent dev (al_first i) with
      | none => simp [hfl]
      | some pi => simp
    · rw [if_pos hfl]
      simp [hfl]
  · intro h
    have hne : al_first i ≠ al_last i := by omega
    rw [if_pos hne]

/-! ## Properties: the transaction block -/

theorem foldl_set_getElem? {α : Type} (v : α) (js : List Nat) :
    ∀ (l : List α) (k : Nat),
      (js.foldl (fun (l : List α) j => l.set j v) l)[k]?
        = if k ∈ js ∧ k < l.length then some v else l[k]? := by
  induction js with
  | nil => intro l k; simp
  | cons j rest ih =>
    intro l k
    simp only [List.foldl_cons]
    rw [ih (l.set j v) k]
    simp only [List.length_set, List.mem_cons, List.getElem?_set]
    by_cases hl : k < l.length
    · by_cases hk : k ∈ rest
      · simp [hk, hl]
      · by_cases hj : j = k
        · subst hj; simp [hk, hl]
        · have hj' : ¬ k = j := fun h => hj h.symm
          simp [hk, hj, hj']
    · have hn : l[k]? = none := List.getElem?_eq_none (by omega)
      by_cases hj : j = k
      · subst hj; simp [hl, hn]
      · simp [hl, hj, hn]

theorem al_fill_updates_spec (al : lru_cache) (l : List Nat) :
    ∀ (i : Nat) (b : al_transaction_on_disk) (h : List (Nat × Nat)),
      i + l.length ≤ AL_UPDATES_PER_TRANSACTION →
      b.update_slot_nr.length = AL_UPDATES_PER_TRANSACTION →
      b.update_extent_nr.length = AL_UPDATES_PER_TRANSACTION →
      (al_fill_updates al l i b h).1 = i + l.length ∧
      (al_fill_updates al l i b h).2.1.update_slot_nr.length = AL_UPDATES_PER_TRANSACTION ∧
      (al_fill_updates al l i b h).2.1.update_extent_nr.length = AL_UPDATES_PER_TRANSACTION ∧
      (∀ j e : Nat, l[j]? = some e →
        (al_fill_updates al l i b h).2.1.update_slot_nr[i + j]?
            = some (cpu_to_be16 (al.elements e).lc_index) ∧
          (al_fill_updates al l i b h).2.1.update_extent_nr[i + j]?
            = some (cpu_to_be32 (al.elements e).lc_new_number)) ∧
      (∀ j : Nat, j < i →
        (al_fill_updates al l i b h).2.1.update_slot_nr[j]? = b.update_slot_nr[j]? ∧
          (al_fill_updates al l i b h).2.1.update_extent_nr[j]? = b.update_extent_nr[j]?) := by
  induction l with
  | nil =>
    intro i b h _ h1 h2
    refine ⟨rfl, h1, h2, ?_, fun j _ => ⟨rfl, rfl⟩⟩
    intro j e he
    simp at he
  | cons x rest ih =>
    intro i b h hlen h1 h2
    simp only [List.length_cons] at hlen
    have hi : i ≠ AL_UPDATES_PER_TRANSACTION := by omega
    unfold al_fill_updates
    rw [if_neg hi]
    simp only []
    obtain ⟨r1, r2, r3, r4, r5⟩ := ih (i + 1)
      { b with
        update_slot_nr := b.update_slot_nr.set i (cpu_to_be16 (al.elements x).lc_index)
        update_extent_nr := b.update_extent_nr.set i (cpu_to_be32 (al.elements x).lc_new_number) }
      (if (al.elements x).lc_number ≠ LC_FREE then
          drbd_bm_mark_range_for_writeout h (al_extent_to_bm_bit (al.elements x).lc_number)
            (u64_sub (al_extent_to_bm_bit (u32 ((al.elements x).lc_number + 1))) 1)
        else h)
      (by omega) (by simp [h1]) (by simp [h2])
    refine ⟨by rw [r1]; simp only [List.length_cons]; omega, r2, r3, ?_, ?_⟩
    · intro j e he
      cases j with
      | zero =>
        simp only [List.getElem?_cons_zero, Option.some.injEq] at he
        subst he
        have := r5 i (by omega)
        simp only [Nat.add_zero]
        rw [this.1, this.2]
        have hi1 : i < b.update_slot_nr.length := by rw [h1]; omega
        have hi2 : i < b.update_extent_nr.length := by rw [h2]; omega
        simp [List.getElem?_set, hi1, hi2]
      | succ k =>
        simp only [List.getElem?_cons_succ] at he
        have := r4 k e he
        have e1 : i + (k + 1) = i + 1 + k := by omega
        rw [e1]
        exact this
    · intro j hj
      have := r5 j (by omega)
      rw [this.1, this.2]
      have hne : i ≠ j := by omega
      simp [List.getElem?_set_ne hne]

theorem al_pad_updates_fields (i : Nat) (b : al_transaction_on_disk) :
    (al_pad_updates i b).update_slot_nr
        = (List.range' i (AL_UPDATES_PER_TRANSACTION - i)).foldl
            (fun (l : List Nat) j => l.set j (cpu_to_be16 (2 ^ 32 - 1))) b.update_slot_nr ∧
      (al_pad_updates i b).update_extent_nr
        = (List.range' i (AL_UPDATES_PER_TRANSACTION - i)).foldl
            (fun (l : List Nat) j => l.set j (cpu_to_be32 LC_FREE)) b.update_extent_nr ∧
      (al_pad_updates i b).n_updates = b.n_updates := by
  unfold al_pad_updates
  generalize (List.range' i (AL_UPDATES_PER_TRANSACTION - i)) = js
  induction js generalizing b with
  | nil => exact ⟨rfl, rfl, rfl⟩
  | cons j rest ih =>
    simp only [List.foldl_cons]
    exact ih _

theorem al_fill_context_updates (al : lru_cache) (c : Nat) (mx : Int)
    (b : al_transaction_on_disk) :
    (al_fill_context al c mx b).update_slot_nr = b.update_slot_nr ∧
      (al_fill_context al c mx b).update_extent_nr = b.update_extent_nr ∧
      (al_fill_context al c mx b).n_updates = b.n_updates := by
  unfold al_fill_context
  simp only []
  have aux : ∀ (js : List Nat) (f : Nat → Nat) (b : al_transaction_on_disk),
      (js.foldl (fun (b : al_transaction_on_disk) i =>
          { b with context := b.context.set i (f i) }) b).update_slot_nr = b.update_slot_nr ∧
      (js.foldl (fun (b : al_transaction_on_disk) i =>
          { b with context := b.context.set i (f i) }) b).update_extent_nr
        = b.update_extent_nr ∧
      (js.foldl (fun (b : al_transaction_on_disk) i =>
          { b with context := b.context.set i (f i) }) b).n_updates = b.n_updates := by
    intro js f
    induction js with
    | nil => intro b; exact ⟨rfl, rfl, rfl⟩
    | cons j rest ih =>
      intro b
      simp only [List.foldl_cons]
      exact ih _
  have h2 := aux (List.range' mx.toNat (AL_CONTEXT_PER_TRANSACTION - mx.toNat))
    (fun _ => cpu_to_be32 LC_FREE)
    ((List.range mx.toNat).foldl
      (fun (b : al_transaction_on_disk) i =>
        { b with context := (b.context.set i
            (cpu_to_be32 (lc_element_by_index al (u32 (c + i))).lc_number)) }) b)
  have h1 := aux (List.range mx.toNat)
    (fun i => cpu_to_be32 (lc_element_by_index al (u32 (c + i))).lc_number) b
  exact ⟨h2.1.trans h1.1, h2.2.1.trans h1.2.1, h2.2.2.trans h1.2.2⟩

/-- C10: when `to_be_changed` holds `k <= 64` elements (with 16 bit `lc_index` and 32 bit
`lc_new_number`), the block built by `_al_write_transaction` has `n_updates = k`, slot
`i < k` holds `lc_index` and `lc_new_number` of the `i`-th list element, and every slot
`i` with `k <= i < 64` holds `0xFFFF` and `LC_FREE`. -/
theorem al_build_transaction_updates (env : drbd_env) (dev : drbd_device)
    (hk : dev.act_log.to_be_changed.length ≤ 64)
    (htype : ∀ e ∈ dev.act_log.to_be_changed,
      (dev.act_log.elements e).lc_index < 2 ^ 16 ∧
        (dev.act_log.elements e).lc_new_number < 2 ^ 32) :
    (al_build_transaction env dev).2.1.n_updates = dev.act_log.to_be_changed.length ∧
      (∀ i e : Nat, dev.act_log.to_be_changed[i]? = some e →
        (al_build_transaction env dev).2.1.update_slot_nr[i]?
            = some (dev.act_log.elements e).lc_index ∧
          (al_build_transaction env dev).2.1.update_extent_nr[i]?
            = some (dev.act_log.elements e).lc_new_number) ∧
      (∀ i : Nat, dev.act_log.to_be_changed.length ≤ i → i < 64 →
        (al_build_transaction env dev).2.1.update_slot_nr[i]? = some 0xFFFF ∧
          (al_build_transaction env dev).2.1.update_extent_nr[i]? = some LC_FREE) := by
  have hfill := al_fill_updates_spec dev.act_log dev.act_log.to_be_changed 0
    { al_transaction_zero with
      magic := cpu_to_be32 env.DRBD_AL_MAGIC
      tr_number := cpu_to_be32 dev.al_tr_number } dev.bm_hints
    (by simp only [AL_UPDATES_PER_TRANSACTION]; omega)
    (by simp [al_transaction_zero]) (by simp [al_transaction_zero])
  obtain ⟨f1, f2, f3, f4, _⟩ := hfill
  simp only [Nat.zero_add] at f1 f4
  unfold al_build_transaction
  simp only []
  generalize hfb : al_fill_updates dev.act_log dev.act_log.to_be_changed 0
    { al_transaction_zero with
      magic := cpu_to_be32 env.DRBD_AL_MAGIC
      tr_number := cpu_to_be32 dev.al_tr_number } dev.bm_hints = r at f1 f2 f3 f4 ⊢
  obtain ⟨hc1, hc2, hc3⟩ := al_fill_context_updates dev.act_log dev.al_tr_cycle
    (min (AL_CONTEXT_PER_TRANSACTION : Int)
      (int_of_u32 (u32_sub dev.act_log.nr_elements dev.al_tr_cycle)))
    { al_pad_updates r.1 { r.2.1 with n_updates := cpu_to_be16 r.1 } with
      context_size := cpu_to_be16 dev.act_log.nr_elements
      context_start_slot_nr := cpu_to_be16 dev.al_tr_cycle }
  simp only [hc1, hc2, hc3]
  obtain ⟨hp1, hp2, hp3⟩ := al_pad_updates_fields r.1 { r.2.1 with n_updates := cpu_to_be16 r.1 }
  simp only [hp1, hp2, hp3, foldl_set_getElem?, List.mem_range'_1, f2, f3]
  have hk' : r.1 ≤ 64 := by rw [f1]; exact hk
  refine ⟨?_, ?_, ?_⟩
  · rw [f1]
    exact Nat.mod_eq_of_lt (by omega)
  · intro i e he
    have hi : i < dev.act_log.to_be_changed.length := by
      rcases Nat.lt_or_ge i dev.act_log.to_be_changed.length with h | h
      · exact h
      · rw [List.getElem?_eq_none h] at he; exact absurd he (by simp)
    have hmem : e ∈ dev.act_log.to_be_changed := List.getElem?_mem he
    have hno : ¬ ((r.1 ≤ i ∧ i < r.1 + (AL_UPDATES_PER_TRANSACTION - r.1))
        ∧ i < AL_UPDATES_PER_TRANSACTION) := by
      rw [f1]; omega
    rw [if_neg hno, if_neg hno]
    obtain ⟨g1, g2⟩ := f4 i e he
    rw [g1, g2]
    have ht := htype e hmem
    simp only [cpu_to_be16, cpu_to_be32, Nat.mod_eq_of_lt ht.1, Nat.mod_eq_of_lt ht.2,
      and_self]
  · intro i h1 h2
    have hyes : (r.1 ≤ i ∧ i < r.1 + (AL_UPDATES_PER_TRANSACTION - r.1))
        ∧ i < AL_UPDATES_PER_TRANSACTION := by
      rw [f1]; simp only [AL_UPDATES_PER_TRANSACTION]; omega
    rw [if_pos hyes, if_pos hyes]
    exact ⟨rfl, rfl⟩

set_option maxRecDepth 100000 in
theorem al_build_transaction_updates_witness :
    example_device_prepared.act_log.to_be_changed.length ≤ 64 ∧
    (∀ e ∈ example_device_prepared.act_log.to_be_changed,
      (example_device_prepared.act_log.elements e).lc_index < 2 ^ 16 ∧
        (example_device_prepared.act_log.elements e).lc_new_number < 2 ^ 32) ∧
    ((al_build_transaction example_env example_device_prepared).2.1.n_updates
        = example_device_prepared.act_log.to_be_changed.length ∧
      (∀ i e : Nat, example_device_prepared.act_log.to_be_changed[i]? = some e →
        (al_build_transaction example_env example_device_prepared).2.1.update_slot_nr[i]?
            = some (example_device_prepared.act_log.elements e).lc_index ∧
          (al_build_transaction example_env example_device_prepared).2.1.update_extent_nr[i]?
            = some (example_device_prepared.act_log.elements e).lc_new_number) ∧
      (∀ i : Nat, example_device_prepared.act_log.to_be_changed.length ≤ i → i < 64 →
        (al_build_transaction example_env example_device_prepared).2.1.update_slot_nr[i]?
            = some 0xFFFF ∧
          (al_build_transaction example_env example_device_prepared).2.1.update_extent_nr[i]?
            = some LC_FREE)) :=
  ⟨by decide, by decide,
    al_build_transaction_updates example_env example_device_prepared (by decide) (by decide)⟩

/-! ## Properties: error paths of the activity log -/

set_option maxRecDepth 100000 in
/-- C7 (evaluation at the failing input): activity log extent 0 is in use, resync has
bitmap extent 0 with `BME_NO_WRITES` (after `drbd_try_rs_begin_io` returned `-EAGAIN`).
The first `drbd_al_begin_io_nonblock` for activity log extent 1 returns `-EBUSY` and sets
`BME_PRIORITY`; the second call, with `BME_PRIORITY` already set, returns `-EBUSY` again
and not `-EWOULDBLOCK`. -/
theorem drbd_al_begin_io_nonblock_busy_twice :
    (drbd_try_rs_begin_io (drbd_al_begin_io_prepare example_device ⟨0, 4096⟩).2 0 0).1
        = -EAGAIN ∧
      ((drbd_try_rs_begin_io
          (drbd_al_begin_io_prepare example_device ⟨0, 4096⟩).2 0 0).2.bm_ext 0 6).flags
        = { no_writes := true, locked := false, priority := false } ∧
      (drbd_al_begin_io_nonblock
          (drbd_try_rs_begin_io (drbd_al_begin_io_prepare example_device ⟨0, 4096⟩).2 0 0).2
          ⟨8192, 4096⟩).1 = -EBUSY ∧
      ((drbd_al_begin_io_nonblock
          (drbd_try_rs_begin_io (drbd_al_begin_io_prepare example_device ⟨0, 4096⟩).2 0 0).2
          ⟨8192, 4096⟩).2.bm_ext 0 6).flags.priority = true ∧
      (drbd_al_begin_io_nonblock
          (drbd_al_begin_io_nonblock
            (drbd_try_rs_begin_io (drbd_al_begin_io_prepare example_device ⟨0, 4096⟩).2 0 0).2
            ⟨8192, 4096⟩).2 ⟨8192, 4096⟩).1 = -EBUSY ∧
      -EBUSY ≠ -EWOULDBLOCK := by
  decide

set_option maxRecDepth 100000 in
/-- C9 (evaluation at the failing input): one change is pending (extent 0 into slot 3) and
the write of the transaction block fails. `drbd_al_begin_io_commit` returns with the
meta data error escalated and `al_tr_number` unchanged, and still the change is
committed: nothing is pending and slot 3 has extent 0 installed. -/
theorem drbd_al_begin_io_commit_commits_after_failed_write :
    (drbd_al_begin_io_prepare example_device ⟨0, 4096⟩).1 = some true ∧
      (drbd_al_begin_io_prepare example_device ⟨0, 4096⟩).2.act_log.pending_changes = 1 ∧
      (drbd_al_begin_io_prepare example_device ⟨0, 4096⟩).2.act_log.to_be_changed = [3] ∧
      ((drbd_al_begin_io_prepare example_device ⟨0, 4096⟩).2.act_log.elements 3).lc_number
        = LC_FREE ∧
      (al_write_transaction example_env_md_fails
          (drbd_al_begin_io_prepare example_device ⟨0, 4096⟩).2 false).1 = some (- EIO) ∧
      (drbd_al_begin_io_commit example_env_md_fails
          (drbd_al_begin_io_prepare example_device ⟨0, 4096⟩).2 false).1 = some () ∧
      (drbd_al_begin_io_commit example_env_md_fails
          (drbd_al_begin_io_prepare example_device ⟨0, 4096⟩).2 false).2.meta_io_errors = 1 ∧
      (drbd_al_begin_io_commit example_env_md_fails
          (drbd_al_begin_io_prepare example_device ⟨0, 4096⟩).2 false).2.al_tr_number = 0 ∧
      (drbd_al_begin_io_commit example_env_md_fails
          (drbd_al_begin_io_prepare example_device ⟨0, 4096⟩).2 false).2.act_log.pending_changes
        = 0 ∧
      (drbd_al_begin_io_commit example_env_md_fails
          (drbd_al_begin_io_prepare example_device ⟨0, 4096⟩).2 false).2.act_log.to_be_changed
        = [] ∧
      ((drbd_al_begin_io_commit example_env_md_fails
          (drbd_al_begin_io_prepare example_device ⟨0, 4096⟩).2
          false).2.act_log.elements 3).lc_number = 0 := by
  decide

/-! ## Properties: consistency of the LRU cache -/

theorem mem_free_list_move (lc : lru_cache) (i : Nat) (t : lc_list) (j : Nat) :
    j ∈ (lc_list_move lc i t).free ↔ (j ≠ i ∧ j ∈ lc.free) ∨ (j = i ∧ t = lc_list.free) := by
  cases t
  all_goals simp [lc_list_move, List.mem_filter, and_comm]
  all_goals tauto

theorem mem_lru_list_move (lc : lru_cache) (i : Nat) (t : lc_list) (j : Nat) :
    j ∈ (lc_list_move lc i t).lru ↔ (j ≠ i ∧ j ∈ lc.lru) ∨ (j = i ∧ t = lc_list.lru) := by
  cases t
  all_goals simp [lc_list_move, List.mem_filter, and_comm]
  all_goals tauto

theorem mem_tbc_list_move (lc : lru_cache) (i : Nat) (t : lc_list) (j : Nat) :
    j ∈ (lc_list_move lc i t).to_be_changed ↔
      (j ≠ i ∧ j ∈ lc.to_be_changed) ∨ (j = i ∧ t = lc_list.to_be_changed) := by
  cases t
  all_goals simp [lc_list_move, List.mem_filter, and_comm]
  all_goals tauto

theorem elements_list_move (lc : lru_cache) (i : Nat) (t : lc_list) :
    (lc_list_move lc i t).elements = lc.elements ∧
      (lc_list_move lc i t).nr_elements = lc.nr_elements := by
  cases t <;> exact ⟨rfl, rfl⟩

theorem lc_find_raw_some {lc : lru_cache} {enr i : Nat} {ic : Bool}
    (h : lc_find_raw lc enr ic = some i) :
    i < lc.nr_elements ∧ (lc.elements i).hashed = true ∧ (lc.elements i).lc_new_number = enr ∧
      ((lc.elements i).lc_new_number = (lc.elements i).lc_number ∨ ic = true) := by
  unfold lc_find_raw at h
  split at h
  · exact absurd h (by simp)
  · rename_i k hk
    split_ifs at h with hc
    simp only [Option.some.injEq] at h
    subst h
    have h1 := List.find?_some hk
    have h2 := List.mem_of_find?_eq_some hk
    simp only [Bool.and_eq_true, beq_iff_eq] at h1
    exact ⟨List.mem_range.mp h2, h1.1, h1.2, hc⟩

theorem lc_prepare_for_change_spec (lc : lru_cache) (n : Nat)
    (h : lc_unused_element_available lc = true) :
    ∃ i, (i ∈ lc.free ∨ i ∈ lc.lru) ∧
      lc_prepare_for_change lc n
        = (some i, lc_list_move
            (lc_set_element lc i { lc.elements i with lc_new_number := n, hashed := true })
            i lc_list.to_be_changed) := by
  unfold lc_prepare_for_change
  cases hfree : lc.free with
  | cons a t =>
    exact ⟨a, Or.inl (List.mem_cons_self _ _), by simp⟩
  | nil =>
    cases hl : lc.lru.getLast? with
    | none =>
      rw [List.getLast?_eq_none_iff] at hl
      simp [lc_unused_element_available, hfree, hl] at h
    | some x =>
      exact ⟨x, Or.inr (List.mem_of_getLast?_eq_some hl), by simp⟩

theorem lc_get_flags_cases (lc : lru_cache) (enr : Nat) (mc mu : Bool) :
    ((lc_get_flags lc enr mc mu).1 = none ∧ lc_same_core (lc_get_flags lc enr mc mu).2 lc) ∨
    (∃ i, (lc_get_flags lc enr mc mu).1 = some i ∧ lc_find_raw lc enr true = some i ∧
      (lc.elements i).lc_new_number ≠ (lc.elements i).lc_number ∧ mu = true ∧
      lc_same_core (lc_get_flags lc enr mc mu).2
        (lc_set_element lc i { lc.elements i with refcnt := u32 ((lc.elements i).refcnt + 1) })) ∨
    (∃ i, (lc_get_flags lc enr mc mu).1 = some i ∧ lc_find_raw lc enr true = some i ∧
      (lc.elements i).lc_new_number = (lc.elements i).lc_number ∧
      lc_same_core (lc_get_flags lc enr mc mu).2
        (lc_list_move
          (lc_set_element lc i { lc.elements i with refcnt := u32 ((lc.elements i).refcnt + 1) })
          i lc_list.in_use)) ∨
    (∃ i, (lc_get_flags lc enr mc mu).1 = some i ∧ lc_find_raw lc enr true = none ∧ mc = true ∧
      (i ∈ lc.free ∨ i ∈ lc.lru) ∧
      lc_same_core (lc_get_flags lc enr mc mu).2
        (lc_list_move
          (lc_set_element lc i { lc.elements i with
            lc_new_number := enr, hashed := true, refcnt := u32 ((lc.elements i).refcnt + 1) })
          i lc_list.to_be_changed)) := by
  unfold lc_get_flags
  by_cases hs : lc.starving = true
  · left
    rw [if_pos hs]
    exact ⟨rfl, rfl, rfl, rfl, rfl, rfl⟩
  · rw [if_neg hs]
    cases hf : lc_find_raw lc enr true with
    | some i =>
      simp only []
      by_cases hne : (lc.elements i).lc_new_number ≠ (lc.elements i).lc_number
      · rw [if_pos hne]
        cases mu with
        | false => left; first | exact ⟨rfl, rfl, rfl, rfl, rfl, rfl⟩ | exact ⟨trivial, rfl, rfl, rfl, rfl, rfl⟩
        | true =>
          right; left
          exact ⟨i, rfl, rfl, hne, rfl, rfl, rfl, rfl, rfl, rfl⟩
      · rw [if_neg hne]
        right; right; left
        refine ⟨i, rfl, rfl, not_not.mp hne, ?_⟩
        split_ifs
        · exact ⟨(elements_list_move _ _ _).2, (elements_list_move _ _ _).1, rfl, rfl, rfl⟩
        · exact ⟨rfl, rfl, rfl, rfl, rfl⟩
    | none =>
      simp only []
      cases mc with
      | false => left; first | exact ⟨rfl, rfl, rfl, rfl, rfl, rfl⟩ | exact ⟨trivial, rfl, rfl, rfl, rfl, rfl⟩
      | true =>
        simp only [Bool.not_true, Bool.false_eq_true, if_false]
        by_cases hl : lc.locked = true
        · rw [if_pos hl]; left; first | exact ⟨rfl, rfl, rfl, rfl, rfl, rfl⟩ | exact ⟨trivial, rfl, rfl, rfl, rfl, rfl⟩
        · rw [if_neg hl]
          by_cases hu : lc_unused_element_available { lc with dirty := true } = true
          · simp only [hu, Bool.not_true, Bool.false_eq_true, if_false]
            by_cases hp : lc.pending_changes ≥ lc.max_pending_changes
            · rw [if_pos hp]; left; first | exact ⟨rfl, rfl, rfl, rfl, rfl, rfl⟩ | exact ⟨trivial, rfl, rfl, rfl, rfl, rfl⟩
            · rw [if_neg hp]
              obtain ⟨i, hmem, heq⟩ := lc_prepare_for_change_spec { lc with dirty := true } enr hu
              right; right; right
              rw [heq]
              simp only []
              refine ⟨i, ?_, ?_, ?_, hmem, ?_⟩
              · first | rfl | (split_ifs <;> rfl)
              · first | rfl | trivial
              · first | rfl | trivial
              · split_ifs
                all_goals refine ⟨?_, ?_, ?_, ?_, ?_⟩
                all_goals first
                  | rfl
                  | (cases lc; simp [lc_list_move, lc_set_element])
                  | (funext k; simp [lc_list_move, lc_set_element, Function.update_apply];
                     split_ifs <;> rfl)
          · simp only [hu, Bool.not_false, if_true]
            left; first | exact ⟨rfl, rfl, rfl, rfl, rfl, rfl⟩ | exact ⟨trivial, rfl, rfl, rfl, rfl, rfl⟩
theorem lc_wf_list_move_in_use {lc : lru_cache} (hwf : lc_wf lc) (i : Nat)
    (hc : (lc.elements i).lc_number = (lc.elements i).lc_new_number) :
    lc_wf (lc_list_move lc i lc_list.in_use) := by
  obtain ⟨wa, wb, wc⟩ := hwf
  unfold lc_wf
  simp only [(elements_list_move lc i _).1, (elements_list_move lc i _).2, mem_free_list_move,
    mem_lru_list_move, mem_tbc_list_move, reduceCtorEq, and_false, or_false]
  refine ⟨fun j hj => wa j ?_, wb, fun j hj hne => ⟨?_, wc j hj hne⟩⟩
  · rcases hj with hj | hj
    · exact Or.inl hj.2
    · exact Or.inr hj.2
  · intro hji
    subst hji
    exact hne hc

theorem lc_committed_fold (l : List Nat) :
    ∀ acc : lru_cache,
      (l.foldl (fun (acc : lru_cache) i =>
          lc_list_move (lc_set_element acc i
            { acc.elements i with lc_number := (acc.elements i).lc_new_number }) i
            lc_list.in_use) acc).nr_elements = acc.nr_elements ∧
      (∀ j, (l.foldl (fun (acc : lru_cache) i =>
          lc_list_move (lc_set_element acc i
            { acc.elements i with lc_number := (acc.elements i).lc_new_number }) i
            lc_list.in_use) acc).elements j = acc.elements j ∨
        (l.foldl (fun (acc : lru_cache) i =>
          lc_list_move (lc_set_element acc i
            { acc.elements i with lc_number := (acc.elements i).lc_new_number }) i
            lc_list.in_use) acc).elements j
          = { acc.elements j with lc_number := (acc.elements j).lc_new_number }) ∧
      (∀ j, j ∈ l → ((l.foldl (fun (acc : lru_cache) i =>
          lc_list_move (lc_set_element acc i
            { acc.elements i with lc_number := (acc.elements i).lc_new_number }) i
            lc_list.in_use) acc).elements j).lc_number = (acc.elements j).lc_new_number) ∧
      (∀ j, (j ∈ (l.foldl (fun (acc : lru_cache) i =>
          lc_list_move (lc_set_element acc i
            { acc.elements i with lc_number := (acc.elements i).lc_new_number }) i
            lc_list.in_use) acc).free → j ∈ acc.free) ∧
        (j ∈ (l.foldl (fun (acc : lru_cache) i =>
          lc_list_move (lc_set_element acc i
            { acc.elements i with lc_number := (acc.elements i).lc_new_number }) i
            lc_list.in_use) acc).lru → j ∈ acc.lru)) := by
  induction l with
  | nil => intro acc; exact ⟨rfl, fun _ => Or.inl rfl, fun _ h => absurd h (List.not_mem_nil _),
      fun _ => ⟨id, id⟩⟩
  | cons x rest ih =>
    intro acc
    simp only [List.foldl_cons]
    obtain ⟨i1, i2, i3, i4⟩ := ih (lc_list_move (lc_set_element acc x
      { acc.elements x with lc_number := (acc.elements x).lc_new_number }) x lc_list.in_use)
    have hel : ∀ j, (lc_list_move (lc_set_element acc x
        { acc.elements x with lc_number := (acc.elements x).lc_new_number }) x
        lc_list.in_use).elements j
        = if j = x then { acc.elements x with lc_number := (acc.elements x).lc_new_number }
          else acc.elements j := by
      intro j
      rw [(elements_list_move _ _ _).1]
      simp [lc_set_element, Function.update_apply]
    refine ⟨i1.trans (elements_list_move _ _ _).2, ?_, ?_, ?_⟩
    · intro j
      rcases i2 j with h | h
      · rw [h, hel j]
        split_ifs with hj
        · subst hj; exact Or.inr rfl
        · exact Or.inl rfl
      · rw [h, hel j]
        split_ifs with hj
        · subst hj; exact Or.inr rfl
        · exact Or.inr rfl
    · intro j hj
      by_cases hjr : j ∈ rest
      · rw [i3 j hjr, hel j]
        split_ifs with hjx
        · subst hjx; rfl
        · rfl
      · have hjx : j = x := by
          rcases List.mem_cons.mp hj with h | h
          · exact h
          · exact absurd h hjr
        rcases i2 j with h | h
        · rw [h, hel j, if_pos hjx, hjx]
        · rw [h, hel j, if_pos hjx, hjx]
    · intro j
      refine ⟨fun h => ?_, fun h => ?_⟩
      · have := (i4 j).1 h
        rw [mem_free_list_move] at this
        simp only [lc_set_element, reduceCtorEq, and_false, or_false] at this
        exact this.2
      · have := (i4 j).2 h
        rw [mem_lru_list_move] at this
        simp only [lc_set_element, reduceCtorEq, and_false, or_false] at this
        exact this.2

theorem find_active_resync_extent_some {dev : drbd_device} {enr p i : Nat}
    (h : find_active_resync_extent dev enr = some (p, i)) :
    p < dev.nr_peers ∧
      lc_find (dev.peer p).resync_lru (enr / AL_EXT_PER_BM_SECT) = some i ∧
      (dev.bm_ext p i).flags.no_writes = true := by
  unfold find_active_resync_extent at h
  obtain ⟨q, hq, hf⟩ := List.exists_of_findSome?_eq_some h
  cases hl : lc_find (dev.peer q).resync_lru (enr / AL_EXT_PER_BM_SECT) with
  | none => rw [hl] at hf; simp at hf
  | some j =>
    rw [hl] at hf
    simp only at hf
    split_ifs at hf with hnw
    simp only [Option.some.injEq, Prod.mk.injEq] at hf
    obtain ⟨rfl, rfl⟩ := hf
    exact ⟨List.mem_range.mp hq, hl, hnw⟩

theorem lc_try_get_hit {lc : lru_cache} {enr i : Nat}
    (h : (lc_try_get lc enr).1 = some i) : lc_find_raw lc enr true = some i := by
  unfold lc_try_get at h
  rcases lc_get_flags_cases lc enr false false with ⟨h1, _⟩ | ⟨k, _, _, _, hmu, _⟩ |
      ⟨k, h1, hf, _⟩ | ⟨k, _, _, hmc, _⟩
  · rw [h1] at h; exact absurd h (by simp)
  · exact absurd hmu (by simp)
  · rw [h1] at h
    simp only [Option.some.injEq] at h
    rw [← h]; exact hf
  · exact absurd hmc (by simp)

theorem lc_get_flags_of_found {lc : lru_cache} {enr k : Nat} (mc mc' mu : Bool)
    (hf : lc_find_raw lc enr true = some k) :
    (lc_get_flags lc enr mc mu).1 = (lc_get_flags lc enr mc' mu).1 := by
  unfold lc_get_flags
  rw [hf]

theorem lc_try_get_none {lc : lru_cache} {enr : Nat} (h : (lc_try_get lc enr).1 = none) :
    (lc_try_get lc enr).2 = lc ∧
      ∀ i, (lc_get lc enr).1 = some i → lc_find_raw lc enr true = none := by
  constructor
  · unfold lc_try_get lc_get_flags at h ⊢
    by_cases hs : lc.starving = true
    · rw [if_pos hs]
    · rw [if_neg hs] at h ⊢
      cases hf : lc_find_raw lc enr true with
      | none => rfl
      | some k =>
        rw [hf] at h
        simp only [] at h ⊢
        by_cases hne : (lc.elements k).lc_new_number ≠ (lc.elements k).lc_number
        · rw [if_pos hne]; rfl
        · rw [if_neg hne] at h
          exact absurd h (by simp)
  · intro i hi
    cases hf : lc_find_raw lc enr true with
    | none => rfl
    | some k =>
      exfalso
      have := @lc_get_flags_of_found lc enr k false true false hf
      unfold lc_try_get at h
      unfold lc_get at hi
      rw [h, hi] at this
      exact absurd this (by simp)

theorem set_peer_peer (dev : drbd_device) (p : Nat) (pd : drbd_peer_device) :
    (dev.set_peer p pd).peer p = pd := by
  simp [drbd_device.set_peer]

set_option maxRecDepth 1000000 in
/-- The forced take breaks the exclusion also when no extent is remembered in
`resync_wenr`: after `drbd_al_begin_io_prepare` for activity log extent 0, a
`drbd_rs_begin_io` for bitmap extent 0 that sleeps (and holds its reference), a refused
`drbd_al_begin_io_fastpath` (which raises `BME_PRIORITY`) and a second `drbd_rs_begin_io`
for bitmap extent 0, which steps aside 200 times and then takes the extent. -/
theorem al_rs_exclusive_fails_after_forced_take :
    (drbd_rs_begin_io example_env
        (al_rs_run example_device [al_rs_op.al_begin_io_prepare ⟨0, 4096⟩]) 0 0).1 = none ∧
      ((al_rs_run example_device
        [al_rs_op.al_begin_io_prepare ⟨0, 4096⟩, al_rs_op.rs_begin_io example_env 0 0,
          al_rs_op.al_begin_io_fastpath ⟨8, 4096⟩]).peer 0).resync_wenr = LC_FREE ∧
      drbd_rs_begin_io_forced example_env 0 0 200 (al_rs_run example_device
        [al_rs_op.al_begin_io_prepare ⟨0, 4096⟩, al_rs_op.rs_begin_io example_env 0 0,
          al_rs_op.al_begin_io_fastpath ⟨8, 4096⟩]) = true ∧
      lc_is_used (al_rs_run example_device
        [al_rs_op.al_begin_io_prepare ⟨0, 4096⟩, al_rs_op.rs_begin_io example_env 0 0,
          al_rs_op.al_begin_io_fastpath ⟨8, 4096⟩,
          al_rs_op.rs_begin_io example_env 0 0]).act_log 0 = true ∧
      lc_find ((al_rs_run example_device
        [al_rs_op.al_begin_io_prepare ⟨0, 4096⟩, al_rs_op.rs_begin_io example_env 0 0,
          al_rs_op.al_begin_io_fastpath ⟨8, 4096⟩,
          al_rs_op.rs_begin_io example_env 0 0]).peer 0).resync_lru 0 = some 6 ∧
      ((al_rs_run example_device
        [al_rs_op.al_begin_io_prepare ⟨0, 4096⟩, al_rs_op.rs_begin_io example_env 0 0,
          al_rs_op.al_begin_io_fastpath ⟨8, 4096⟩,
          al_rs_op.rs_begin_io example_env 0 0]).bm_ext 0 6).flags.locked = true := by
  decide

set_option maxRecDepth 100000 in
/-- A `drbd_rs_begin_io` for the extent remembered in `resync_wenr` breaks the exclusion
without a forced take: after `drbd_try_rs_begin_io` for bitmap extent 0 has answered
`-EAGAIN` and the activity log extent is given back, `drbd_rs_begin_io` locks extent 0;
the next `drbd_try_rs_begin_io` for another extent releases the remembered extent by
clearing `BME_NO_WRITES`, and `drbd_al_begin_io_fastpath` takes activity log extent 0
while the bitmap extent is still `BME_LOCKED`. -/
theorem al_rs_exclusive_fails_after_wenr_release :
    ((al_rs_run example_device
        [al_rs_op.al_begin_io_prepare ⟨0, 4096⟩,
          al_rs_op.al_begin_io_commit example_env false, al_rs_op.try_rs_begin_io 0 0,
          al_rs_op.al_complete_io ⟨0, 4096⟩]).peer 0).resync_wenr = 0 ∧
      drbd_rs_begin_io_forced example_env 0 0 200 (al_rs_run example_device
        [al_rs_op.al_begin_io_prepare ⟨0, 4096⟩,
          al_rs_op.al_begin_io_commit example_env false, al_rs_op.try_rs_begin_io 0 0,
          al_rs_op.al_complete_io ⟨0, 4096⟩]) = false ∧
      lc_is_used (al_rs_run example_device
        [al_rs_op.al_begin_io_prepare ⟨0, 4096⟩,
          al_rs_op.al_begin_io_commit example_env false, al_rs_op.try_rs_begin_io 0 0,
          al_rs_op.al_complete_io ⟨0, 4096⟩, al_rs_op.rs_begin_io example_env 0 0,
          al_rs_op.try_rs_begin_io 0 (2 ^ 15),
          al_rs_op.al_begin_io_fastpath ⟨0, 4096⟩]).act_log 0 = true ∧
      lc_find ((al_rs_run example_device
        [al_rs_op.al_begin_io_prepare ⟨0, 4096⟩,
          al_rs_op.al_begin_io_commit example_env false, al_rs_op.try_rs_begin_io 0 0,
          al_rs_op.al_complete_io ⟨0, 4096⟩, al_rs_op.rs_begin_io example_env 0 0,
          al_rs_op.try_rs_begin_io 0 (2 ^ 15),
          al_rs_op.al_begin_io_fastpath ⟨0, 4096⟩]).peer 0).resync_lru 0 = some 6 ∧
      ((al_rs_run example_device
        [al_rs_op.al_begin_io_prepare ⟨0, 4096⟩,
          al_rs_op.al_begin_io_commit example_env false, al_rs_op.try_rs_begin_io 0 0,
          al_rs_op.al_complete_io ⟨0, 4096⟩, al_rs_op.rs_begin_io example_env 0 0,
          al_rs_op.try_rs_begin_io 0 (2 ^ 15),
          al_rs_op.al_begin_io_fastpath ⟨0, 4096⟩]).bm_ext 0 6).flags.locked = true := by
  decide

set_option maxRecDepth 100000 in
/-- C6 fails in the code: in a state reached by `drbd_al_begin_io_prepare`,
`drbd_al_begin_io_commit`, `drbd_try_rs_begin_io` (answer `-EAGAIN`, bitmap extent 0 is
remembered in `resync_wenr`), `drbd_al_complete_io` and `drbd_rs_begin_io` (bitmap extent
0 gets `BME_LOCKED`), `BME_LOCKED` implies `BME_NO_WRITES`; the following
`drbd_try_rs_begin_io` for bitmap extent 1 releases the remembered extent by clearing
`BME_NO_WRITES` and leaves it `BME_LOCKED`. -/
theorem drbd_try_rs_begin_io_breaks_locked_implies_no_writes :
    bme_locked_implies_no_writes (al_rs_run example_device
      [al_rs_op.al_begin_io_prepare ⟨0, 4096⟩,
        al_rs_op.al_begin_io_commit example_env false, al_rs_op.try_rs_begin_io 0 0,
        al_rs_op.al_complete_io ⟨0, 4096⟩, al_rs_op.rs_begin_io example_env 0 0]) ∧
    ¬ bme_locked_implies_no_writes (drbd_try_rs_begin_io (al_rs_run example_device
      [al_rs_op.al_begin_io_prepare ⟨0, 4096⟩,
        al_rs_op.al_begin_io_commit example_env false, al_rs_op.try_rs_begin_io 0 0,
        al_rs_op.al_complete_io ⟨0, 4096⟩, al_rs_op.rs_begin_io example_env 0 0])
      0 (2 ^ 15)).2 := by
  decide

/-! ## Properties: the transaction block and the run of transactions -/

theorem al_fill_updates_frame (al : lru_cache) (l : List Nat) :
    ∀ (i : Nat) (b : al_transaction_on_disk) (h : List (Nat × Nat)),
      (al_fill_updates al l i b h).2.1.magic = b.magic ∧
      (al_fill_updates al l i b h).2.1.tr_number = b.tr_number ∧
      (al_fill_updates al l i b h).2.1.crc32c = b.crc32c ∧
      (al_fill_updates al l i b h).2.1.transaction_type = b.transaction_type ∧
      (al_fill_updates al l i b h).2.1.reserved = b.reserved ∧
      (al_fill_updates al l i b h).2.1.context = b.context ∧
      (al_fill_updates al l i b h).2.1.update_slot_nr.length = b.update_slot_nr.length ∧
      (al_fill_updates al l i b h).2.1.update_extent_nr.length = b.update_extent_nr.length := by
  induction l with
  | nil => intro i b h; exact ⟨rfl, rfl, rfl, rfl, rfl, rfl, rfl, rfl⟩
  | cons x rest ih =>
    intro i b h
    unfold al_fill_updates
    split_ifs
    · exact ⟨rfl, rfl, rfl, rfl, rfl, rfl, rfl, rfl⟩
    · simp only []
      obtain ⟨h1, h2, h3, h4, h5, h6, h7, h8⟩ := ih (i + 1)
        { b with
          update_slot_nr := b.update_slot_nr.set i (cpu_to_be16 (al.elements x).lc_index)
          update_extent_nr := b.update_extent_nr.set i
            (cpu_to_be32 (al.elements x).lc_new_number) }
        (if (al.elements x).lc_number ≠ LC_FREE then
          drbd_bm_mark_range_for_writeout h (al_extent_to_bm_bit (al.elements x).lc_number)
            (u64_sub (al_extent_to_bm_bit (u32 ((al.elements x).lc_number + 1))) 1)
        else h)
      refine ⟨h1, h2, h3, h4, h5, h6, ?_, ?_⟩
      · rw [h7, List.length_set]
      · rw [h8, List.length_set]

theorem al_pad_updates_frame (i : Nat) (b : al_transaction_on_disk) :
    (al_pad_updates i b).magic = b.magic ∧
    (al_pad_updates i b).tr_number = b.tr_number ∧
    (al_pad_updates i b).crc32c = b.crc32c ∧
    (al_pad_updates i b).transaction_type = b.transaction_type ∧
    (al_pad_updates i b).reserved = b.reserved ∧
    (al_pad_updates i b).context = b.context ∧
    (al_pad_updates i b).update_slot_nr.length = b.update_slot_nr.length ∧
    (al_pad_updates i b).update_extent_nr.length = b.update_extent_nr.length := by
  unfold al_pad_updates
  generalize (List.range' i (AL_UPDATES_PER_TRANSACTION - i)) = js
  induction js generalizing b with
  | nil => exact ⟨rfl, rfl, rfl, rfl, rfl, rfl, rfl, rfl⟩
  | cons j rest ih =>
    simp only [List.foldl_cons]
    obtain ⟨h1, h2, h3, h4, h5, h6, h7, h8⟩ := ih
      { b with update_slot_nr := b.update_slot_nr.set j (cpu_to_be16 (2 ^ 32 - 1))
               update_extent_nr := b.update_extent_nr.set j (cpu_to_be32 LC_FREE) }
    refine ⟨h1, h2, h3, h4, h5, h6, ?_, ?_⟩
    · rw [h7, List.length_set]
    · rw [h8, List.length_set]

theorem foldl_set_fun_getElem? (f : Nat → Nat) (js : List Nat) :
    ∀ (l : List Nat) (k : Nat),
      (js.foldl (fun (l : List Nat) j => l.set j (f j)) l)[k]?
        = if k ∈ js ∧ k < l.length then some (f k) else l[k]? := by
  induction js with
  | nil => intro l k; simp
  | cons j rest ih =>
    intro l k
    simp only [List.foldl_cons]
    rw [ih (l.set j (f j)) k]
    simp only [List.length_set, List.mem_cons, List.getElem?_set]
    by_cases hl : k < l.length
    · by_cases hk : k ∈ rest
      · simp [hk, hl]
      · by_cases hj : j = k
        · subst hj; simp [hk, hl]
        · have hj' : ¬ k = j := fun h => hj h.symm
          simp [hk, hl, hj, hj']
    · have : l[k]? = none := List.getElem?_eq_none (by omega)
      by_cases hj : j = k
      · subst hj; simp [hl, this]
      · simp [hl, hj, this]

theorem foldl_set_fun_length (f : Nat → Nat) (js : List Nat) :
    ∀ l : List Nat, (js.foldl (fun (l : List Nat) j => l.set j (f j)) l).length = l.length := by
  induction js with
  | nil => intro l; rfl
  | cons j rest ih => intro l; simp only [List.foldl_cons]; rw [ih, List.length_set]

theorem foldl_context_eq (js : List Nat) (f : Nat → Nat) :
    ∀ b : al_transaction_on_disk,
      (js.foldl (fun (b : al_transaction_on_disk) i =>
          { b with context := b.context.set i (f i) }) b).magic = b.magic ∧
      (js.foldl (fun (b : al_transaction_on_disk) i =>
          { b with context := b.context.set i (f i) }) b).crc32c = b.crc32c ∧
      (js.foldl (fun (b : al_transaction_on_disk) i =>
          { b with context := b.context.set i (f i) }) b).reserved = b.reserved ∧
      (js.foldl (fun (b : al_transaction_on_disk) i =>
          { b with context := b.context.set i (f i) }) b).context
        = js.foldl (fun (l : List Nat) i => l.set i (f i)) b.context := by
  induction js with
  | nil => intro b; exact ⟨rfl, rfl, rfl, rfl⟩
  | cons j rest ih =>
    intro b
    simp only [List.foldl_cons]
    exact ih _

theorem foldl_context_frame (js : List Nat) (f : Nat → Nat) (b : al_transaction_on_disk) :
    (js.foldl (fun (b : al_transaction_on_disk) i =>
        { b with context := b.context.set i (f i) }) b).magic = b.magic ∧
    (js.foldl (fun (b : al_transaction_on_disk) i =>
        { b with context := b.context.set i (f i) }) b).crc32c = b.crc32c ∧
    (js.foldl (fun (b : al_transaction_on_disk) i =>
        { b with context := b.context.set i (f i) }) b).reserved = b.reserved ∧
    (js.foldl (fun (b : al_transaction_on_disk) i =>
        { b with context := b.context.set i (f i) }) b).context.length = b.context.length ∧
    ∀ k : Nat, (js.foldl (fun (b : al_transaction_on_disk) i =>
        { b with context := b.context.set i (f i) }) b).context[k]?
      = if k ∈ js ∧ k < b.context.length then some (f k) else b.context[k]? := by
  obtain ⟨h1, h2, h3, h4⟩ := foldl_context_eq js f b
  refine ⟨h1, h2, h3, ?_, fun k => ?_⟩
  · rw [h4, foldl_set_fun_length]
  · rw [h4, foldl_set_fun_getElem?]

theorem al_fill_context_frame (al : lru_cache) (c : Nat) (mx : Int)
    (b : al_transaction_on_disk) (hmx : mx.toNat ≤ AL_CONTEXT_PER_TRANSACTION) :
    (al_fill_context al c mx b).magic = b.magic ∧
    (al_fill_context al c mx b).crc32c = b.crc32c ∧
    (al_fill_context al c mx b).reserved = b.reserved ∧
    (al_fill_context al c mx b).context.length = b.context.length ∧
    ∀ k : Nat, (al_fill_context al c mx b).context[k]? =
      if k < b.context.length ∧ k < AL_CONTEXT_PER_TRANSACTION then
        (if k < mx.toNat then some (cpu_to_be32 (lc_element_by_index al (u32 (c + k))).lc_number)
         else some (cpu_to_be32 LC_FREE))
      else b.context[k]? := by
  unfold al_fill_context
  simp only []
  simp only [AL_CONTEXT_PER_TRANSACTION] at hmx
  generalize mx.toNat = m at hmx ⊢
  obtain ⟨a1, a2, a3, a4, a5⟩ := foldl_context_frame (List.range m)
    (fun i => cpu_to_be32 (lc_element_by_index al (u32 (c + i))).lc_number) b
  generalize (List.range m).foldl (fun (b : al_transaction_on_disk) i =>
      { b with
        context :=
          (b.context.set i (cpu_to_be32 (lc_element_by_index al (u32 (c + i))).lc_number)) })
      b = b1 at a1 a2 a3 a4 a5 ⊢
  obtain ⟨b1', b2, b3, b4, b5⟩ := foldl_context_frame
    (List.range' m (AL_CONTEXT_PER_TRANSACTION - m))
    (fun _ => cpu_to_be32 LC_FREE) b1
  refine ⟨b1'.trans a1, b2.trans a2, b3.trans a3, b4.trans a4, fun k => ?_⟩
  rw [b5, a5, a4]
  simp only [List.mem_range'_1, List.mem_range, AL_CONTEXT_PER_TRANSACTION]
  by_cases hk : k < b.context.length
  · by_cases h1 : k < m
    · by_cases h2 : k < 919
      · have : ¬ (m ≤ k ∧ k < m + (919 - m)) := by omega
        simp [hk, h1, h2, this]
      · omega
    · by_cases h2 : k < 919
      · have : (m ≤ k ∧ k < m + (919 - m)) := by omega
        simp [hk, h1, h2, this]
      · have : ¬ (m ≤ k ∧ k < m + (919 - m)) := by omega
        simp [hk, h1, h2, this]
  · have hn : b.context[k]? = none := List.getElem?_eq_none (by omega)
    simp [hk, hn]
theorem be32_bytes_flatten_length (l : List Nat) :
    ((l.map be32_bytes).flatten).length = 4 * l.length := by
  induction l with
  | nil => rfl
  | cons x rest ih =>
    simp only [List.map_cons, List.flatten_cons, List.length_append, ih, List.length_cons]
    simp only [be32_bytes, List.length_cons, List.length_nil]
    omega

theorem be16_bytes_flatten_length (l : List Nat) :
    ((l.map be16_bytes).flatten).length = 2 * l.length := by
  induction l with
  | nil => rfl
  | cons x rest ih =>
    simp only [List.map_cons, List.flatten_cons, List.length_append, ih, List.length_cons]
    simp only [be16_bytes, List.length_cons, List.length_nil]
    omega

theorem al_transaction_bytes_length (b : al_transaction_on_disk)
    (h1 : b.reserved.length = 4) (h2 : b.update_slot_nr.length = AL_UPDATES_PER_TRANSACTION)
    (h3 : b.update_extent_nr.length = AL_UPDATES_PER_TRANSACTION)
    (h4 : b.context.length = AL_CONTEXT_PER_TRANSACTION) :
    (al_transaction_bytes b).length = 4096 := by
  unfold al_transaction_bytes
  simp only [List.length_append, be32_bytes_flatten_length, be16_bytes_flatten_length, h1, h2,
    h3, h4, AL_UPDATES_PER_TRANSACTION, AL_CONTEXT_PER_TRANSACTION]
  simp only [be32_bytes, be16_bytes, List.length_cons, List.length_nil]

theorem al_build_transaction_block (env : drbd_env) (dev : drbd_device) :
    (al_build_transaction env dev).2.1.magic = cpu_to_be32 env.DRBD_AL_MAGIC ∧
    (al_build_transaction env dev).2.1.crc32c
      = cpu_to_be32 (env.crc32c 0
          (al_transaction_bytes { (al_build_transaction env dev).2.1 with crc32c := 0 })) ∧
    (al_transaction_bytes (al_build_transaction env dev).2.1).length = 4096 ∧
    ∀ k : Nat, k < AL_CONTEXT_PER_TRANSACTION →
      (al_build_transaction env dev).2.1.context[k]? =
        if k < (min (AL_CONTEXT_PER_TRANSACTION : Int)
            (int_of_u32 (u32_sub dev.act_log.nr_elements dev.al_tr_cycle))).toNat
        then some (cpu_to_be32 (dev.act_log.elements (u32 (dev.al_tr_cycle + k))).lc_number)
        else some (cpu_to_be32 LC_FREE) := by
  obtain ⟨f1, f2, f3, f4, f5, f6, f7, f8⟩ := al_fill_updates_frame dev.act_log
    dev.act_log.to_be_changed 0
    { al_transaction_zero with
      magic := cpu_to_be32 env.DRBD_AL_MAGIC
      tr_number := cpu_to_be32 dev.al_tr_number } dev.bm_hints
  have hmx : (min (AL_CONTEXT_PER_TRANSACTION : Int)
      (int_of_u32 (u32_sub dev.act_log.nr_elements dev.al_tr_cycle))).toNat
      ≤ AL_CONTEXT_PER_TRANSACTION := by
    simp only [AL_CONTEXT_PER_TRANSACTION]
    omega
  unfold al_build_transaction
  simp only []
  generalize al_fill_updates dev.act_log dev.act_log.to_be_changed 0
    { al_transaction_zero with
      magic := cpu_to_be32 env.DRBD_AL_MAGIC
      tr_number := cpu_to_be32 dev.al_tr_number } dev.bm_hints = r at f1 f2 f3 f4 f5 f6 f7 f8 ⊢
  obtain ⟨p1, p2, p3, p4, p5, p6, p7, p8⟩ :=
    al_pad_updates_frame r.1 { r.2.1 with n_updates := cpu_to_be16 r.1 }
  obtain ⟨u1, u2, u3⟩ := al_fill_context_updates dev.act_log dev.al_tr_cycle
    (min (AL_CONTEXT_PER_TRANSACTION : Int)
      (int_of_u32 (u32_sub dev.act_log.nr_elements dev.al_tr_cycle)))
    { al_pad_updates r.1 { r.2.1 with n_updates := cpu_to_be16 r.1 } with
      context_size := cpu_to_be16 dev.act_log.nr_elements
      context_start_slot_nr := cpu_to_be16 dev.al_tr_cycle }
  obtain ⟨c1, c2, c3, c4, c5⟩ := al_fill_context_frame dev.act_log dev.al_tr_cycle
    (min (AL_CONTEXT_PER_TRANSACTION : Int)
      (int_of_u32 (u32_sub dev.act_log.nr_elements dev.al_tr_cycle)))
    { al_pad_updates r.1 { r.2.1 with n_updates := cpu_to_be16 r.1 } with
      context_size := cpu_to_be16 dev.act_log.nr_elements
      context_start_slot_nr := cpu_to_be16 dev.al_tr_cycle } hmx
  generalize al_fill_context dev.act_log dev.al_tr_cycle
    (min (AL_CONTEXT_PER_TRANSACTION : Int)
      (int_of_u32 (u32_sub dev.act_log.nr_elements dev.al_tr_cycle)))
    { al_pad_updates r.1 { r.2.1 with n_updates := cpu_to_be16 r.1 } with
      context_size := cpu_to_be16 dev.act_log.nr_elements
      context_start_slot_nr := cpu_to_be16 dev.al_tr_cycle } = B at u1 u2 u3 c1 c2 c3 c4 c5 ⊢
  simp only [] at c1 c2 c3 c4 c5 u1 u2 p1 p3 p5 p6 p7 p8 f1 f3 f5 f6 f7 f8
  have hcrc : B.crc32c = 0 := by rw [c2, p3, f3]; rfl
  have hB0 : ({ B with crc32c := 0 } : al_transaction_on_disk) = B := by
    cases B
    simp only [al_transaction_on_disk.mk.injEq, true_and, and_true] at hcrc ⊢
    exact hcrc.symm
  refine ⟨?_, ?_, ?_, ?_⟩
  · rw [c1, p1, f1]
  · show cpu_to_be32 (env.crc32c 0 (al_transaction_bytes B))
      = cpu_to_be32 (env.crc32c 0 (al_transaction_bytes { B with crc32c := 0 }))
    rw [hB0]
  · apply al_transaction_bytes_length
    · show B.reserved.length = 4
      rw [c3, p5, f5]
      simp [al_transaction_zero]
    · show B.update_slot_nr.length = AL_UPDATES_PER_TRANSACTION
      rw [u1, p7, f7]
      simp [al_transaction_zero]
    · show B.update_extent_nr.length = AL_UPDATES_PER_TRANSACTION
      rw [u2, p8, f8]
      simp [al_transaction_zero]
    · show B.context.length = AL_CONTEXT_PER_TRANSACTION
      rw [c4, p6, f6]
      simp [al_transaction_zero]
  · intro k hk
    show B.context[k]? = _
    rw [c5 k]
    have hlen : (al_pad_updates r.1 { r.2.1 with n_updates := cpu_to_be16 r.1 }).context.length
        = AL_CONTEXT_PER_TRANSACTION := by
      rw [p6, f6]
      simp [al_transaction_zero]
    rw [hlen, if_pos ⟨hk, hk⟩]
    rfl
theorem md_log_new_append (new old : List md_io_event) : md_log_new old (new ++ old) = new := by
  unfold md_log_new
  simp

theorem md_log_new_self (old : List md_io_event) : md_log_new old old = [] := by
  unfold md_log_new
  simp

theorem al_fill_updates_count (al : lru_cache) (l : List Nat) :
    ∀ (i : Nat) (b : al_transaction_on_disk) (h : List (Nat × Nat)),
      i ≤ AL_UPDATES_PER_TRANSACTION →
      (al_fill_updates al l i b h).1 = min (i + l.length) (AL_UPDATES_PER_TRANSACTION + 1) := by
  induction l with
  | nil =>
    intro i b h hi
    simp only [al_fill_updates, List.length_nil, Nat.add_zero]
    omega
  | cons x rest ih =>
    intro i b h hi
    unfold al_fill_updates
    split_ifs with h64
    · simp only [List.length_cons]
      omega
    · simp only []
      rw [ih _ _ _ (by omega)]
      simp only [List.length_cons]
      omega

theorem al_tr_number_to_on_disk_sector_isSome (md : drbd_md) (t : Nat) :
    (al_tr_number_to_on_disk_sector md t).isSome = true ↔ md.al_size_4k ≠ 0 ∧ md.al_stripes ≠ 0 := by
  unfold al_tr_number_to_on_disk_sector
  simp only []
  split_ifs with h
  · simp only [Option.isSome_none, Bool.false_eq_true, false_iff]
    omega
  · simp only [Option.isSome_some, true_iff]
    omega

theorem al_build_transaction_count (env : drbd_env) (dev : drbd_device) :
    (al_build_transaction env dev).1
      = min dev.act_log.to_be_changed.length (AL_UPDATES_PER_TRANSACTION + 1) := by
  have hcount := al_fill_updates_count dev.act_log dev.act_log.to_be_changed 0
    { al_transaction_zero with
      magic := cpu_to_be32 env.DRBD_AL_MAGIC
      tr_number := cpu_to_be32 dev.al_tr_number } dev.bm_hints (Nat.zero_le _)
  unfold al_build_transaction
  simp only []
  rw [hcount, Nat.zero_add]

theorem _al_write_transaction_not_ready (env : drbd_env) (dev : drbd_device)
    (h : ¬ al_transaction_ready dev) :
    (_al_write_transaction env dev).2.md_log = dev.md_log ∧
    (_al_write_transaction env dev).2.al_tr_number = dev.al_tr_number ∧
    (_al_write_transaction env dev).2.al_writ_cnt = dev.al_writ_cnt := by
  unfold _al_write_transaction
  by_cases h1 : (!get_ldev dev) = true
  · rw [if_pos h1]
    exact ⟨rfl, rfl, rfl⟩
  rw [if_neg h1]
  by_cases h2 : dev.disk_state.val < drbd_disk_state.D_INCONSISTENT.val
  · rw [if_pos h2]
    exact ⟨rfl, rfl, rfl⟩
  rw [if_neg h2]
  by_cases h3 : dev.md_io_in_use ≠ 0
  · rw [if_pos h3]
    exact ⟨rfl, rfl, rfl⟩
  rw [if_neg h3]
  simp only []
  by_cases h4 : (al_build_transaction env { dev with md_io_in_use := 1 }).1
      > AL_UPDATES_PER_TRANSACTION
  · rw [if_pos h4]
    exact ⟨rfl, rfl, rfl⟩
  rw [if_neg h4]
  cases hs : al_tr_number_to_on_disk_sector dev.md dev.al_tr_number with
  | none => exact ⟨rfl, rfl, rfl⟩
  | some sector =>
    exfalso
    apply h
    have hsome := (al_tr_number_to_on_disk_sector_isSome _ _).mp (by rw [hs]; rfl)
    rw [al_build_transaction_count] at h4
    refine ⟨by simpa using h1, by simpa using h3, ?_, hsome⟩
    simp only [] at h4
    omega

theorem _al_write_transaction_ready (env : drbd_env) (dev : drbd_device)
    (h : al_transaction_ready dev) :
    ∃ sector, al_tr_number_to_on_disk_sector dev.md dev.al_tr_number = some sector ∧
      (_al_write_transaction env dev).1
        = some (if env.bm_write_hinted_ok = false then - EIO
                else if dev.al_updates = true ∧ env.md_write_ok = false then - EIO else 0) ∧
      (_al_write_transaction env dev).2.md_log
        = (if env.bm_write_hinted_ok = true ∧ dev.al_updates = true then
            [md_io_event.al_write sector (al_build_transaction env dev).2.1 env.md_write_ok]
          else []) ++ md_io_event.bm_write_hinted env.bm_write_hinted_ok :: dev.md_log ∧
      (_al_write_transaction env dev).2.al_tr_number
        = (if env.bm_write_hinted_ok = true ∧ dev.al_updates = true ∧ env.md_write_ok = true
            then u32 (dev.al_tr_number + 1) else dev.al_tr_number) ∧
      (_al_write_transaction env dev).2.al_writ_cnt
        = (if env.bm_write_hinted_ok = true ∧ dev.al_updates = true ∧ env.md_write_ok = true
            then u32 (dev.al_writ_cnt + 1) else dev.al_writ_cnt) ∧
      (_al_write_transaction env dev).2.al_tr_cycle
        = (if u32 (dev.al_tr_cycle + AL_CONTEXT_PER_TRANSACTION) ≥ dev.act_log.nr_elements
            then 0 else u32 (dev.al_tr_cycle + AL_CONTEXT_PER_TRANSACTION)) ∧
      (_al_write_transaction env dev).2.act_log = dev.act_log ∧
      al_transaction_ready (_al_write_transaction env dev).2 := by
  obtain ⟨r1, r2, r3, r4⟩ := h
  have hsome := (al_tr_number_to_on_disk_sector_isSome dev.md dev.al_tr_number).mpr r4
  obtain ⟨sector, hs⟩ := Option.isSome_iff_exists.mp hsome
  refine ⟨sector, hs, ?_⟩
  unfold _al_write_transaction
  have h1 : ¬ (!get_ldev dev) = true := by simp [r1]
  rw [if_neg h1]
  have h2 : ¬ dev.disk_state.val < drbd_disk_state.D_INCONSISTENT.val := by
    unfold get_ldev at r1
    simpa using r1
  rw [if_neg h2]
  have h3 : ¬ dev.md_io_in_use ≠ 0 := by simp [r2]
  rw [if_neg h3]
  simp only []
  have h4 : ¬ (al_build_transaction env { dev with md_io_in_use := 1 }).1
      > AL_UPDATES_PER_TRANSACTION := by
    rw [al_build_transaction_count]
    simp only []
    omega
  rw [if_neg h4, hs]
  simp only []
  have hb : al_build_transaction env { dev with md_io_in_use := 1 }
      = al_build_transaction env dev := rfl
  rw [hb]
  have hready : ∀ d : drbd_device, d.disk_state = dev.disk_state → d.md_io_in_use = 0 →
      d.act_log = dev.act_log → d.md = dev.md → al_transaction_ready d := by
    intro d e1 e2 e3 e4
    refine ⟨?_, e2, by rw [e3]; exact r3, by rw [e4]; exact r4⟩
    unfold get_ldev at r1 ⊢
    rw [e1]; exact r1
  cases hh : env.bm_write_hinted_ok <;> cases hu : dev.al_updates <;>
    cases hm : env.md_write_ok <;>
    simp only [Bool.not_true, Bool.not_false, if_true, if_false, Bool.false_eq_true,
      and_self, and_true, and_false, true_and, false_and, List.nil_append, List.cons_append,
      ge_iff_le] <;>
    first
      | (refine hready _ ?_ ?_ ?_ ?_ <;> rfl)
      | (refine ⟨by simp, hready _ ?_ ?_ ?_ ?_⟩ <;> rfl)

theorem _al_write_transaction_new_events (env : drbd_env) (dev : drbd_device) :
    md_log_new dev.md_log (_al_write_transaction env dev).2.md_log = [] ∨
    (al_transaction_ready dev ∧ ∃ sector,
      al_tr_number_to_on_disk_sector dev.md dev.al_tr_number = some sector ∧
      md_log_new dev.md_log (_al_write_transaction env dev).2.md_log
        = (if env.bm_write_hinted_ok = true ∧ dev.al_updates = true then
            [md_io_event.al_write sector (al_build_transaction env dev).2.1 env.md_write_ok]
          else []) ++ [md_io_event.bm_write_hinted env.bm_write_hinted_ok]) := by
  by_cases h : al_transaction_ready dev
  · right
    obtain ⟨sector, hs, _, hlog, _⟩ := _al_write_transaction_ready env dev h
    refine ⟨h, sector, hs, ?_⟩
    rw [hlog]
    have e : ∀ l : List md_io_event,
        l ++ md_io_event.bm_write_hinted env.bm_write_hinted_ok :: dev.md_log
          = (l ++ [md_io_event.bm_write_hinted env.bm_write_hinted_ok]) ++ dev.md_log := by
      intro l; simp
    rw [e, md_log_new_append]
  · left
    rw [(_al_write_transaction_not_ready env dev h).1, md_log_new_self]

/-- C12: every transaction block that a call of `_al_write_transaction` submits to the
meta data disk has the magic number `DRBD_AL_MAGIC`, 4096 bytes, and a `crc32c` field
that is the CRC32C with seed 0 of these bytes taken with the `crc32c` field zero. -/
theorem al_submitted_block_magic_and_crc (env : drbd_env) (dev : drbd_device) (sector : Int)
    (b : al_transaction_on_disk) (ok : Bool)
    (hsub : md_io_event.al_write sector b ok
      ∈ md_log_new dev.md_log (_al_write_transaction env dev).2.md_log) :
    b.magic = cpu_to_be32 env.DRBD_AL_MAGIC ∧ (al_transaction_bytes b).length = 4096 ∧
      b.crc32c = cpu_to_be32 (env.crc32c 0 (al_transaction_bytes { b with crc32c := 0 })) := by
  rcases _al_write_transaction_new_events env dev with h | ⟨_, s, _, h⟩
  · rw [h] at hsub
    exact absurd hsub (List.not_mem_nil _)
  · rw [h] at hsub
    have hb : b = (al_build_transaction env dev).2.1 := by
      split_ifs at hsub
      · simp only [List.singleton_append, List.mem_cons, md_io_event.al_write.injEq,
          List.mem_singleton, reduceCtorEq, or_false, List.not_mem_nil] at hsub
        exact hsub.2.1
      · simp at hsub
    obtain ⟨m1, m2, m3, _⟩ := al_build_transaction_block env dev
    rw [hb]
    exact ⟨m1, m3, m2⟩

/-- C13: when `_al_write_transaction` builds a transaction, then with `al_updates` set and
both the hinted bitmap write and the write of the block successful it returns 0 and
increments `al_tr_number` and `al_writ_cnt` (as `unsigned int`); when the write of the
block fails it returns `-EIO` and leaves both counters; without `al_updates` it submits
no block and leaves both counters. -/
theorem _al_write_transaction_counters (env : drbd_env) (dev : drbd_device)
    (hready : al_transaction_ready dev) :
    (env.bm_write_hinted_ok = true → dev.al_updates = true → env.md_write_ok = true →
      (_al_write_transaction env dev).1 = some 0 ∧
      (_al_write_transaction env dev).2.al_tr_number = u32 (dev.al_tr_number + 1) ∧
      (_al_write_transaction env dev).2.al_writ_cnt = u32 (dev.al_writ_cnt + 1)) ∧
    (env.bm_write_hinted_ok = true → dev.al_updates = true → env.md_write_ok = false →
      (_al_write_transaction env dev).1 = some (- EIO) ∧
      (_al_write_transaction env dev).2.al_tr_number = dev.al_tr_number ∧
      (_al_write_transaction env dev).2.al_writ_cnt = dev.al_writ_cnt) ∧
    (dev.al_updates = false →
      (∀ sector b ok, md_io_event.al_write sector b ok
        ∉ md_log_new dev.md_log (_al_write_transaction env dev).2.md_log) ∧
      (_al_write_transaction env dev).2.al_tr_number = dev.al_tr_number ∧
      (_al_write_transaction env dev).2.al_writ_cnt = dev.al_writ_cnt) := by
  obtain ⟨sector, hs, hr, hlog, htr, hcnt, _⟩ := _al_write_transaction_ready env dev hready
  refine ⟨fun h1 h2 h3 => ?_, fun h1 h2 h3 => ?_, fun h2 => ?_⟩
  · rw [hr, htr, hcnt]
    simp [h1, h2, h3]
  · rw [hr, htr, hcnt]
    simp [h1, h2, h3]
  · rw [htr, hcnt]
    refine ⟨fun s b ok hmem => ?_, by simp [h2], by simp [h2]⟩
    rcases _al_write_transaction_new_events env dev with h | ⟨_, s', _, h⟩
    · rw [h] at hmem
      exact absurd hmem (List.not_mem_nil _)
    · rw [h] at hmem
      simp [h2] at hmem

/-- C14: when `_al_write_transaction` builds a transaction, a block is submitted only after
the hinted bitmap write, and only if that write succeeded; when the hinted bitmap write
fails the call returns `-EIO`, submits no block and leaves `al_tr_number`. -/
theorem _al_write_transaction_flush_first (env : drbd_env) (dev : drbd_device)
    (hready : al_transaction_ready dev) :
    (∀ sector b ok, md_io_event.al_write sector b ok
        ∈ md_log_new dev.md_log (_al_write_transaction env dev).2.md_log →
      md_log_new dev.md_log (_al_write_transaction env dev).2.md_log
        = [md_io_event.al_write sector b ok, md_io_event.bm_write_hinted true]) ∧
    (env.bm_write_hinted_ok = false →
      (_al_write_transaction env dev).1 = some (- EIO) ∧
      md_log_new dev.md_log (_al_write_transaction env dev).2.md_log
        = [md_io_event.bm_write_hinted false] ∧
      (_al_write_transaction env dev).2.al_tr_number = dev.al_tr_number) := by
  obtain ⟨sector, hs, hr, hlog, htr, hcnt, _⟩ := _al_write_transaction_ready env dev hready
  have hnew : md_log_new dev.md_log (_al_write_transaction env dev).2.md_log
      = (if env.bm_write_hinted_ok = true ∧ dev.al_updates = true then
          [md_io_event.al_write sector (al_build_transaction env dev).2.1 env.md_write_ok]
        else []) ++ [md_io_event.bm_write_hinted env.bm_write_hinted_ok] := by
    rcases _al_write_transaction_new_events env dev with h | ⟨_, s', hs', h⟩
    · exfalso
      rw [hlog] at h
      have e : ∀ l : List md_io_event,
          l ++ md_io_event.bm_write_hinted env.bm_write_hinted_ok :: dev.md_log
            = (l ++ [md_io_event.bm_write_hinted env.bm_write_hinted_ok]) ++ dev.md_log := by
        intro l; simp
      rw [e, md_log_new_append] at h
      simp at h
    · rw [hs] at hs'
      cases hs'
      exact h
  refine ⟨fun s b ok hmem => ?_, fun h1 => ?_⟩
  · rw [hnew] at hmem ⊢
    split_ifs at hmem ⊢ with hc
    · simp only [List.singleton_append, List.mem_cons, md_io_event.al_write.injEq,
        List.mem_singleton, reduceCtorEq, or_false, List.not_mem_nil] at hmem
      obtain ⟨e1, e2, e3⟩ := hmem
      rw [e1, e2, e3, hc.1]
      rfl
    · simp at hmem
  · rw [hr, hnew, htr]
    simp [h1]

set_option maxRecDepth 100000 in
theorem example_device_prepared_submits :
    md_io_event.al_write 4032 (al_build_transaction example_env example_device_prepared).2.1 true
      ∈ md_log_new example_device_prepared.md_log
          (_al_write_transaction example_env example_device_prepared).2.md_log := by
  rcases _al_write_transaction_new_events example_env example_device_prepared with
    h | ⟨_, s, hs, h⟩
  · exfalso
    obtain ⟨_, _, _, hlog, _⟩ := _al_write_transaction_ready example_env
      example_device_prepared (by decide)
    rw [hlog] at h
    have e : ∀ l : List md_io_event,
        l ++ md_io_event.bm_write_hinted example_env.bm_write_hinted_ok
            :: example_device_prepared.md_log
          = (l ++ [md_io_event.bm_write_hinted example_env.bm_write_hinted_ok])
            ++ example_device_prepared.md_log := by
      intro l; simp
    rw [e, md_log_new_append] at h
    simp at h
  · have h4032 : al_tr_number_to_on_disk_sector example_device_prepared.md
        example_device_prepared.al_tr_number = some 4032 := by decide
    rw [h4032] at hs
    cases hs
    rw [h]
    have hc : example_env.bm_write_hinted_ok = true ∧ example_device_prepared.al_updates = true :=
      by decide
    rw [if_pos hc]
    exact List.mem_cons_self _ _

theorem al_submitted_block_magic_and_crc_witness :
    md_io_event.al_write 4032 (al_build_transaction example_env example_device_prepared).2.1 true
      ∈ md_log_new example_device_prepared.md_log
          (_al_write_transaction example_env example_device_prepared).2.md_log ∧
    ((al_build_transaction example_env example_device_prepared).2.1.magic
        = cpu_to_be32 example_env.DRBD_AL_MAGIC ∧
      (al_transaction_bytes (al_build_transaction example_env example_device_prepared).2.1).length
        = 4096 ∧
      (al_build_transaction example_env example_device_prepared).2.1.crc32c
        = cpu_to_be32 (example_env.crc32c 0 (al_transaction_bytes
            { (al_build_transaction example_env example_device_prepared).2.1 with
              crc32c := 0 }))) :=
  ⟨example_device_prepared_submits,
    al_submitted_block_magic_and_crc example_env example_device_prepared 4032
      (al_build_transaction example_env example_device_prepared).2.1 true
      example_device_prepared_submits⟩

set_option maxRecDepth 100000 in
theorem _al_write_transaction_counters_witness :
    al_transaction_ready example_device_prepared ∧
    ((example_env.bm_write_hinted_ok = true → example_device_prepared.al_updates = true →
        example_env.md_write_ok = true →
      (_al_write_transaction example_env example_device_prepared).1 = some 0 ∧
      (_al_write_transaction example_env example_device_prepared).2.al_tr_number
        = u32 (example_device_prepared.al_tr_number + 1) ∧
      (_al_write_transaction example_env example_device_prepared).2.al_writ_cnt
        = u32 (example_device_prepared.al_writ_cnt + 1)) ∧
    (example_env.bm_write_hinted_ok = true → example_device_prepared.al_updates = true →
        example_env.md_write_ok = false →
      (_al_write_transaction example_env example_device_prepared).1 = some (- EIO) ∧
      (_al_write_transaction example_env example_device_prepared).2.al_tr_number
        = example_device_prepared.al_tr_number ∧
      (_al_write_transaction example_env example_device_prepared).2.al_writ_cnt
        = example_device_prepared.al_writ_cnt) ∧
    (example_device_prepared.al_updates = false →
      (∀ sector b ok, md_io_event.al_write sector b ok
        ∉ md_log_new example_device_prepared.md_log
            (_al_write_transaction example_env example_device_prepared).2.md_log) ∧
      (_al_write_transaction example_env example_device_prepared).2.al_tr_number
        = example_device_prepared.al_tr_number ∧
      (_al_write_transaction example_env example_device_prepared).2.al_writ_cnt
        = example_device_prepared.al_writ_cnt)) :=
  ⟨by decide, _al_write_transaction_counters example_env example_device_prepared (by decide)⟩

set_option maxRecDepth 100000 in
theorem _al_write_transaction_flush_first_witness :
    al_transaction_ready example_device_prepared ∧
    ((∀ sector b ok, md_io_event.al_write sector b ok
        ∈ md_log_new example_device_prepared.md_log
            (_al_write_transaction example_env_bm_fails example_device_prepared).2.md_log →
      md_log_new example_device_prepared.md_log
          (_al_write_transaction example_env_bm_fails example_device_prepared).2.md_log
        = [md_io_event.al_write sector b ok, md_io_event.bm_write_hinted true]) ∧
    (example_env_bm_fails.bm_write_hinted_ok = false →
      (_al_write_transaction example_env_bm_fails example_device_prepared).1 = some (- EIO) ∧
      md_log_new example_device_prepared.md_log
          (_al_write_transaction example_env_bm_fails example_device_prepared).2.md_log
        = [md_io_event.bm_write_hinted false] ∧
      (_al_write_transaction example_env_bm_fails example_device_prepared).2.al_tr_number
        = example_device_prepared.al_tr_number)) :=
  ⟨by decide, _al_write_transaction_flush_first example_env_bm_fails example_device_prepared (by decide)⟩
set_option maxRecDepth 100000 in
/-- C19 as stated fails: the example device has 4 activity log elements and
`al_tr_cycle = 0`; after a transaction `al_tr_cycle` is 0 again, not
`(0 + 919) mod 4 = 3`. -/
theorem al_tr_cycle_not_modulo :
    al_transaction_ready example_device_prepared ∧
    (_al_write_transaction example_env example_device_prepared).2.al_tr_cycle
      ≠ (example_device_prepared.al_tr_cycle + AL_CONTEXT_PER_TRANSACTION)
          % example_device_prepared.act_log.nr_elements := by
  decide

/-- C19 (amended): after each transaction built by `_al_write_transaction` the new
`al_tr_cycle` is the old one plus 919 if that is below `nr_elements`, and 0 otherwise. -/
theorem al_tr_cycle_after_transaction (env : drbd_env) (dev : drbd_device)
    (hready : al_transaction_ready dev)
    (hc : dev.al_tr_cycle + AL_CONTEXT_PER_TRANSACTION < 2 ^ 32) :
    (_al_write_transaction env dev).2.al_tr_cycle
      = if dev.act_log.nr_elements ≤ dev.al_tr_cycle + AL_CONTEXT_PER_TRANSACTION then 0
        else dev.al_tr_cycle + AL_CONTEXT_PER_TRANSACTION := by
  obtain ⟨_, _, _, _, _, _, hcyc, _⟩ := _al_write_transaction_ready env dev hready
  rw [hcyc, u32_of_lt hc]

set_option maxRecDepth 100000 in
theorem al_tr_cycle_after_transaction_witness :
    al_transaction_ready example_device_prepared ∧
    example_device_prepared.al_tr_cycle + AL_CONTEXT_PER_TRANSACTION < 2 ^ 32 ∧
    (_al_write_transaction example_env example_device_prepared).2.al_tr_cycle
      = if example_device_prepared.act_log.nr_elements
          ≤ example_device_prepared.al_tr_cycle + AL_CONTEXT_PER_TRANSACTION then 0
        else example_device_prepared.al_tr_cycle + AL_CONTEXT_PER_TRANSACTION :=
  ⟨by decide, by decide,
    al_tr_cycle_after_transaction example_env example_device_prepared (by decide) (by decide)⟩

theorem succ_mod_cases (t N : Nat) (hN : 0 < N) :
    (t + 1) % N = if t % N + 1 = N then 0 else t % N + 1 := by
  have hlt := Nat.mod_lt t hN
  have hdm := Nat.div_add_mod t N
  have e : t + 1 = (t % N + 1) + N * (t / N) := by omega
  rw [e, Nat.add_mul_mod_self_left]
  split_ifs with h
  · rw [h, Nat.mod_self]
  · exact Nat.mod_eq_of_lt (by omega)

theorem al_write_transactions_cycle (envs : Nat → drbd_env) (dev : drbd_device)
    (hready : al_transaction_ready dev) (hc0 : dev.al_tr_cycle = 0)
    (hn : 1 ≤ dev.act_log.nr_elements) (hn31 : dev.act_log.nr_elements < 2 ^ 31) :
    ∀ t, al_transaction_ready (al_write_transactions envs dev t) ∧
      (al_write_transactions envs dev t).act_log = dev.act_log ∧
      (al_write_transactions envs dev t).al_tr_cycle
        = 919 * (t % ((dev.act_log.nr_elements + 918) / 919)) := by
  intro t
  induction t with
  | zero => exact ⟨hready, rfl, by simp [al_write_transactions, hc0]⟩
  | succ t ih =>
    obtain ⟨i1, i2, i3⟩ := ih
    obtain ⟨_, _, _, _, _, _, hcyc, hact, hrdy⟩ :=
      _al_write_transaction_ready (envs t) (al_write_transactions envs dev t) i1
    refine ⟨hrdy, hact.trans i2, ?_⟩
    show (_al_write_transaction (envs t) (al_write_transactions envs dev t)).2.al_tr_cycle = _
    rw [hcyc, i2, i3]
    have hN : 0 < (dev.act_log.nr_elements + 918) / 919 := by omega
    rw [succ_mod_cases t _ hN]
    have hlt := Nat.mod_lt t hN
    generalize t % ((dev.act_log.nr_elements + 918) / 919) = q at hlt ⊢
    simp only [AL_CONTEXT_PER_TRANSACTION, u32, ge_iff_le]
    split_ifs <;> omega

theorem al_window_index (N j k0 : Nat) (hN : 0 < N) (hk : k0 < N) :
    ∃ k, k < N ∧ (j + k) % N = k0 := by
  have ha := Nat.mod_lt j hN
  have hdm := Nat.div_add_mod j N
  by_cases hle : j % N ≤ k0
  · refine ⟨k0 - j % N, by omega, ?_⟩
    have e : j + (k0 - j % N) = k0 + N * (j / N) := by omega
    rw [e, Nat.add_mul_mod_self_left]
    exact Nat.mod_eq_of_lt hk
  · refine ⟨k0 + N - j % N, by omega, ?_⟩
    have e : j + (k0 + N - j % N) = k0 + N * (j / N + 1) := by
      rw [Nat.mul_add, Nat.mul_one]
      omega
    rw [e, Nat.add_mul_mod_self_left]
    exact Nat.mod_eq_of_lt hk

/-- C11: in a run of transactions that starts with `al_tr_cycle = 0` on an activity log of
`1 <= nr_elements < 2 ^ 31` elements (with 32 bit `lc_number`s), the block of each
transaction holds in `context[i]`, for `i < mx = min (919, nr_elements - al_tr_cycle)`,
the `lc_number` of slot `al_tr_cycle + i`, and `LC_FREE` in the other context entries;
and the context windows of any `ceil (nr_elements / 919)` consecutive transactions cover
every slot below `nr_elements`. -/
theorem al_context_windows_cover (envs : Nat → drbd_env) (dev : drbd_device)
    (hready : al_transaction_ready dev) (hc0 : dev.al_tr_cycle = 0)
    (hn : 1 ≤ dev.act_log.nr_elements) (hn31 : dev.act_log.nr_elements < 2 ^ 31)
    (hnum : ∀ i, i < dev.act_log.nr_elements → (dev.act_log.elements i).lc_number < 2 ^ 32) :
    (∀ t i : Nat, i < AL_CONTEXT_PER_TRANSACTION →
      (al_build_transaction (envs t) (al_write_transactions envs dev t)).2.1.context[i]?
        = some (if i < min AL_CONTEXT_PER_TRANSACTION
              (dev.act_log.nr_elements - (al_write_transactions envs dev t).al_tr_cycle)
            then ((al_write_transactions envs dev t).act_log.elements
              ((al_write_transactions envs dev t).al_tr_cycle + i)).lc_number
            else LC_FREE)) ∧
    (∀ j s : Nat, s < dev.act_log.nr_elements →
      ∃ k, k < (dev.act_log.nr_elements + (AL_CONTEXT_PER_TRANSACTION - 1))
            / AL_CONTEXT_PER_TRANSACTION ∧
        (al_write_transactions envs dev (j + k)).al_tr_cycle ≤ s ∧
        s < (al_write_transactions envs dev (j + k)).al_tr_cycle
          + min AL_CONTEXT_PER_TRANSACTION
              (dev.act_log.nr_elements - (al_write_transactions envs dev (j + k)).al_tr_cycle)) := by
  have hrun := al_write_transactions_cycle envs dev hready hc0 hn hn31
  have hN : 0 < (dev.act_log.nr_elements + 918) / 919 := by omega
  constructor
  · intro t i hi
    obtain ⟨_, h2, h3⟩ := hrun t
    obtain ⟨_, _, _, hctx⟩ := al_build_transaction_block (envs t) (al_write_transactions envs dev t)
    rw [hctx i hi, h2, h3]
    have hlt := Nat.mod_lt t hN
    generalize t % ((dev.act_log.nr_elements + 918) / 919) = q at hlt ⊢
    simp only [AL_CONTEXT_PER_TRANSACTION] at hi ⊢
    have hmx : (min ((919 : Nat) : Int) (int_of_u32 (u32_sub dev.act_log.nr_elements (919 * q)))).toNat
        = min 919 (dev.act_log.nr_elements - 919 * q) := by
      unfold int_of_u32 u32_sub
      split_ifs <;> omega
    simp only [hmx]
    by_cases hin : i < min 919 (dev.act_log.nr_elements - 919 * q)
    · rw [if_pos hin, if_pos hin]
      have hidx : u32 (919 * q + i) = 919 * q + i := by
        unfold u32
        omega
      rw [hidx]
      have hb := hnum (919 * q + i) (by omega)
      simp only [cpu_to_be32, Nat.mod_eq_of_lt hb]
    · rw [if_neg hin, if_neg hin]
      rfl
  · intro j s hs
    simp only [AL_CONTEXT_PER_TRANSACTION]
    obtain ⟨k, hk, hmod⟩ := al_window_index ((dev.act_log.nr_elements + 918) / 919) j (s / 919)
      hN (by omega)
    refine ⟨k, hk, ?_⟩
    rw [(hrun (j + k)).2.2, hmod]
    omega

set_option maxRecDepth 100000 in
theorem al_context_windows_cover_witness :
    al_transaction_ready example_device_large ∧ example_device_large.al_tr_cycle = 0 ∧
    1 ≤ example_device_large.act_log.nr_elements ∧
    example_device_large.act_log.nr_elements < 2 ^ 31 ∧
    (∀ i, i < example_device_large.act_log.nr_elements →
      (example_device_large.act_log.elements i).lc_number < 2 ^ 32) ∧
    ((∀ t i : Nat, i < AL_CONTEXT_PER_TRANSACTION →
      (al_build_transaction example_env
          (al_write_transactions (fun _ => example_env) example_device_large t)).2.1.context[i]?
        = some (if i < min AL_CONTEXT_PER_TRANSACTION
              (example_device_large.act_log.nr_elements
                - (al_write_transactions (fun _ => example_env) example_device_large t).al_tr_cycle)
            then ((al_write_transactions (fun _ => example_env) example_device_large t).act_log.elements
              ((al_write_transactions (fun _ => example_env) example_device_large t).al_tr_cycle
                + i)).lc_number
            else LC_FREE)) ∧
    (∀ j s : Nat, s < example_device_large.act_log.nr_elements →
      ∃ k, k < (example_device_large.act_log.nr_elements + (AL_CONTEXT_PER_TRANSACTION - 1))
            / AL_CONTEXT_PER_TRANSACTION ∧
        (al_write_transactions (fun _ => example_env) example_device_large (j + k)).al_tr_cycle ≤ s ∧
        s < (al_write_transactions (fun _ => example_env) example_device_large (j + k)).al_tr_cycle
          + min AL_CONTEXT_PER_TRANSACTION
              (example_device_large.act_log.nr_elements
                - (al_write_transactions (fun _ => example_env) example_device_large
                    (j + k)).al_tr_cycle))) :=
  ⟨by decide, by decide, by decide, by decide, by decide,
    al_context_windows_cover (fun _ => example_env) example_device_large (by decide) (by decide)
      (by decide) (by decide) (by decide)⟩

/-! ## Properties: refusing and granting extents -/

/-- C20: when some peer's resync LRU holds the bitmap extent of activity log extent `enr`
with `BME_NO_WRITES` set, `_al_get` returns no element whatever `nonblock` is, leaves
the activity log as it is, and sets `BME_PRIORITY` on a resync extent of this kind (the
one that `find_active_resync_extent` found); `al_wait` is woken exactly when
`BME_PRIORITY` was not set on it before. -/
theorem _al_get_refused (dev : drbd_device) (enr : Nat) (nonblock : Bool)
    (h : ∃ p, p < dev.nr_peers ∧ ∃ i,
      lc_find (dev.peer p).resync_lru (enr / AL_EXT_PER_BM_SECT) = some i ∧
      (dev.bm_ext p i).flags.no_writes = true) :
    (_al_get dev enr nonblock).1 = none ∧
    (_al_get dev enr nonblock).2.act_log = dev.act_log ∧
    ∃ p i, find_active_resync_extent dev enr = some (p, i) ∧ p < dev.nr_peers ∧
      lc_find (dev.peer p).resync_lru (enr / AL_EXT_PER_BM_SECT) = some i ∧
      (dev.bm_ext p i).flags.no_writes = true ∧
      ((_al_get dev enr nonblock).2.bm_ext p i).flags.priority = true ∧
      (_al_get dev enr nonblock).2.al_wait_wakeups
        = dev.al_wait_wakeups + (if (dev.bm_ext p i).flags.priority = true then 0 else 1) := by
  cases hf : find_active_resync_extent dev enr with
  | none =>
    exfalso
    obtain ⟨p, hp, i, hi, hnw⟩ := h
    have := (find_active_resync_extent_eq_none dev enr).mp hf p hp i hi
    rw [hnw] at this
    exact absurd this (by simp)
  | some pi =>
    obtain ⟨p, i⟩ := pi
    obtain ⟨hp, hi, hnw⟩ := find_active_resync_extent_some hf
    unfold _al_get
    rw [hf]
    simp only []
    refine ⟨trivial, ?_, p, i, rfl, hp, hi, hnw, ?_, ?_⟩
    · split_ifs <;> rfl
    · split_ifs <;>
        simp [wake_up_al_wait, drbd_device.set_bm_ext, drbd_device.bm_ext,
          drbd_device.set_peer, lc_set_element]
    · cases hpr : (dev.bm_ext p i).flags.priority <;>
        simp [wake_up_al_wait, drbd_device.set_bm_ext, drbd_device.set_peer]

theorem _al_get_refused_witness :
    (∃ p, p < (drbd_try_rs_begin_io example_device 0 0).2.nr_peers ∧ ∃ i,
      lc_find ((drbd_try_rs_begin_io example_device 0 0).2.peer p).resync_lru
        (1 / AL_EXT_PER_BM_SECT) = some i ∧
      ((drbd_try_rs_begin_io example_device 0 0).2.bm_ext p i).flags.no_writes = true) ∧
    ((_al_get (drbd_try_rs_begin_io example_device 0 0).2 1 true).1 = none ∧
    (_al_get (drbd_try_rs_begin_io example_device 0 0).2 1 true).2.act_log
      = (drbd_try_rs_begin_io example_device 0 0).2.act_log ∧
    ∃ p i, find_active_resync_extent (drbd_try_rs_begin_io example_device 0 0).2 1 = some (p, i) ∧
      p < (drbd_try_rs_begin_io example_device 0 0).2.nr_peers ∧
      lc_find ((drbd_try_rs_begin_io example_device 0 0).2.peer p).resync_lru
        (1 / AL_EXT_PER_BM_SECT) = some i ∧
      ((drbd_try_rs_begin_io example_device 0 0).2.bm_ext p i).flags.no_writes = true ∧
      ((_al_get (drbd_try_rs_begin_io example_device 0 0).2 1 true).2.bm_ext p i).flags.priority
        = true ∧
      (_al_get (drbd_try_rs_begin_io example_device 0 0).2 1 true).2.al_wait_wakeups
        = (drbd_try_rs_begin_io example_device 0 0).2.al_wait_wakeups
          + (if ((drbd_try_rs_begin_io example_device 0 0).2.bm_ext p i).flags.priority = true
              then 0 else 1)) :=
  ⟨⟨0, by decide, 6, by decide, by decide⟩,
    _al_get_refused (drbd_try_rs_begin_io example_device 0 0).2 1 true
      ⟨0, by decide, 6, by decide, by decide⟩⟩

theorem lc_get_flags_flags (lc : lru_cache) (enr : Nat) (mc mu : Bool) (j : Nat) :
    ((lc_get_flags lc enr mc mu).2.elements j).flags = (lc.elements j).flags := by
  rcases lc_get_flags_cases lc enr mc mu with ⟨_, hc⟩ | ⟨i, _, _, _, _, hc⟩ | ⟨i, _, _, _, hc⟩ |
      ⟨i, _, _, _, _, hc⟩
  · rw [hc.2.1]
  · rw [hc.2.1]
    simp only [lc_set_element, Function.update_apply]
    split_ifs with h
    · subst h; rfl
    · rfl
  · rw [hc.2.1, (elements_list_move _ _ _).1]
    simp only [lc_set_element, Function.update_apply]
    split_ifs with h
    · subst h; rfl
    · rfl
  · rw [hc.2.1, (elements_list_move _ _ _).1]
    simp only [lc_set_element, Function.update_apply]
    split_ifs with h
    · subst h; rfl
    · rfl

theorem lc_committed_flags (lc : lru_cache) (j : Nat) :
    ((lc_committed lc).elements j).flags = (lc.elements j).flags := by
  obtain ⟨_, f2, _, _⟩ := lc_committed_fold lc.to_be_changed lc
  unfold lc_committed
  simp only []
  rcases f2 j with h | h
  · rw [h]
  · rw [h]

theorem try_rs_release_wenr_act_log (dev : drbd_device) (p enr : Nat) :
    (try_rs_release_wenr dev p enr).act_log = dev.act_log := by
  unfold try_rs_release_wenr
  simp only []
  split_ifs
  · split <;> rfl
  · rfl

theorem try_rs_check_al_result (dev : drbd_device) (al : lru_cache) (hal : dev.act_log = al)
    (p enr i : Nat)
    (hl : (dev.bm_ext p i).flags.locked = false)
    (hnw : (dev.bm_ext p i).flags.no_writes = true) :
    ((∀ k, k < AL_EXT_PER_BM_SECT →
        lc_is_used al (u32 (u32 (enr * AL_EXT_PER_BM_SECT) + k)) = false) →
      (try_rs_check_al dev p enr i).1 = 0 ∧
      ((try_rs_check_al dev p enr i).2.bm_ext p i).flags.no_writes = true ∧
      ((try_rs_check_al dev p enr i).2.bm_ext p i).flags.locked = true ∧
      ((try_rs_check_al dev p enr i).2.peer p).resync_wenr = LC_FREE) ∧
    (¬ (∀ k, k < AL_EXT_PER_BM_SECT →
        lc_is_used al (u32 (u32 (enr * AL_EXT_PER_BM_SECT) + k)) = false) →
      (try_rs_check_al dev p enr i).1 = -EAGAIN ∧
      ((try_rs_check_al dev p enr i).2.bm_ext p i).flags.locked = false ∧
      ((try_rs_check_al dev p enr i).2.peer p).resync_wenr = enr) := by
  have hany : (List.range AL_EXT_PER_BM_SECT).any
      (fun k => lc_is_used al (u32 (u32 (enr * AL_EXT_PER_BM_SECT) + k))) = true ↔
      ¬ (∀ k, k < AL_EXT_PER_BM_SECT →
        lc_is_used al (u32 (u32 (enr * AL_EXT_PER_BM_SECT) + k)) = false) := by
    rw [List.any_eq_true]
    constructor
    · rintro ⟨k, hk, hu⟩ hall
      rw [hall k (List.mem_range.mp hk)] at hu
      exact absurd hu (by simp)
    · intro hn
      by_contra hc
      apply hn
      intro k hk
      by_contra hu
      exact hc ⟨k, List.mem_range.mpr hk, by simpa using hu⟩
  unfold try_rs_check_al
  rw [hal]
  simp only []
  constructor
  · intro hall
    have : ¬ (List.range AL_EXT_PER_BM_SECT).any
        (fun k => lc_is_used al (u32 (u32 (enr * AL_EXT_PER_BM_SECT) + k))) = true :=
      fun h => (hany.mp h) hall
    rw [if_neg this]
    simp [drbd_device.set_bm_ext, drbd_device.bm_ext, drbd_device.set_peer, lc_set_element]
    exact hnw
  · intro hn
    rw [if_pos (hany.mpr hn)]
    simp [drbd_device.bm_ext, drbd_device.set_peer]
    exact hl
/-- The result of `drbd_try_rs_begin_io` when (after the release of another remembered
extent) the resync LRU supplies element `i` for bitmap extent `enr`, the throttle is not
hit and the element is not `BME_LOCKED` yet. -/
theorem drbd_try_rs_begin_io_taken (dev : drbd_device) (p sector i : Nat)
    (hsup : (lc_get ((try_rs_release_wenr dev p (u32 (BM_SECT_TO_EXT sector))).peer p).resync_lru
      (u32 (BM_SECT_TO_EXT sector))).1 = some i)
    (hroom : (lc_try_get
        ((try_rs_release_wenr dev p (u32 (BM_SECT_TO_EXT sector))).peer p).resync_lru
        (u32 (BM_SECT_TO_EXT sector))).1 = none →
      ¬ ((try_rs_release_wenr dev p (u32 (BM_SECT_TO_EXT sector))).peer p).resync_locked
        > u32_sub ((try_rs_release_wenr dev p
            (u32 (BM_SECT_TO_EXT sector))).peer p).resync_lru.nr_elements 3)
    (hnl : (((try_rs_release_wenr dev p (u32 (BM_SECT_TO_EXT sector))).peer p).resync_lru.elements
      i).flags.locked = false) :
    ((∀ k, k < AL_EXT_PER_BM_SECT → lc_is_used dev.act_log
        (u32 (u32 (u32 (BM_SECT_TO_EXT sector) * AL_EXT_PER_BM_SECT) + k)) = false) →
      (drbd_try_rs_begin_io dev p sector).1 = 0 ∧
      ((drbd_try_rs_begin_io dev p sector).2.bm_ext p i).flags.no_writes = true ∧
      ((drbd_try_rs_begin_io dev p sector).2.bm_ext p i).flags.locked = true ∧
      ((drbd_try_rs_begin_io dev p sector).2.peer p).resync_wenr = LC_FREE) ∧
    (¬ (∀ k, k < AL_EXT_PER_BM_SECT → lc_is_used dev.act_log
        (u32 (u32 (u32 (BM_SECT_TO_EXT sector) * AL_EXT_PER_BM_SECT) + k)) = false) →
      (drbd_try_rs_begin_io dev p sector).1 = -EAGAIN ∧
      ((drbd_try_rs_begin_io dev p sector).2.bm_ext p i).flags.locked = false ∧
      ((drbd_try_rs_begin_io dev p sector).2.peer p).resync_wenr
        = u32 (BM_SECT_TO_EXT sector)) := by
  have hact := try_rs_release_wenr_act_log dev p (u32 (BM_SECT_TO_EXT sector))
  unfold drbd_try_rs_begin_io
  simp only []
  generalize try_rs_release_wenr dev p (u32 (BM_SECT_TO_EXT sector)) = d at hsup hroom hnl hact ⊢
  generalize u32 (BM_SECT_TO_EXT sector) = enr at hsup hroom hnl ⊢
  rw [← hact]
  cases htry : (lc_try_get (d.peer p).resync_lru enr).1 with
  | some j =>
    simp only []
    have hji : j = i := by
      have hfound := lc_try_get_hit htry
      have := @lc_get_flags_of_found (d.peer p).resync_lru enr j true false false hfound
      unfold lc_get at hsup
      unfold lc_try_get at htry
      rw [hsup, htry] at this
      exact (Option.some.inj this).symm
    subst hji
    have hl1 : ((lc_try_get (d.peer p).resync_lru enr).2.elements j).flags.locked = false := by
      unfold lc_try_get
      rw [lc_get_flags_flags]
      exact hnl
    rw [if_neg (by rw [hl1]; simp)]
    by_cases hnw : ((lc_try_get (d.peer p).resync_lru enr).2.elements j).flags.no_writes = true
    · rw [if_neg (by rw [hnw]; simp)]
      refine try_rs_check_al_result _ _ ?_ p enr j ?_ ?_
      · rfl
      · simp [drbd_device.bm_ext, drbd_device.set_bm_ext, drbd_device.set_peer,
          lc_set_element, hl1]
      · simp [drbd_device.bm_ext, drbd_device.set_bm_ext, drbd_device.set_peer,
          lc_set_element, hnw]
    · rw [if_pos (by simpa using hnw)]
      refine try_rs_check_al_result _ _ ?_ p enr j ?_ ?_
      · rfl
      · simp [drbd_device.bm_ext, drbd_device.set_bm_ext, drbd_device.set_peer,
          lc_set_element, hl1]
      · simp [drbd_device.bm_ext, drbd_device.set_bm_ext, drbd_device.set_peer,
          lc_set_element]
  | none =>
    simp only []
    rw [if_neg (hroom htry)]
    have hr2 := (lc_try_get_none htry).1
    rw [hr2, hsup]
    simp only []
    have hl2 : ((lc_get (d.peer p).resync_lru enr).2.elements i).flags.locked = false := by
      unfold lc_get
      rw [lc_get_flags_flags]
      exact hnl
    have hl3 : ((if (((lc_get (d.peer p).resync_lru enr).2.elements i).lc_number != enr) = true
        then lc_committed (lc_set_element (lc_get (d.peer p).resync_lru enr).2 i
          { (lc_get (d.peer p).resync_lru enr).2.elements i with
            rs_left := bm_e_weight (d.set_peer p { d.peer p with resync_lru := (d.peer p).resync_lru })
              p enr, rs_failed := 0 })
        else (lc_get (d.peer p).resync_lru enr).2).elements i).flags.locked = false := by
      split_ifs
      · rw [lc_committed_flags]
        simp [lc_set_element, hl2]
      · exact hl2
    generalize (if (((lc_get (d.peer p).resync_lru enr).2.elements i).lc_number != enr) = true
        then lc_committed (lc_set_element (lc_get (d.peer p).resync_lru enr).2 i
          { (lc_get (d.peer p).resync_lru enr).2.elements i with
            rs_left := bm_e_weight (d.set_peer p { d.peer p with resync_lru := (d.peer p).resync_lru })
              p enr, rs_failed := 0 })
        else (lc_get (d.peer p).resync_lru enr).2) = L at hl3 ⊢
    split_ifs
    · refine try_rs_check_al_result _ _ ?_ p enr i ?_ ?_
      · rfl
      · simp [drbd_device.bm_ext, drbd_device.set_peer, wake_up_al_wait, lc_set_element, hl3]
      · simp [drbd_device.bm_ext, drbd_device.set_peer, wake_up_al_wait, lc_set_element]
    · refine try_rs_check_al_result _ _ ?_ p enr i ?_ ?_
      · rfl
      · simp [drbd_device.bm_ext, drbd_device.set_peer, lc_set_element, hl3]
      · simp [drbd_device.bm_ext, drbd_device.set_peer, lc_set_element]

/-- The throttle of `drbd_try_rs_begin_io`: when the extent is not in the resync LRU and
`resync_locked` exceeds `nr_elements - 3`, the call answers `-EAGAIN` without taking an
element. -/
theorem drbd_try_rs_begin_io_throttled (dev : drbd_device) (p sector : Nat)
    (hmiss : (lc_try_get
        ((try_rs_release_wenr dev p (u32 (BM_SECT_TO_EXT sector))).peer p).resync_lru
        (u32 (BM_SECT_TO_EXT sector))).1 = none)
    (hthr : ((try_rs_release_wenr dev p (u32 (BM_SECT_TO_EXT sector))).peer p).resync_locked
        > u32_sub ((try_rs_release_wenr dev p
            (u32 (BM_SECT_TO_EXT sector))).peer p).resync_lru.nr_elements 3) :
    (drbd_try_rs_begin_io dev p sector).1 = -EAGAIN ∧
      ((drbd_try_rs_begin_io dev p sector).2.peer p).resync_wenr
        = ((try_rs_release_wenr dev p (u32 (BM_SECT_TO_EXT sector))).peer p).resync_wenr ∧
      ((drbd_try_rs_begin_io dev p sector).2.peer p).resync_locked
        = ((try_rs_release_wenr dev p (u32 (BM_SECT_TO_EXT sector))).peer p).resync_locked ∧
      ((drbd_try_rs_begin_io dev p sector).2.peer p).resync_lru
        = ((try_rs_release_wenr dev p (u32 (BM_SECT_TO_EXT sector))).peer p).resync_lru := by
  unfold drbd_try_rs_begin_io
  simp only []
  generalize try_rs_release_wenr dev p (u32 (BM_SECT_TO_EXT sector)) = d at hmiss hthr ⊢
  generalize u32 (BM_SECT_TO_EXT sector) = enr at hmiss hthr ⊢
  rw [hmiss]
  simp only []
  rw [if_pos hthr]
  refine ⟨rfl, ?_, ?_, ?_⟩
  · simp only [set_peer_peer]
  · simp only [set_peer_peer]
  · simp only [set_peer_peer]
    exact (lc_try_get_none hmiss).1

set_option maxRecDepth 100000 in
/-- C18 as stated fails: on the example device with five of the seven resync extents
locked (`resync_locked = 5 > 7 - 3`), the resync LRU can supply element 1 for bitmap
extent 5, the extent is not in the LRU and the element is not `BME_LOCKED`, none of the
activity log extents 20 to 23 is in use, and yet `drbd_try_rs_begin_io` returns `-EAGAIN`
without setting a flag, with `resync_wenr = LC_FREE`. -/
theorem drbd_try_rs_begin_io_eagain_by_throttle :
    u32 (BM_SECT_TO_EXT 163840) = 5 ∧
      (example_device_five_locked.peer 0).resync_locked = 5 ∧
      (example_device_five_locked.peer 0).resync_lru.nr_elements = 7 ∧
      (lc_get ((try_rs_release_wenr example_device_five_locked 0 5).peer 0).resync_lru 5).1
        = some 1 ∧
      lc_find (example_device_five_locked.peer 0).resync_lru 5 = none ∧
      (example_device_five_locked.bm_ext 0 1).flags.locked = false ∧
      (∀ k, k < AL_EXT_PER_BM_SECT → lc_is_used example_device_five_locked.act_log
        (u32 (u32 (5 * AL_EXT_PER_BM_SECT) + k)) = false) ∧
      (drbd_try_rs_begin_io example_device_five_locked 0 163840).1 = -EAGAIN ∧
      ((drbd_try_rs_begin_io example_device_five_locked 0 163840).2.bm_ext 0 1).flags.no_writes
        = false ∧
      ((drbd_try_rs_begin_io example_device_five_locked 0 163840).2.bm_ext 0 1).flags.locked
        = false ∧
      ((drbd_try_rs_begin_io example_device_five_locked 0 163840).2.peer 0).resync_wenr
        = LC_FREE := by
  decide

/-- C18 (amended): take a state in which, after the release of another remembered extent,
the resync LRU supplies element `i` for bitmap extent `enr`, the element does not carry
`BME_LOCKED` (neither for `enr` nor as a flag left on a recycled element) and, when `enr`
is not yet in the resync LRU, `resync_locked` does not exceed `nr_elements - 3`. Then
`drbd_try_rs_begin_io` returns 0 with `BME_NO_WRITES` and `BME_LOCKED` set on the element
and `resync_wenr = LC_FREE` if none of the four activity log extents of `enr` is in use,
and otherwise returns `-EAGAIN` with `BME_LOCKED` not set and `resync_wenr = enr`. When
`enr` is not in the resync LRU and `resync_locked` exceeds `nr_elements - 3`, the call
returns `-EAGAIN` and leaves the resync LRU, `resync_locked` and `resync_wenr` as they
are after the release. -/
theorem drbd_try_rs_begin_io_result (dev : drbd_device) (p sector i : Nat) :
    ((lc_get ((try_rs_release_wenr dev p (u32 (BM_SECT_TO_EXT sector))).peer p).resync_lru
        (u32 (BM_SECT_TO_EXT sector))).1 = some i →
      ((lc_try_get
          ((try_rs_release_wenr dev p (u32 (BM_SECT_TO_EXT sector))).peer p).resync_lru
          (u32 (BM_SECT_TO_EXT sector))).1 = none →
        ¬ ((try_rs_release_wenr dev p (u32 (BM_SECT_TO_EXT sector))).peer p).resync_locked
          > u32_sub ((try_rs_release_wenr dev p
              (u32 (BM_SECT_TO_EXT sector))).peer p).resync_lru.nr_elements 3) →
      (((try_rs_release_wenr dev p (u32 (BM_SECT_TO_EXT sector))).peer p).resync_lru.elements
        i).flags.locked = false →
      ((∀ k, k < AL_EXT_PER_BM_SECT → lc_is_used dev.act_log
          (u32 (u32 (u32 (BM_SECT_TO_EXT sector) * AL_EXT_PER_BM_SECT) + k)) = false) →
        (drbd_try_rs_begin_io dev p sector).1 = 0 ∧
        ((drbd_try_rs_begin_io dev p sector).2.bm_ext p i).flags.no_writes = true ∧
        ((drbd_try_rs_begin_io dev p sector).2.bm_ext p i).flags.locked = true ∧
        ((drbd_try_rs_begin_io dev p sector).2.peer p).resync_wenr = LC_FREE) ∧
      (¬ (∀ k, k < AL_EXT_PER_BM_SECT → lc_is_used dev.act_log
          (u32 (u32 (u32 (BM_SECT_TO_EXT sector) * AL_EXT_PER_BM_SECT) + k)) = false) →
        (drbd_try_rs_begin_io dev p sector).1 = -EAGAIN ∧
        ((drbd_try_rs_begin_io dev p sector).2.bm_ext p i).flags.locked = false ∧
        ((drbd_try_rs_begin_io dev p sector).2.peer p).resync_wenr
          = u32 (BM_SECT_TO_EXT sector))) ∧
    ((lc_try_get
          ((try_rs_release_wenr dev p (u32 (BM_SECT_TO_EXT sector))).peer p).resync_lru
          (u32 (BM_SECT_TO_EXT sector))).1 = none →
      ((try_rs_release_wenr dev p (u32 (BM_SECT_TO_EXT sector))).peer p).resync_locked
        > u32_sub ((try_rs_release_wenr dev p
            (u32 (BM_SECT_TO_EXT sector))).peer p).resync_lru.nr_elements 3 →
      (drbd_try_rs_begin_io dev p sector).1 = -EAGAIN ∧
        ((drbd_try_rs_begin_io dev p sector).2.peer p).resync_wenr
          = ((try_rs_release_wenr dev p (u32 (BM_SECT_TO_EXT sector))).peer p).resync_wenr ∧
        ((drbd_try_rs_begin_io dev p sector).2.peer p).resync_locked
          = ((try_rs_release_wenr dev p (u32 (BM_SECT_TO_EXT sector))).peer p).resync_locked ∧
        ((drbd_try_rs_begin_io dev p sector).2.peer p).resync_lru
          = ((try_rs_release_wenr dev p (u32 (BM_SECT_TO_EXT sector))).peer p).resync_lru) :=
  ⟨fun hsup hroom hnl => drbd_try_rs_begin_io_taken dev p sector i hsup hroom hnl,
    fun hmiss hthr => drbd_try_rs_begin_io_throttled dev p sector hmiss hthr⟩

set_option maxRecDepth 100000 in
/-- The amended C18 at the example device with the activity log extents 0 and 1 in use
(the call for bitmap extent 0 returns `-EAGAIN` and remembers the extent), and at the
example device with five locked resync extents, where the throttle is hit. -/
theorem drbd_try_rs_begin_io_result_witness :
    (lc_get ((try_rs_release_wenr example_device_prepared 0
        (u32 (BM_SECT_TO_EXT 0))).peer 0).resync_lru (u32 (BM_SECT_TO_EXT 0))).1 = some 6 ∧
    (((try_rs_release_wenr example_device_prepared 0
        (u32 (BM_SECT_TO_EXT 0))).peer 0).resync_lru.elements 6).flags.locked = false ∧
    (((∀ k, k < AL_EXT_PER_BM_SECT → lc_is_used example_device_prepared.act_log
        (u32 (u32 (u32 (BM_SECT_TO_EXT 0) * AL_EXT_PER_BM_SECT) + k)) = false) →
      (drbd_try_rs_begin_io example_device_prepared 0 0).1 = 0 ∧
      ((drbd_try_rs_begin_io example_device_prepared 0 0).2.bm_ext 0 6).flags.no_writes = true ∧
      ((drbd_try_rs_begin_io example_device_prepared 0 0).2.bm_ext 0 6).flags.locked = true ∧
      ((drbd_try_rs_begin_io example_device_prepared 0 0).2.peer 0).resync_wenr = LC_FREE) ∧
    (¬ (∀ k, k < AL_EXT_PER_BM_SECT → lc_is_used example_device_prepared.act_log
        (u32 (u32 (u32 (BM_SECT_TO_EXT 0) * AL_EXT_PER_BM_SECT) + k)) = false) →
      (drbd_try_rs_begin_io example_device_prepared 0 0).1 = -EAGAIN ∧
      ((drbd_try_rs_begin_io example_device_prepared 0 0).2.bm_ext 0 6).flags.locked = false ∧
      ((drbd_try_rs_begin_io example_device_prepared 0 0).2.peer 0).resync_wenr
        = u32 (BM_SECT_TO_EXT 0))) ∧
    ((drbd_try_rs_begin_io example_device_five_locked 0 163840).1 = -EAGAIN ∧
      ((drbd_try_rs_begin_io example_device_five_locked 0 163840).2.peer 0).resync_wenr
        = ((try_rs_release_wenr example_device_five_locked 0
            (u32 (BM_SECT_TO_EXT 163840))).peer 0).resync_wenr ∧
      ((drbd_try_rs_begin_io example_device_five_locked 0 163840).2.peer 0).resync_locked
        = ((try_rs_release_wenr example_device_five_locked 0
            (u32 (BM_SECT_TO_EXT 163840))).peer 0).resync_locked ∧
      ((drbd_try_rs_begin_io example_device_five_locked 0 163840).2.peer 0).resync_lru
        = ((try_rs_release_wenr example_device_five_locked 0
            (u32 (BM_SECT_TO_EXT 163840))).peer 0).resync_lru) :=
  ⟨by decide, by decide,
    (drbd_try_rs_begin_io_result example_device_prepared 0 0 6).1 (by decide) (by decide)
      (by decide),
    (drbd_try_rs_begin_io_result example_device_five_locked 0 163840 1).2 (by decide)
      (by decide)⟩

/-! ## Properties: setting blocks out of sync -/

/-- C16: `set_out_of_sync` called with a `size` that is 0, negative, not a multiple of 512
or above `DRBD_MAX_BIO_SIZE` returns false and leaves the device, its bitmap and every
`rs_left` included, as it is. -/
theorem set_out_of_sync_rejects (env : drbd_env) (dev : drbd_device) (peer_device : Option Nat)
    (sector : Nat) (size : Int)
    (h : size = 0 ∨ size < 0 ∨ size % 512 ≠ 0 ∨ size > env.DRBD_MAX_BIO_SIZE) :
    set_out_of_sync env dev peer_device sector size = (false, dev) := by
  unfold set_out_of_sync
  by_cases h0 : size = 0
  · rw [if_pos h0]
  · rw [if_neg h0, if_pos (by tauto)]

theorem set_out_of_sync_rejects_witness :
    ((1000 : Int) = 0 ∨ (1000 : Int) < 0 ∨ (1000 : Int) % 512 ≠ 0
        ∨ (1000 : Int) > example_env.DRBD_MAX_BIO_SIZE) ∧
    set_out_of_sync example_env example_device (some 0) 8 1000 = (false, example_device) :=
  ⟨by decide, set_out_of_sync_rejects example_env example_device (some 0) 8 1000 (by decide)⟩

set_option maxRecDepth 100000 in
/-- C17 fails in the code: on a device of 64 sectors whose 8 bitmap bits are all set for
peer 0, `set_in_sync` for the 512 bytes at sector 0 clears no bit (the request covers no
full 4 KiB block), while `drbd_set_sync` for the same range with the peer's bit in
`mask` set and in `bits` clear clears all 8 bits. -/
theorem drbd_set_sync_clears_unrelated_bits :
    (∀ k, k < 8 →
      (set_in_sync example_env example_device_dirty (some 0) 0 512).bitmap.bits 0 k = true) ∧
    (∀ k, k < 8 →
      (drbd_set_sync example_env example_device_dirty 0 512 0 1).2.bitmap.bits 0 k = false) ∧
    set_sync_range example_device_dirty.capacity 0 512 = some (0, 0, 0, 2 ^ 61 - 1) := by
  decide

theorem set_out_of_sync_range_eq (nr_sectors sector : Nat) (size : Int)
    (hsize : 0 < size) (hal : size % 512 = 0) (hmax : size < 2 ^ 31)
    (hsec : sector < nr_sectors) (hcap : nr_sectors < 2 ^ 63) :
    set_out_of_sync_range nr_sectors sector size
      = some (BM_SECT_TO_BIT sector,
          BM_SECT_TO_BIT (min (sector + (size / 512).toNat) nr_sectors - 1)) := by
  unfold set_out_of_sync_range
  simp only []
  rw [if_neg (by omega)]
  have hn : 1 ≤ (size / 512).toNat := by omega
  have e29 : (size / 2 ^ 9).toNat = (size / 512).toNat := by norm_num
  rw [e29]
  have hnb : (size / 512).toNat < 2 ^ 22 := by omega
  generalize (size / 512).toNat = n at hn hnb ⊢
  have he : (if ¬ u64_sub (u64 (sector + n)) 1 < nr_sectors then u64_sub nr_sectors 1
      else u64_sub (u64 (sector + n)) 1) = min (sector + n) nr_sectors - 1 := by
    simp only [u64, u64_sub]
    split_ifs <;> omega
  rw [he]

theorem filter_range_between (f : Nat → Bool) (s e : Nat) :
    ∀ n : Nat, ((List.range n).filter (fun b => decide (s ≤ b ∧ b ≤ e) && f b))
      = (List.range' s (min (e + 1) n - s)).filter f := by
  intro n
  induction n with
  | zero => simp
  | succ n ih =>
    rw [List.range_succ, List.filter_append, ih]
    by_cases hin : s ≤ n ∧ n ≤ e
    · have e1 : min (e + 1) (n + 1) - s = (min (e + 1) n - s) + 1 := by omega
      have e2 : s + 1 * (min (e + 1) n - s) = n := by omega
      rw [e1, List.range'_concat, List.filter_append, e2]
      simp [List.filter_cons, hin.1, hin.2]
    · have e1 : min (e + 1) (n + 1) - s = min (e + 1) n - s := by omega
      rw [e1]
      simp [hin]
theorem int_of_unsigned_of_range (z : Int) (h1 : -(2 ^ 31) ≤ z) (h2 : z < 2 ^ 31) :
    int_of_unsigned z = z := by
  unfold int_of_unsigned int_of_u32
  split_ifs <;> omega

theorem drbd_bm_set_bits_count (bm : drbd_bitmap) (idx s e : Nat) :
    (drbd_bm_set_bits bm idx s e).1
      = ((List.range bm.bm_bits).filter
          (fun b => !bm.bits idx b && (drbd_bm_set_bits bm idx s e).2.bits idx b)).length ∧
    (drbd_bm_set_bits bm idx s e).1 ≤ e + 1 - s := by
  unfold drbd_bm_set_bits bm_range
  simp only []
  constructor
  · rw [← filter_range_between]
    congr 1
    apply List.filter_congr
    intro b hb
    have hb' := List.mem_range.mp hb
    by_cases hin : s ≤ b ∧ b ≤ e
    · cases hbit : bm.bits idx b <;> simp [hin, hb']
    · cases hbit : bm.bits idx b <;> simp [hin, hb']
  · refine le_trans (List.length_filter_le _ _) ?_
    rw [List.length_range']
    omega

/-- C15: for a call of `set_out_of_sync` for peer device `p` with a `size` that is a
positive multiple of 512 not above `DRBD_MAX_BIO_SIZE` and `sector` below the capacity
(on a device with a usable disk, a bitmap bit for every sector, less than `2 ^ 63`
sectors, and `rs_left` values that leave room in their `int`): every bit whose 8 sectors
meet the request up to the capacity is set afterwards, no bit outside
`BM_SECT_TO_BIT (sector) .. BM_SECT_TO_BIT (esector)` of the peer's bitmap changes, and
`rs_left` grows by the number of newly set bits for the element that the peer's resync
LRU holds for the bitmap extent of the first bit, and for no other element. -/
theorem set_out_of_sync_sets_bits (env : drbd_env) (dev : drbd_device) (p sector : Nat)
    (size : Int)
    (hsize : 0 < size) (hal : size % 512 = 0) (hmax : size ≤ env.DRBD_MAX_BIO_SIZE)
    (hmb : env.DRBD_MAX_BIO_SIZE < 2 ^ 31)
    (hsec : sector < dev.capacity) (hcap : dev.capacity < 2 ^ 63)
    (hldev : get_ldev dev = true)
    (hbits : BM_SECT_TO_BIT (dev.capacity + (BM_SECT_PER_BIT - 1)) ≤ dev.bitmap.bm_bits)
    (hrs : ∀ i, -(2 ^ 30) ≤ (dev.bm_ext p i).rs_left ∧ (dev.bm_ext p i).rs_left < 2 ^ 30) :
    (∀ b : Nat, 8 * b < min (sector + (size / 512).toNat) dev.capacity → sector < 8 * b + 8 →
      (set_out_of_sync env dev (some p) sector size).2.bitmap.bits (dev.peer p).bitmap_index b
        = true) ∧
    (∀ idx b : Nat,
      ¬ (idx = (dev.peer p).bitmap_index ∧ BM_SECT_TO_BIT sector ≤ b ∧
          b ≤ BM_SECT_TO_BIT (min (sector + (size / 512).toNat) dev.capacity - 1)) →
      (set_out_of_sync env dev (some p) sector size).2.bitmap.bits idx b
        = dev.bitmap.bits idx b) ∧
    (∀ q i : Nat,
      ((set_out_of_sync env dev (some p) sector size).2.bm_ext q i).rs_left
        = if q = p ∧ lc_find (dev.peer p).resync_lru
              (u32 (BM_SECT_TO_BIT sector >>> (BM_EXT_SHIFT - BM_BLOCK_SHIFT))) = some i
          then (dev.bm_ext p i).rs_left
            + (((List.range dev.bitmap.bm_bits).filter (fun b =>
                !dev.bitmap.bits (dev.peer p).bitmap_index b &&
                (set_out_of_sync env dev (some p) sector size).2.bitmap.bits
                  (dev.peer p).bitmap_index b)).length : Nat)
          else (dev.bm_ext q i).rs_left) := by
  have hmaxb : size < 2 ^ 31 := by omega
  have hrange := set_out_of_sync_range_eq dev.capacity sector size hsize hal hmaxb hsec hcap
  have hset : set_out_of_sync env dev (some p) sector size
      = __set_out_of_sync dev p (BM_SECT_TO_BIT sector)
          (BM_SECT_TO_BIT (min (sector + (size / 512).toNat) dev.capacity - 1)) := by
    unfold set_out_of_sync
    rw [if_neg (by omega), if_neg (by omega), if_neg (by simp [hldev]), hrange]
  rw [hset]
  have hn : 1 ≤ (size / 512).toNat := by omega
  have hnb : (size / 512).toNat < 2 ^ 22 := by omega
  generalize (size / 512).toNat = n at hn hnb ⊢
  obtain ⟨hcnt, hcntle⟩ := drbd_bm_set_bits_count dev.bitmap (dev.peer p).bitmap_index
    (BM_SECT_TO_BIT sector) (BM_SECT_TO_BIT (min (sector + n) dev.capacity - 1))
  have hbm : (__set_out_of_sync dev p (BM_SECT_TO_BIT sector)
      (BM_SECT_TO_BIT (min (sector + n) dev.capacity - 1))).2.bitmap
      = (drbd_bm_set_bits dev.bitmap (dev.peer p).bitmap_index (BM_SECT_TO_BIT sector)
          (BM_SECT_TO_BIT (min (sector + n) dev.capacity - 1))).2 := by
    unfold __set_out_of_sync
    simp only []
    split <;> rfl
  rw [hbm]
  refine ⟨fun b h1 h2 => ?_, fun idx b hout => ?_, fun q i => ?_⟩
  · simp only [drbd_bm_set_bits]
    rw [if_pos]
    simp only [BM_SECT_TO_BIT, BM_SECT_PER_BIT, BM_BLOCK_SHIFT, Nat.shiftRight_eq_div_pow]
      at hbits ⊢
    refine ⟨trivial, ?_, ?_, ?_⟩ <;> omega
  · simp only [drbd_bm_set_bits]
    rw [if_neg]
    rintro ⟨h1, h2, h3, _⟩
    exact hout ⟨h1, h2, h3⟩
  · rw [← hcnt]
    have hcb : (drbd_bm_set_bits dev.bitmap (dev.peer p).bitmap_index (BM_SECT_TO_BIT sector)
        (BM_SECT_TO_BIT (min (sector + n) dev.capacity - 1))).1 < 2 ^ 23 := by
      refine lt_of_le_of_lt hcntle ?_
      simp only [BM_SECT_TO_BIT, BM_BLOCK_SHIFT, Nat.shiftRight_eq_div_pow]
      omega
    unfold __set_out_of_sync
    simp only []
    generalize (drbd_bm_set_bits dev.bitmap (dev.peer p).bitmap_index (BM_SECT_TO_BIT sector)
        (BM_SECT_TO_BIT (min (sector + n) dev.capacity - 1))) = B at hcb ⊢
    cases hf : lc_find (dev.peer p).resync_lru
        (u32 (BM_SECT_TO_BIT sector >>> (BM_EXT_SHIFT - BM_BLOCK_SHIFT))) with
    | none =>
      simp only [reduceCtorEq, and_false, if_false]
      rfl
    | some e =>
      simp only [Option.some.injEq]
      by_cases hq : q = p ∧ e = i
      · obtain ⟨rfl, rfl⟩ := hq
        rw [if_pos ⟨rfl, rfl⟩]
        simp only [drbd_device.bm_ext, drbd_device.set_bm_ext, drbd_device.set_peer,
          lc_set_element, Function.update_same]
        have hu : u32 B.1 = B.1 := by unfold u32; omega
        rw [hu]
        have := hrs e
        simp only [drbd_device.bm_ext] at this
        exact int_of_unsigned_of_range _ (by omega) (by omega)
      · rw [if_neg hq]
        by_cases hqp : q = p
        · subst hqp
          have hie : i ≠ e := fun h => hq ⟨rfl, h.symm⟩
          simp [drbd_device.bm_ext, drbd_device.set_bm_ext, drbd_device.set_peer,
            lc_set_element, Function.update_noteq hie]
        · simp [drbd_device.bm_ext, drbd_device.set_bm_ext, drbd_device.set_peer,
            Function.update_noteq hqp]
set_option maxRecDepth 100000 in
theorem set_out_of_sync_sets_bits_witness :
    (0 : Int) < 4096 ∧ (4096 : Int) % 512 = 0 ∧ (4096 : Int) ≤ example_env.DRBD_MAX_BIO_SIZE ∧
    example_env.DRBD_MAX_BIO_SIZE < 2 ^ 31 ∧ 12 < example_device.capacity ∧
    example_device.capacity < 2 ^ 63 ∧ get_ldev example_device = true ∧
    BM_SECT_TO_BIT (example_device.capacity + (BM_SECT_PER_BIT - 1))
      ≤ example_device.bitmap.bm_bits ∧
    (∀ i, -(2 ^ 30) ≤ (example_device.bm_ext 0 i).rs_left ∧
      (example_device.bm_ext 0 i).rs_left < 2 ^ 30) ∧
    ((∀ b : Nat, 8 * b < min (12 + ((4096 : Int) / 512).toNat) example_device.capacity →
        12 < 8 * b + 8 →
      (set_out_of_sync example_env example_device (some 0) 12 4096).2.bitmap.bits
        (example_device.peer 0).bitmap_index b = true) ∧
    (∀ idx b : Nat,
      ¬ (idx = (example_device.peer 0).bitmap_index ∧ BM_SECT_TO_BIT 12 ≤ b ∧
          b ≤ BM_SECT_TO_BIT (min (12 + ((4096 : Int) / 512).toNat) example_device.capacity - 1)) →
      (set_out_of_sync example_env example_device (some 0) 12 4096).2.bitmap.bits idx b
        = example_device.bitmap.bits idx b) ∧
    (∀ q i : Nat,
      ((set_out_of_sync example_env example_device (some 0) 12 4096).2.bm_ext q i).rs_left
        = if q = 0 ∧ lc_find (example_device.peer 0).resync_lru
              (u32 (BM_SECT_TO_BIT 12 >>> (BM_EXT_SHIFT - BM_BLOCK_SHIFT))) = some i
          then (example_device.bm_ext 0 i).rs_left
            + (((List.range example_device.bitmap.bm_bits).filter (fun b =>
                !example_device.bitmap.bits (example_device.peer 0).bitmap_index b &&
                (set_out_of_sync example_env example_device (some 0) 12 4096).2.bitmap.bits
                  (example_device.peer 0).bitmap_index b)).length : Nat)
          else (example_device.bm_ext q i).rs_left)) :=
  ⟨by decide, by decide, by decide, by decide, by decide, by decide, by decide, by decide,
    fun _ => ⟨show (-(2 ^ 30) : Int) ≤ 0 by decide, show (0 : Int) < 2 ^ 30 by decide⟩,
    set_out_of_sync_sets_bits example_env example_device 0 12 4096 (by decide) (by decide)
      (by decide) (by decide) (by decide) (by decide) (by decide) (by decide)
      (fun _ => ⟨show (-(2 ^ 30) : Int) ≤ 0 by decide, show (0 : Int) < 2 ^ 30 by decide⟩)⟩

/-! ## Properties: the bound on held resync extents -/

theorem lc_get_flags_nr_elements (lc : lru_cache) (enr : Nat) (mc mu : Bool) :
    (lc_get_flags lc enr mc mu).2.nr_elements = lc.nr_elements := by
  rcases lc_get_flags_cases lc enr mc mu with ⟨_, h⟩ | ⟨i, _, _, _, _, h⟩ | ⟨i, _, _, _, h⟩ |
    ⟨i, _, _, _, _, h⟩
  · exact h.1
  · exact h.1
  · exact h.1.trans (elements_list_move _ _ _).2
  · exact h.1.trans (elements_list_move _ _ _).2

theorem lc_committed_nr_elements (lc : lru_cache) :
    (lc_committed lc).nr_elements = lc.nr_elements :=
  (lc_committed_fold lc.to_be_changed lc).1

/-- The device after `_bme_get`: the resync LRU of the peer keeps its size, and
`resync_locked` is either unchanged or, when it did not exceed half of the size before,
at most one larger. -/
theorem _bme_get_resync_locked (dev : drbd_device) (p enr : Nat) :
    ((_bme_get dev p enr).2.peer p).resync_lru.nr_elements
        = (dev.peer p).resync_lru.nr_elements ∧
      (((_bme_get dev p enr).2.peer p).resync_locked = (dev.peer p).resync_locked ∨
        ((dev.peer p).resync_locked ≤ (dev.peer p).resync_lru.nr_elements / 2 ∧
          ((_bme_get dev p enr).2.peer p).resync_locked ≤ (dev.peer p).resync_locked + 1)) := by
  unfold _bme_get
  simp only []
  by_cases hg : (dev.peer p).resync_locked > (dev.peer p).resync_lru.nr_elements / 2
  · rw [if_pos hg]
    exact ⟨rfl, Or.inl rfl⟩
  · rw [if_neg hg]
    have hnr := lc_get_flags_nr_elements (dev.peer p).resync_lru enr true false
    cases hr : (lc_get (dev.peer p).resync_lru enr).1 with
    | none =>
      simp only []
      split_ifs
      · exact ⟨by simpa [set_peer_peer] using hnr, Or.inl (by simp [set_peer_peer])⟩
      · exact ⟨by simpa [set_peer_peer] using hnr, Or.inl (by simp [set_peer_peer])⟩
    | some i =>
      simp only []
      have hpeer : ∀ d : drbd_device, (wake_up_al_wait d).peer = d.peer := fun _ => rfl
      have hle : ∀ x : Nat, u32 (x + 1) ≤ x + 1 := fun x => Nat.mod_le _ _
      refine ⟨?_, ?_⟩
      · split_ifs <;>
          simp [hpeer, set_peer_peer, lc_set_element, lc_committed_nr_elements] <;>
          exact hnr
      · right
        refine ⟨not_lt.mp hg, ?_⟩
        split_ifs <;> simp [hpeer, set_peer_peer] <;> exact hle _
set_option maxRecDepth 100000 in
/-- C21, counterexample: on the example device with seven resync elements and three held
extents (`resync_locked = 3 = 7 / 2`), one more `_bme_get` for a further extent succeeds
and leaves `resync_locked = 4`, above `nr_elements / 2`. -/
theorem _bme_get_exceeds_half :
    (example_device_three_held.peer 0).resync_lru.nr_elements = 7 ∧
      (example_device_three_held.peer 0).resync_locked
        ≤ (example_device_three_held.peer 0).resync_lru.nr_elements / 2 ∧
      (_bme_get example_device_three_held 0 3).1 = some 3 ∧
      ((_bme_get example_device_three_held 0 3).2.peer 0).resync_lru.nr_elements = 7 ∧
      ((_bme_get example_device_three_held 0 3).2.peer 0).resync_locked = 4 ∧
      ¬ ((_bme_get example_device_three_held 0 3).2.peer 0).resync_locked
        ≤ ((_bme_get example_device_three_held 0 3).2.peer 0).resync_lru.nr_elements / 2 := by
  decide

/-- C21, amended: `_bme_get` refuses only when `resync_locked` exceeds `nr_elements / 2`,
so the bound it keeps is `nr_elements / 2 + 1`: for every state with
`resync_locked ≤ nr_elements / 2 + 1`, after any call of `_bme_get` (successful or not)
the resync LRU has the same number of elements and `resync_locked` is still at most
`nr_elements / 2 + 1`. -/
theorem _bme_get_bounds_resync_locked (dev : drbd_device) (p enr : Nat)
    (h : (dev.peer p).resync_locked ≤ (dev.peer p).resync_lru.nr_elements / 2 + 1) :
    ((_bme_get dev p enr).2.peer p).resync_lru.nr_elements
        = (dev.peer p).resync_lru.nr_elements ∧
      ((_bme_get dev p enr).2.peer p).resync_locked
        ≤ ((_bme_get dev p enr).2.peer p).resync_lru.nr_elements / 2 + 1 := by
  obtain ⟨hnr, hl⟩ := _bme_get_resync_locked dev p enr
  refine ⟨hnr, ?_⟩
  rw [hnr]
  rcases hl with hl | ⟨h1, h2⟩
  · rw [hl]; exact h
  · omega

set_option maxRecDepth 100000 in
/-- The amended bound of C21 at the example device with three held extents. -/
theorem _bme_get_bounds_resync_locked_witness :
    (example_device_three_held.peer 0).resync_locked
        ≤ (example_device_three_held.peer 0).resync_lru.nr_elements / 2 + 1 ∧
      ((_bme_get example_device_three_held 0 3).2.peer 0).resync_lru.nr_elements
        = (example_device_three_held.peer 0).resync_lru.nr_elements ∧
      ((_bme_get example_device_three_held 0 3).2.peer 0).resync_locked
        ≤ ((_bme_get example_device_three_held 0 3).2.peer 0).resync_lru.nr_elements / 2 + 1 :=
  ⟨by decide, _bme_get_bounds_resync_locked example_device_three_held 0 3 (by decide)⟩

/-! ## Properties: the bitmap writeout after a resync extent is done -/

theorem lc_put_elements (lc : lru_cache) (i j : Nat) :
    ((lc_put lc i).2.elements j).lc_number = (lc.elements j).lc_number ∧
      ((lc_put lc i).2.elements j).rs_left = (lc.elements j).rs_left ∧
      ((lc_put lc i).2.elements j).rs_failed = (lc.elements j).rs_failed := by
  unfold lc_put
  simp only []
  split_ifs
  · exact ⟨rfl, rfl, rfl⟩
  · rw [(elements_list_move _ _ _).1]
    by_cases hj : j = i
    · subst hj; simp [lc_set_element]
    · simp [lc_set_element, Function.update_noteq hj]
  · by_cases hj : j = i
    · subst hj; simp [lc_set_element]
    · simp [lc_set_element, Function.update_noteq hj]

theorem lc_committed_elements (lc : lru_cache) (j : Nat) :
    ((lc_committed lc).elements j).rs_left = (lc.elements j).rs_left ∧
      ((lc_committed lc).elements j).rs_failed = (lc.elements j).rs_failed ∧
      (j ∈ lc.to_be_changed →
        ((lc_committed lc).elements j).lc_number = (lc.elements j).lc_new_number) := by
  obtain ⟨_, f2, f3, _⟩ := lc_committed_fold lc.to_be_changed lc
  unfold lc_committed
  simp only []
  refine ⟨?_, ?_, f3 j⟩
  · rcases f2 j with h | h <;> rw [h]
  · rcases f2 j with h | h <;> rw [h]

/-- The element that `lc_get` supplied carries the number `enr` of the extent after the
update. -/
theorem drbd_try_clear_on_disk_bm_update_number (dev : drbd_device) (p enr : Nat)
    (count : Int) (success : Bool) (k : Nat)
    (hr : (lc_get (dev.peer p).resync_lru enr).1 = some k) :
    ((drbd_try_clear_on_disk_bm_update dev p enr count success k).elements k).lc_number
      = enr := by
  unfold drbd_try_clear_on_disk_bm_update
  simp only []
  rw [(lc_put_elements _ _ _).1]
  by_cases hn : ((lc_get (dev.peer p).resync_lru enr).2.elements k).lc_number = enr
  · rw [if_pos hn]
    split_ifs <;> simp [lc_set_element, hn]
  · rw [if_neg hn]
    -- only a changed element can carry another number: it is on to_be_changed
    have hmem : k ∈ (lc_get (dev.peer p).resync_lru enr).2.to_be_changed ∧
        ((lc_get (dev.peer p).resync_lru enr).2.elements k).lc_new_number = enr := by
      rcases lc_get_flags_cases (dev.peer p).resync_lru enr true false with
        ⟨h1, _⟩ | ⟨_, _, _, _, hmu, _⟩ | ⟨i, h1, hf, heq, hc⟩ | ⟨i, h1, _, _, _, hc⟩
      · exact absurd (h1.symm.trans hr) (by simp)
      · exact absurd hmu (by simp)
      · have hik : i = k := Option.some.inj (h1.symm.trans hr)
        subst hik
        exfalso
        apply hn
        show ((lc_get_flags (dev.peer p).resync_lru enr true false).2.elements i).lc_number = enr
        rw [hc.2.1, (elements_list_move _ _ _).1]
        simp only [lc_set_element, Function.update_same]
        rw [← heq]
        exact (lc_find_raw_some hf).2.2.1
      · have hik : i = k := Option.some.inj (h1.symm.trans hr)
        subst hik
        constructor
        · show i ∈ (lc_get_flags (dev.peer p).resync_lru enr true false).2.to_be_changed
          rw [hc.2.2.2.2, mem_tbc_list_move]
          exact Or.inr ⟨rfl, rfl⟩
        · show ((lc_get_flags (dev.peer p).resync_lru enr true false).2.elements i).lc_new_number
            = enr
          rw [hc.2.1, (elements_list_move _ _ _).1]
          simp [lc_set_element]
    rw [(lc_committed_elements _ _).2.2 (by simpa [lc_set_element] using hmem.1)]
    split_ifs <;> simp [lc_set_element, hmem.2]
theorem lc_get_flags_elements (lc : lru_cache) (enr : Nat) (mc mu : Bool) (j : Nat) :
    ((lc_get_flags lc enr mc mu).2.elements j).lc_number = (lc.elements j).lc_number ∧
      ((lc_get_flags lc enr mc mu).2.elements j).rs_left = (lc.elements j).rs_left ∧
      ((lc_get_flags lc enr mc mu).2.elements j).rs_failed = (lc.elements j).rs_failed := by
  rcases lc_get_flags_cases lc enr mc mu with ⟨_, hc⟩ | ⟨i, _, _, _, _, hc⟩ | ⟨i, _, _, _, hc⟩ |
      ⟨i, _, _, _, _, hc⟩
  · rw [hc.2.1]; exact ⟨rfl, rfl, rfl⟩
  · rw [hc.2.1]
    simp only [lc_set_element, Function.update_apply]
    split_ifs with h
    · subst h; exact ⟨rfl, rfl, rfl⟩
    · exact ⟨rfl, rfl, rfl⟩
  · rw [hc.2.1, (elements_list_move _ _ _).1]
    simp only [lc_set_element, Function.update_apply]
    split_ifs with h
    · subst h; exact ⟨rfl, rfl, rfl⟩
    · exact ⟨rfl, rfl, rfl⟩
  · rw [hc.2.1, (elements_list_move _ _ _).1]
    simp only [lc_set_element, Function.update_apply]
    split_ifs with h
    · subst h; exact ⟨rfl, rfl, rfl⟩
    · exact ⟨rfl, rfl, rfl⟩

/-- What `drbd_try_clear_on_disk_bm` does after `lc_put`, in terms of the update. -/
theorem drbd_try_clear_on_disk_bm_eq (env : drbd_env) (dev : drbd_device) (p enr : Nat)
    (count : Int) (success : Bool) (i : Nat)
    (hr : (lc_get (dev.peer p).resync_lru enr).1 = some i) :
    drbd_try_clear_on_disk_bm env dev p enr count success =
      if ((drbd_try_clear_on_disk_bm_update dev p enr count success i).elements i).rs_left
          = ((drbd_try_clear_on_disk_bm_update dev p enr count success i).elements i).rs_failed
      then
        if env.kmalloc_ok then
          { dev.set_peer p { dev.peer p with
              resync_lru := lc_set_element
                (drbd_try_clear_on_disk_bm_update dev p enr count success i) i
                { (drbd_try_clear_on_disk_bm_update dev p enr count success i).elements i with
                  rs_failed := 0 } } with
            work := dev.work ++ [{ peer_device := p, enr :=
              ((drbd_try_clear_on_disk_bm_update dev p enr count success i).elements i).lc_number }] }
        else dev.set_peer p { dev.peer p with
              resync_lru := lc_set_element
                (drbd_try_clear_on_disk_bm_update dev p enr count success i) i
                { (drbd_try_clear_on_disk_bm_update dev p enr count success i).elements i with
                  rs_failed := 0 } }
      else dev.set_peer p { dev.peer p with
        resync_lru := drbd_try_clear_on_disk_bm_update dev p enr count success i } := by
  unfold drbd_try_clear_on_disk_bm
  simp only []
  rw [hr]
  rfl

/-- The values of `rs_left` and `rs_failed` after the update in
`drbd_try_clear_on_disk_bm`, from the element that `lc_get` supplied. -/
theorem drbd_try_clear_on_disk_bm_update_values (dev : drbd_device) (p enr : Nat)
    (count : Int) (success : Bool) (i : Nat) :
    (((dev.peer p).resync_lru.elements i).lc_number = enr →
        ((drbd_try_clear_on_disk_bm_update dev p enr count success i).elements i).rs_failed
            = (if success then ((dev.peer p).resync_lru.elements i).rs_failed
               else ((dev.peer p).resync_lru.elements i).rs_failed + count) ∧
          ((drbd_try_clear_on_disk_bm_update dev p enr count success i).elements i).rs_left
            = (if (if success then ((dev.peer p).resync_lru.elements i).rs_left - count
                   else ((dev.peer p).resync_lru.elements i).rs_left)
                  < ((drbd_try_clear_on_disk_bm_update dev p enr count success i).elements
                      i).rs_failed
               then bm_e_weight dev p enr
               else (if success then ((dev.peer p).resync_lru.elements i).rs_left - count
                     else ((dev.peer p).resync_lru.elements i).rs_left))) ∧
      (((dev.peer p).resync_lru.elements i).lc_number ≠ enr →
        ((drbd_try_clear_on_disk_bm_update dev p enr count success i).elements i).rs_left
            = bm_e_weight dev p enr ∧
          ((drbd_try_clear_on_disk_bm_update dev p enr count success i).elements i).rs_failed
            = (if success then 0 else count)) := by
  obtain ⟨e1, e2, e3⟩ := lc_get_flags_elements (dev.peer p).resync_lru enr true false i
  change ((lc_get (dev.peer p).resync_lru enr).2.elements i).lc_number = _ at e1
  change ((lc_get (dev.peer p).resync_lru enr).2.elements i).rs_left = _ at e2
  change ((lc_get (dev.peer p).resync_lru enr).2.elements i).rs_failed = _ at e3
  unfold drbd_try_clear_on_disk_bm_update
  simp only []
  refine ⟨?_, ?_⟩
  · intro hn
    rw [if_pos (e1.trans hn), (lc_put_elements _ _ _).2.1, (lc_put_elements _ _ _).2.2]
    cases success <;> simp [lc_set_element, e2, e3] <;> split_ifs <;> simp [e2, e3]
  · intro hn
    rw [if_neg (fun h => hn (e1.symm.trans h)), (lc_put_elements _ _ _).2.1,
      (lc_put_elements _ _ _).2.2, (lc_committed_elements _ _).1, (lc_committed_elements _ _).2.1]
    simp [lc_set_element]
theorem lc_find_raw_congr (a b : lru_cache) (hn : a.nr_elements = b.nr_elements)
    (he : ∀ j, (a.elements j).hashed = (b.elements j).hashed ∧
      (a.elements j).lc_new_number = (b.elements j).lc_new_number ∧
      (a.elements j).lc_number = (b.elements j).lc_number) (enr : Nat) (ic : Bool) :
    lc_find_raw a enr ic = lc_find_raw b enr ic := by
  unfold lc_find_raw
  have hf : (fun i => (a.elements i).hashed && (a.elements i).lc_new_number == enr)
      = (fun i => (b.elements i).hashed && (b.elements i).lc_new_number == enr) := by
    funext i
    rw [(he i).1, (he i).2.1]
  rw [hn, hf]
  split
  · rfl
  · rename_i k _
    rw [(he k).2.1, (he k).2.2]

theorem lc_find_raw_changing {lc : lru_cache} {enr e : Nat}
    (h : lc_find_raw lc enr false = some e) : lc_find_raw lc enr true = some e := by
  unfold lc_find_raw at h ⊢
  cases hk : (List.range lc.nr_elements).find?
      (fun i => (lc.elements i).hashed && (lc.elements i).lc_new_number == enr) with
  | none => rw [hk] at h; simp at h
  | some k =>
    rw [hk] at h
    simp only [] at h ⊢
    rw [if_pos (Or.inr trivial)]
    split_ifs at h
    all_goals exact h

theorem lc_find_raw_eq_none_of_numbers (lc : lru_cache) (enr : Nat) (ic : Bool)
    (h : ∀ j, (lc.elements j).lc_new_number ≠ enr) : lc_find_raw lc enr ic = none := by
  unfold lc_find_raw
  have hf : (List.range lc.nr_elements).find?
      (fun i => (lc.elements i).hashed && (lc.elements i).lc_new_number == enr) = none := by
    rw [List.find?_eq_none]
    intro k _
    simp [h k]
  rw [hf]

theorem drbd_advance_rs_marks_keeps (env : drbd_env) (dev : drbd_device) (p n : Nat) :
    (drbd_advance_rs_marks env dev p n).work = dev.work ∧
      ((drbd_advance_rs_marks env dev p n).peer p).resync_lru = (dev.peer p).resync_lru ∧
      ((drbd_advance_rs_marks env dev p n).peer p).bitmap_index = (dev.peer p).bitmap_index ∧
      (drbd_advance_rs_marks env dev p n).bitmap = dev.bitmap := by
  unfold drbd_advance_rs_marks
  simp only []
  split_ifs
  · exact ⟨rfl, by rw [set_peer_peer], by rw [set_peer_peer], rfl⟩
  · exact ⟨rfl, rfl, rfl, rfl⟩
  · exact ⟨rfl, rfl, rfl, rfl⟩

/-- The bit range of one bitmap extent holds at most 4096 bits. -/
theorem bm_e_weight_range (bm : drbd_bitmap) (enr : Nat) :
    (bm_range bm (u64 (enr <<< (BM_EXT_SHIFT - BM_BLOCK_SHIFT)))
      (u64_sub (u64 ((enr + 1) <<< (BM_EXT_SHIFT - BM_BLOCK_SHIFT))) 1)).length ≤ 4096 := by
  unfold bm_range
  rw [List.length_range']
  simp only [BM_EXT_SHIFT, BM_BLOCK_SHIFT, Nat.shiftLeft_eq, u64, u64_sub]
  norm_num
  omega

theorem bm_e_weight_eq_zero (dev : drbd_device) (p enr : Nat) :
    bm_e_weight dev p enr = 0 ↔
      ∀ k ∈ bm_range dev.bitmap (u64 (enr <<< (BM_EXT_SHIFT - BM_BLOCK_SHIFT)))
          (u64_sub (u64 ((enr + 1) <<< (BM_EXT_SHIFT - BM_BLOCK_SHIFT))) 1),
        dev.bitmap.bits (dev.peer p).bitmap_index k = false := by
  have hlen := bm_e_weight_range dev.bitmap enr
  unfold bm_e_weight drbd_bm_count_bits
  simp only []
  have hle := List.length_filter_le (fun k => dev.bitmap.bits (dev.peer p).bitmap_index k)
    (bm_range dev.bitmap (u64 (enr <<< (BM_EXT_SHIFT - BM_BLOCK_SHIFT)))
      (u64_sub (u64 ((enr + 1) <<< (BM_EXT_SHIFT - BM_BLOCK_SHIFT))) 1))
  constructor
  · intro h
    have h0 : (List.filter (fun k => dev.bitmap.bits (dev.peer p).bitmap_index k)
        (bm_range dev.bitmap (u64 (enr <<< (BM_EXT_SHIFT - BM_BLOCK_SHIFT)))
          (u64_sub (u64 ((enr + 1) <<< (BM_EXT_SHIFT - BM_BLOCK_SHIFT))) 1))).length = 0 := by
      unfold int_of_u32 at h
      split_ifs at h <;> omega
    rw [List.length_eq_zero, List.filter_eq_nil_iff] at h0
    intro k hk
    simpa using h0 k hk
  · intro h
    have h0 : List.filter (fun k => dev.bitmap.bits (dev.peer p).bitmap_index k)
        (bm_range dev.bitmap (u64 (enr <<< (BM_EXT_SHIFT - BM_BLOCK_SHIFT)))
          (u64_sub (u64 ((enr + 1) <<< (BM_EXT_SHIFT - BM_BLOCK_SHIFT))) 1)) = [] := by
      rw [List.filter_eq_nil_iff]
      intro k hk
      simp [h k hk]
    rw [h0]
    rfl
theorem bm_set_clear_bits (bm : drbd_bitmap) (idx s e : Nat) :
    (drbd_bm_clear_bits (drbd_bm_set_bits bm idx s e).2 idx s e).2.bm_bits = bm.bm_bits ∧
      (∀ j k, bm.bits j k = false →
        (drbd_bm_clear_bits (drbd_bm_set_bits bm idx s e).2 idx s e).2.bits j k = false) ∧
      (drbd_bm_clear_bits (drbd_bm_set_bits bm idx s e).2 idx s e).1
        = (bm_range bm s e).length := by
  refine ⟨rfl, ?_, ?_⟩
  · intro j k h
    simp only [drbd_bm_clear_bits, drbd_bm_set_bits]
    split_ifs <;> first | rfl | exact h
  · simp only [drbd_bm_clear_bits, drbd_bm_count_bits]
    have hr : bm_range (drbd_bm_set_bits bm idx s e).2 s e = bm_range bm s e := rfl
    rw [hr]
    congr 1
    rw [List.filter_eq_self]
    intro k hk
    rw [mem_bm_range] at hk
    simp [drbd_bm_set_bits, hk.1.1, hk.1.2, hk.2]

theorem bm_e_weight_zero_of (dev dev' : drbd_device) (p enr : Nat)
    (hb : dev'.bitmap.bm_bits = dev.bitmap.bm_bits)
    (hi : (dev'.peer p).bitmap_index = (dev.peer p).bitmap_index)
    (hbits : ∀ k, dev.bitmap.bits (dev.peer p).bitmap_index k = false →
      dev'.bitmap.bits (dev.peer p).bitmap_index k = false)
    (h : bm_e_weight dev p enr = 0) : bm_e_weight dev' p enr = 0 := by
  rw [bm_e_weight_eq_zero] at h ⊢
  intro k hk
  rw [hi]
  apply hbits
  apply h
  rw [mem_bm_range] at hk ⊢
  rw [← hb]
  exact hk

/-- The state after `__set_out_of_sync`: only the bitmap has changed, and `rs_left` of the
element that the resync LRU holds for the extent. -/
theorem __set_out_of_sync_state (dev : drbd_device) (p sbnr ebnr : Nat) :
    (__set_out_of_sync dev p sbnr ebnr).2.work = dev.work ∧
      (__set_out_of_sync dev p sbnr ebnr).2.bitmap
        = (drbd_bm_set_bits dev.bitmap (dev.peer p).bitmap_index sbnr ebnr).2 ∧
      ((__set_out_of_sync dev p sbnr ebnr).2.peer p).bitmap_index = (dev.peer p).bitmap_index ∧
      ((__set_out_of_sync dev p sbnr ebnr).2.peer p).resync_lru
        = match lc_find (dev.peer p).resync_lru
            (u32 (sbnr >>> (BM_EXT_SHIFT - BM_BLOCK_SHIFT))) with
          | some e => lc_set_element (dev.peer p).resync_lru e
              { (dev.peer p).resync_lru.elements e with
                rs_left := int_of_unsigned (((dev.peer p).resync_lru.elements e).rs_left
                  + u32 (drbd_bm_set_bits dev.bitmap (dev.peer p).bitmap_index sbnr ebnr).1) }
          | none => (dev.peer p).resync_lru := by
  unfold __set_out_of_sync
  simp only []
  cases hf : lc_find (dev.peer p).resync_lru (u32 (sbnr >>> (BM_EXT_SHIFT - BM_BLOCK_SHIFT))) with
  | none => exact ⟨rfl, rfl, rfl, rfl⟩
  | some e =>
    simp only [drbd_device.set_bm_ext, drbd_device.bm_ext]
    refine ⟨rfl, rfl, ?_, ?_⟩
    · rw [set_peer_peer]
    · rw [set_peer_peer]
/-- What `after_clear_bits` queues when the resync LRU supplies element `i` whose `rs_left`
and `rs_failed` are equal after the update. -/
theorem after_clear_bits_work (env : drbd_env) (dev : drbd_device) (p sbnr count i : Nat)
    (hk : env.kmalloc_ok = true)
    (hget : (lc_get (dev.peer p).resync_lru
      (u32 (sbnr >>> (BM_EXT_SHIFT - BM_BLOCK_SHIFT)))).1 = some i)
    (heq : ((drbd_try_clear_on_disk_bm_update
          (drbd_advance_rs_marks env dev p (bm_total_weight dev.bitmap (dev.peer p).bitmap_index))
          p (u32 (sbnr >>> (BM_EXT_SHIFT - BM_BLOCK_SHIFT))) (int_of_u32 count) true i).elements
            i).rs_left
      = ((drbd_try_clear_on_disk_bm_update
          (drbd_advance_rs_marks env dev p (bm_total_weight dev.bitmap (dev.peer p).bitmap_index))
          p (u32 (sbnr >>> (BM_EXT_SHIFT - BM_BLOCK_SHIFT))) (int_of_u32 count) true i).elements
            i).rs_failed) :
    (after_clear_bits env dev p sbnr count).work
      = dev.work ++ [{ peer_device := p,
                       enr := u32 (sbnr >>> (BM_EXT_SHIFT - BM_BLOCK_SHIFT)) }] := by
  have hget2 : (lc_get ((drbd_advance_rs_marks env dev p
      (bm_total_weight dev.bitmap (dev.peer p).bitmap_index)).peer p).resync_lru
      (u32 (sbnr >>> (BM_EXT_SHIFT - BM_BLOCK_SHIFT)))).1 = some i := by
    rw [(drbd_advance_rs_marks_keeps env dev p _).2.1]; exact hget
  unfold after_clear_bits
  simp only []
  rw [drbd_try_clear_on_disk_bm_eq env _ p _ _ true i hget2, if_pos heq, if_pos hk,
    drbd_try_clear_on_disk_bm_update_number _ p _ _ true i hget2]
  show (drbd_advance_rs_marks env dev p _).work ++ _ = _
  rw [(drbd_advance_rs_marks_keeps env dev p _).1]

/-- Setting the bits `sbnr .. ebnr` of one bitmap extent out of sync and then in sync again
queues one work item for the extent, when no bit of the extent was set before and the
resync LRU either does not hold the extent or holds it with `rs_left = rs_failed = 0`. -/
theorem __set_in_sync_after_out_of_sync (env : drbd_env) (dev : drbd_device)
    (p sbnr ebnr enr i : Nat)
    (henr : enr = u32 (sbnr >>> (BM_EXT_SHIFT - BM_BLOCK_SHIFT)))
    (hle : sbnr ≤ ebnr) (hbits : ebnr < dev.bitmap.bm_bits)
    (hext : ebnr >>> (BM_EXT_SHIFT - BM_BLOCK_SHIFT) = sbnr >>> (BM_EXT_SHIFT - BM_BLOCK_SHIFT))
    (hclean : bm_e_weight dev p enr = 0)
    (hlru : (∀ j, ((dev.peer p).resync_lru.elements j).lc_number ≠ enr ∧
          ((dev.peer p).resync_lru.elements j).lc_new_number ≠ enr) ∨
        (∃ e, lc_find (dev.peer p).resync_lru enr = some e ∧
          (dev.bm_ext p e).rs_left = 0 ∧ (dev.bm_ext p e).rs_failed = 0))
    (hget : (lc_get ((__set_out_of_sync dev p sbnr ebnr).2.peer p).resync_lru enr).1 = some i)
    (hk : env.kmalloc_ok = true) :
    (__set_out_of_sync dev p sbnr ebnr).2.work = dev.work ∧
      (__set_in_sync env (__set_out_of_sync dev p sbnr ebnr).2 p sbnr ebnr).1 = true ∧
      (__set_in_sync env (__set_out_of_sync dev p sbnr ebnr).2 p sbnr ebnr).2.work
        = dev.work ++ [{ peer_device := p, enr := enr }] := by
  subst henr
  obtain ⟨s1, s2, s3, s4⟩ := __set_out_of_sync_state dev p sbnr ebnr
  obtain ⟨c1, c2, c3⟩ := bm_set_clear_bits dev.bitmap (dev.peer p).bitmap_index sbnr ebnr
  obtain ⟨_, hcle⟩ := drbd_bm_set_bits_count dev.bitmap (dev.peer p).bitmap_index sbnr ebnr
  have hlen : (bm_range dev.bitmap sbnr ebnr).length = ebnr + 1 - sbnr := by
    unfold bm_range
    rw [List.length_range']
    omega
  have h4096 : ebnr + 1 - sbnr ≤ 4096 := by
    simp only [BM_EXT_SHIFT, BM_BLOCK_SHIFT, Nat.shiftRight_eq_div_pow] at hext
    omega
  generalize hd1 : (__set_out_of_sync dev p sbnr ebnr).2 = d1 at s1 s2 s3 s4 hget ⊢
  refine ⟨s1, ?_⟩
  -- the bits are cleared again: as many as the range holds
  have hn : (drbd_bm_clear_bits d1.bitmap (d1.peer p).bitmap_index sbnr ebnr).1
      = ebnr + 1 - sbnr := by rw [s2, s3, c3, hlen]
  have hbm : (drbd_bm_clear_bits d1.bitmap (d1.peer p).bitmap_index sbnr ebnr).2
      = (drbd_bm_clear_bits (drbd_bm_set_bits dev.bitmap (dev.peer p).bitmap_index sbnr ebnr).2
          (dev.peer p).bitmap_index sbnr ebnr).2 := by rw [s2, s3]
  unfold __set_in_sync
  simp only []
  rw [if_pos (by rw [hn]; omega)]
  refine ⟨rfl, ?_⟩
  simp only []
  rw [hn, hbm]
  generalize hdc : ({ d1 with bitmap := (drbd_bm_clear_bits
      (drbd_bm_set_bits dev.bitmap (dev.peer p).bitmap_index sbnr ebnr).2
      (dev.peer p).bitmap_index sbnr ebnr).2 } : drbd_device) = dc
  have dc1 : dc.work = dev.work := by rw [← hdc]; exact s1
  have dc2 : (dc.peer p).resync_lru = (d1.peer p).resync_lru := by rw [← hdc]
  have dc3 : (dc.peer p).bitmap_index = (dev.peer p).bitmap_index := by rw [← hdc]; exact s3
  have dc4 : dc.bitmap = (drbd_bm_clear_bits
      (drbd_bm_set_bits dev.bitmap (dev.peer p).bitmap_index sbnr ebnr).2
      (dev.peer p).bitmap_index sbnr ebnr).2 := by rw [← hdc]
  obtain ⟨a1, a2, a3, a4⟩ := drbd_advance_rs_marks_keeps env dc p
    (bm_total_weight dc.bitmap (dc.peer p).bitmap_index)
  generalize hda : drbd_advance_rs_marks env dc p
    (bm_total_weight dc.bitmap (dc.peer p).bitmap_index) = da at a1 a2 a3 a4
  -- the extent has no set bit after the two calls
  have hw : bm_e_weight da p (u32 (sbnr >>> (BM_EXT_SHIFT - BM_BLOCK_SHIFT))) = 0 := by
    refine bm_e_weight_zero_of dev da p _ ?_ (a3.trans dc3) ?_ hclean
    · rw [a4, dc4]; exact c1
    · intro k hk
      rw [a4, dc4]
      exact c2 _ k hk
  have hget2 : (lc_get (da.peer p).resync_lru
      (u32 (sbnr >>> (BM_EXT_SHIFT - BM_BLOCK_SHIFT)))).1 = some i := by
    rw [a2, dc2]; exact hget
  obtain ⟨hhit, hmiss⟩ := drbd_try_clear_on_disk_bm_update_values da p
    (u32 (sbnr >>> (BM_EXT_SHIFT - BM_BLOCK_SHIFT))) (int_of_u32 (ebnr + 1 - sbnr)) true i
  generalize hl2 : drbd_try_clear_on_disk_bm_update da p
    (u32 (sbnr >>> (BM_EXT_SHIFT - BM_BLOCK_SHIFT))) (int_of_u32 (ebnr + 1 - sbnr)) true i
      = lru2 at hhit hmiss
  have heq : (lru2.elements i).rs_left = (lru2.elements i).rs_failed := by
    rcases hlru with hA | ⟨e, hf, hr, hfl⟩
    · -- the extent is new to the resync LRU
      have hnone : lc_find (dev.peer p).resync_lru
          (u32 (sbnr >>> (BM_EXT_SHIFT - BM_BLOCK_SHIFT))) = none :=
        lc_find_raw_eq_none_of_numbers _ _ _ (fun j => (hA j).2)
      rw [hnone] at s4
      have hne : ((da.peer p).resync_lru.elements i).lc_number
          ≠ u32 (sbnr >>> (BM_EXT_SHIFT - BM_BLOCK_SHIFT)) := by
        rw [a2, dc2, s4]; exact (hA i).1
      obtain ⟨m1, m2⟩ := hmiss hne
      rw [m1, m2, hw]
      rfl
    · -- the resync LRU holds the extent
      rw [hf] at s4
      simp only [] at s4
      simp only [drbd_device.bm_ext] at hr hfl
      obtain ⟨_, fh, fn, fc⟩ := lc_find_raw_some hf
      have fc' : ((dev.peer p).resync_lru.elements e).lc_new_number
          = ((dev.peer p).resync_lru.elements e).lc_number := by
        rcases fc with h | h
        · exact h
        · exact absurd h (by simp)
      have hfind : lc_find_raw (d1.peer p).resync_lru
          (u32 (sbnr >>> (BM_EXT_SHIFT - BM_BLOCK_SHIFT))) true = some e := by
        rw [s4]
        refine (lc_find_raw_congr _ _ ?_ ?_ _ _).trans (lc_find_raw_changing hf)
        · rfl
        · intro j
          simp only [lc_set_element, Function.update_apply]
          split_ifs with hj
          · subst hj; exact ⟨rfl, rfl, rfl⟩
          · exact ⟨rfl, rfl, rfl⟩
      have hie : i = e := by
        rcases lc_get_flags_cases (d1.peer p).resync_lru
            (u32 (sbnr >>> (BM_EXT_SHIFT - BM_BLOCK_SHIFT))) true false with
          ⟨h1, _⟩ | ⟨_, _, _, _, hmu, _⟩ | ⟨k, h1, hfk, _, _⟩ | ⟨k, _, hfk, _, _, _⟩
        · exact absurd (h1.symm.trans hget) (by simp)
        · exact absurd hmu (by simp)
        · have hk1 : k = i := Option.some.inj (h1.symm.trans hget)
          have hk2 : k = e := Option.some.inj (hfk.symm.trans hfind)
          exact hk1.symm.trans hk2
        · rw [hfind] at hfk
          exact absurd hfk (by simp)
      subst hie
      have hnum : ((da.peer p).resync_lru.elements i).lc_number
          = u32 (sbnr >>> (BM_EXT_SHIFT - BM_BLOCK_SHIFT)) := by
        rw [a2, dc2, s4]
        simp only [lc_set_element, Function.update_same]
        rw [← fc']; exact fn
      obtain ⟨m1, m2⟩ := hhit hnum
      have hfail : ((da.peer p).resync_lru.elements i).rs_failed = 0 := by
        rw [a2, dc2, s4]
        simp only [lc_set_element, Function.update_same]
        exact hfl
      have hleft : ((da.peer p).resync_lru.elements i).rs_left
          = ((u32 (drbd_bm_set_bits dev.bitmap (dev.peer p).bitmap_index sbnr ebnr).1 : Nat)
              : Int) := by
        rw [a2, dc2, s4]
        simp only [lc_set_element, Function.update_same]
        rw [hr, zero_add]
        apply int_of_unsigned_of_range
        · omega
        · have : u32 (drbd_bm_set_bits dev.bitmap (dev.peer p).bitmap_index sbnr ebnr).1
              ≤ 4096 := le_trans (Nat.mod_le _ _) (le_trans hcle h4096)
          omega
      simp only [if_true] at m1 m2
      rw [hfail] at m1
      rw [m1] at m2
      rw [m1, m2, hleft, hw]
      have hu : u32 (drbd_bm_set_bits dev.bitmap (dev.peer p).bitmap_index sbnr ebnr).1
          ≤ ebnr + 1 - sbnr := le_trans (Nat.mod_le _ _) hcle
      have hi32 : int_of_u32 (ebnr + 1 - sbnr) = ((ebnr + 1 - sbnr : Nat) : Int) := by
        unfold int_of_u32
        split_ifs <;> omega
      rw [hi32]
      split_ifs <;> omega
  have := after_clear_bits_work env dc p sbnr (ebnr + 1 - sbnr) i hk
    (by rw [dc2]; exact hget) (by rw [hda, hl2]; exact heq)
  rw [this, dc1]
theorem __set_out_of_sync_keeps (dev : drbd_device) (p sbnr ebnr : Nat) :
    (__set_out_of_sync dev p sbnr ebnr).2.capacity = dev.capacity ∧
      (__set_out_of_sync dev p sbnr ebnr).2.disk_state = dev.disk_state := by
  unfold __set_out_of_sync
  simp only []
  split <;> exact ⟨rfl, rfl⟩

theorem set_in_sync_range_le {nr_sectors sector : Nat} {size : Int} {sbnr ebnr : Nat}
    (h : set_in_sync_range nr_sectors sector size = some (sbnr, ebnr)) : sbnr ≤ ebnr := by
  unfold set_in_sync_range at h
  simp only [] at h
  split_ifs at h with h1 h2 h3 h4 h5
  all_goals
    simp only [Option.some.injEq, Prod.mk.injEq] at h
    obtain ⟨rfl, rfl⟩ := h
    omega

/-- The sequence `set_out_of_sync`, `set_in_sync` for one peer device and a request whose
bits lie in one bitmap extent that was in sync before. -/
theorem set_in_sync_after_set_out_of_sync (env : drbd_env) (dev : drbd_device)
    (p sector : Nat) (size : Int) (sbnr ebnr enr i : Nat)
    (hsize : 0 < size ∧ size % 512 = 0 ∧ size ≤ env.DRBD_MAX_BIO_SIZE)
    (hldev : get_ldev dev = true)
    (hout : set_out_of_sync_range dev.capacity sector size = some (sbnr, ebnr))
    (hin : set_in_sync_range dev.capacity sector size = some (sbnr, ebnr))
    (henr : enr = u32 (sbnr >>> (BM_EXT_SHIFT - BM_BLOCK_SHIFT)))
    (hbits : ebnr < dev.bitmap.bm_bits)
    (hext : ebnr >>> (BM_EXT_SHIFT - BM_BLOCK_SHIFT) = sbnr >>> (BM_EXT_SHIFT - BM_BLOCK_SHIFT))
    (hclean : bm_e_weight dev p enr = 0)
    (hlru : (∀ j, ((dev.peer p).resync_lru.elements j).lc_number ≠ enr ∧
          ((dev.peer p).resync_lru.elements j).lc_new_number ≠ enr) ∨
        (∃ e, lc_find (dev.peer p).resync_lru enr = some e ∧
          (dev.bm_ext p e).rs_left = 0 ∧ (dev.bm_ext p e).rs_failed = 0))
    (hget : (lc_get ((set_out_of_sync env dev (some p) sector size).2.peer p).resync_lru
      enr).1 = some i)
    (hk : env.kmalloc_ok = true) :
    (set_out_of_sync env dev (some p) sector size).2.work = dev.work ∧
      (set_in_sync env (set_out_of_sync env dev (some p) sector size).2 (some p) sector
          size).work
        = dev.work ++ [{ peer_device := p, enr := enr }] := by
  have hset : set_out_of_sync env dev (some p) sector size
      = __set_out_of_sync dev p sbnr ebnr := by
    unfold set_out_of_sync
    rw [if_neg (by omega), if_neg (by omega), if_neg (by simp [hldev]), hout]
  rw [hset] at hget ⊢
  obtain ⟨k1, k2⟩ := __set_out_of_sync_keeps dev p sbnr ebnr
  obtain ⟨w1, w2, w3⟩ := __set_in_sync_after_out_of_sync env dev p sbnr ebnr enr i henr
    (set_in_sync_range_le hin) hbits hext hclean hlru hget hk
  refine ⟨w1, ?_⟩
  have hld : get_ldev (__set_out_of_sync dev p sbnr ebnr).2 = true := by
    unfold get_ldev at hldev ⊢
    rw [k2]; exact hldev
  unfold set_in_sync
  rw [if_neg (by omega), if_neg (by simp [hld]), k1, hin]
  simp only []
  rw [w2, if_pos rfl]
  exact w3

set_option maxRecDepth 100000 in
/-- C22, counterexample: on the example device with one other bit of bitmap extent 7 out
of sync, setting 8 bits of extent 7 out of sync (bits 28672 to 28679) and then setting the
same range in sync queues no work item, although the resync LRU supplies an element and
the allocation succeeds: `rs_left` is 1 after the update, `rs_failed` is 0. -/
theorem set_in_sync_queues_nothing :
    set_out_of_sync_range example_device_one_bit.capacity 229376 32768 = some (28672, 28679) ∧
      set_in_sync_range example_device_one_bit.capacity 229376 32768 = some (28672, 28679) ∧
      drbd_bm_count_bits example_device_one_bit.bitmap 0 28672 28679 = 0 ∧
      drbd_bm_count_bits
        (drbd_set_out_of_sync example_env example_device_one_bit 0 229376 32768).2.bitmap
        0 28672 28679 = 8 ∧
      (lc_get ((drbd_set_out_of_sync example_env example_device_one_bit 0 229376
        32768).2.peer 0).resync_lru 7).1 = some 6 ∧
      example_env.kmalloc_ok = true ∧
      (drbd_set_out_of_sync example_env example_device_one_bit 0 229376 32768).2.work = [] ∧
      drbd_bm_count_bits
        (drbd_set_in_sync example_env
          (drbd_set_out_of_sync example_env example_device_one_bit 0 229376 32768).2
          0 229376 32768).bitmap 0 28672 28679 = 0 ∧
      (drbd_set_in_sync example_env
        (drbd_set_out_of_sync example_env example_device_one_bit 0 229376 32768).2
        0 229376 32768).work = [] ∧
      ((drbd_set_in_sync example_env
        (drbd_set_out_of_sync example_env example_device_one_bit 0 229376 32768).2
        0 229376 32768).bm_ext 0 6).rs_left = 1 ∧
      ((drbd_set_in_sync example_env
        (drbd_set_out_of_sync example_env example_device_one_bit 0 229376 32768).2
        0 229376 32768).bm_ext 0 6).rs_failed = 0 := by
  decide
/-- C22, amended: for every call of `drbd_try_clear_on_disk_bm` in which the resync LRU
supplies an element `i` and the allocation of the work item succeeds: if `rs_left` equals
`rs_failed` after the update, exactly one work item for the extent `enr` is appended to
the work queue and `rs_failed` is reset to 0; if they differ, the work queue is unchanged
and `rs_left` and `rs_failed` are kept. In particular, a `set_out_of_sync` followed by a
`set_in_sync` for the same request, whose bits `sbnr .. ebnr` lie in one bitmap extent
`enr`, queues exactly one work item for that extent when no bit of the extent was out of
sync before and the resync LRU either does not hold the extent or holds it with
`rs_left = rs_failed = 0`. -/
theorem drbd_try_clear_on_disk_bm_queues_work (env : drbd_env) (dev : drbd_device)
    (p enr : Nat) (count : Int) (success : Bool) (i : Nat)
    (sector : Nat) (size : Int) (sbnr ebnr : Nat) :
    ((lc_get (dev.peer p).resync_lru enr).1 = some i → env.kmalloc_ok = true →
      (((drbd_try_clear_on_disk_bm_update dev p enr count success i).elements i).rs_left
          = ((drbd_try_clear_on_disk_bm_update dev p enr count success i).elements i).rs_failed →
        (drbd_try_clear_on_disk_bm env dev p enr count success).work
            = dev.work ++ [{ peer_device := p, enr := enr }] ∧
          ((drbd_try_clear_on_disk_bm env dev p enr count success).bm_ext p i).rs_failed = 0 ∧
          ((drbd_try_clear_on_disk_bm env dev p enr count success).bm_ext p i).rs_left
            = ((drbd_try_clear_on_disk_bm_update dev p enr count success i).elements
                i).rs_left) ∧
      (((drbd_try_clear_on_disk_bm_update dev p enr count success i).elements i).rs_left
          ≠ ((drbd_try_clear_on_disk_bm_update dev p enr count success i).elements i).rs_failed →
        (drbd_try_clear_on_disk_bm env dev p enr count success).work = dev.work ∧
          ((drbd_try_clear_on_disk_bm env dev p enr count success).bm_ext p i).rs_failed
            = ((drbd_try_clear_on_disk_bm_update dev p enr count success i).elements
                i).rs_failed ∧
          ((drbd_try_clear_on_disk_bm env dev p enr count success).bm_ext p i).rs_left
            = ((drbd_try_clear_on_disk_bm_update dev p enr count success i).elements
                i).rs_left)) ∧
    (0 < size ∧ size % 512 = 0 ∧ size ≤ env.DRBD_MAX_BIO_SIZE → get_ldev dev = true →
      set_out_of_sync_range dev.capacity sector size = some (sbnr, ebnr) →
      set_in_sync_range dev.capacity sector size = some (sbnr, ebnr) →
      enr = u32 (sbnr >>> (BM_EXT_SHIFT - BM_BLOCK_SHIFT)) →
      ebnr < dev.bitmap.bm_bits →
      ebnr >>> (BM_EXT_SHIFT - BM_BLOCK_SHIFT) = sbnr >>> (BM_EXT_SHIFT - BM_BLOCK_SHIFT) →
      bm_e_weight dev p enr = 0 →
      ((∀ j, ((dev.peer p).resync_lru.elements j).lc_number ≠ enr ∧
          ((dev.peer p).resync_lru.elements j).lc_new_number ≠ enr) ∨
        (∃ e, lc_find (dev.peer p).resync_lru enr = some e ∧
          (dev.bm_ext p e).rs_left = 0 ∧ (dev.bm_ext p e).rs_failed = 0)) →
      (lc_get ((set_out_of_sync env dev (some p) sector size).2.peer p).resync_lru
        enr).1 = some i →
      env.kmalloc_ok = true →
      (set_out_of_sync env dev (some p) sector size).2.work = dev.work ∧
        (set_in_sync env (set_out_of_sync env dev (some p) sector size).2 (some p) sector
            size).work
          = dev.work ++ [{ peer_device := p, enr := enr }]) := by
  refine ⟨fun hget hk => ?_, fun h1 h2 h3 h4 h5 h6 h7 h8 h9 h10 h11 =>
    set_in_sync_after_set_out_of_sync env dev p sector size sbnr ebnr enr i h1 h2 h3 h4 h5 h6
      h7 h8 h9 h10 h11⟩
  have hnum := drbd_try_clear_on_disk_bm_update_number dev p enr count success i hget
  rw [drbd_try_clear_on_disk_bm_eq env dev p enr count success i hget]
  constructor
  · intro heq
    rw [if_pos heq, if_pos hk, hnum]
    refine ⟨rfl, ?_, ?_⟩
    · simp [drbd_device.bm_ext, drbd_device.set_peer, lc_set_element]
    · simp [drbd_device.bm_ext, drbd_device.set_peer, lc_set_element]
  · intro hne
    rw [if_neg hne]
    refine ⟨rfl, ?_, ?_⟩
    · simp [drbd_device.bm_ext, drbd_device.set_peer]
    · simp [drbd_device.bm_ext, drbd_device.set_peer]

set_option maxRecDepth 100000 in
/-- The amended C22 at the example device, all in sync and with an empty resync LRU: a
call of `drbd_try_clear_on_disk_bm` for extent 7 queues one work item, and so does setting
the first 8 bits of extent 7 out of sync and in sync again. -/
theorem drbd_try_clear_on_disk_bm_queues_work_witness :
    (lc_get (example_device.peer 0).resync_lru 7).1 = some 6 ∧
      (drbd_try_clear_on_disk_bm example_env example_device 0 7 8 true).work
        = [{ peer_device := 0, enr := 7 }] ∧
      set_out_of_sync_range example_device.capacity 229376 32768 = some (28672, 28679) ∧
      set_in_sync_range example_device.capacity 229376 32768 = some (28672, 28679) ∧
      bm_e_weight example_device 0 7 = 0 ∧
      (set_in_sync example_env
        (set_out_of_sync example_env example_device (some 0) 229376 32768).2 (some 0) 229376
          32768).work
        = [{ peer_device := 0, enr := 7 }] :=
  ⟨by decide,
    (((drbd_try_clear_on_disk_bm_queues_work example_env example_device 0 7 8 true 6
      229376 32768 28672 28679).1 (by decide) rfl).1 (by decide)).1,
    by decide, by decide, by decide,
    ((drbd_try_clear_on_disk_bm_queues_work example_env example_device 0 7 8 true 6
      229376 32768 28672 28679).2 (by decide) (by decide) (by decide) (by decide) (by decide)
      (by decide) (by decide) (by decide)
      (Or.inl (fun _ => ⟨show LC_FREE ≠ 7 by decide, show LC_FREE ≠ 7 by decide⟩))
      (by decide) rfl).2⟩

/-! ## Properties: the placement is a bijection -/

theorem stripe_index_inj (S Z r1 r2 : Nat) (hS : 0 < S) (hZ : 0 < Z)
    (h1 : r1 < S * Z) (h2 : r2 < S * Z)
    (h : r1 % S * Z + r1 / S = r2 % S * Z + r2 / S) : r1 = r2 := by
  have q1 : r1 / S < Z := by rw [Nat.div_lt_iff_lt_mul hS, Nat.mul_comm]; exact h1
  have q2 : r2 / S < Z := by rw [Nat.div_lt_iff_lt_mul hS, Nat.mul_comm]; exact h2
  have hd : (r1 % S * Z + r1 / S) / Z = (r2 % S * Z + r2 / S) / Z := by rw [h]
  have hm : (r1 % S * Z + r1 / S) % Z = (r2 % S * Z + r2 / S) % Z := by rw [h]
  rw [Nat.add_comm (r1 % S * Z), Nat.add_comm (r2 % S * Z),
    Nat.add_mul_div_right _ _ hZ, Nat.add_mul_div_right _ _ hZ,
    Nat.div_eq_of_lt q1, Nat.div_eq_of_lt q2, Nat.zero_add, Nat.zero_add] at hd
  rw [Nat.add_comm (r1 % S * Z), Nat.add_comm (r2 % S * Z),
    Nat.add_mul_mod_self_right, Nat.add_mul_mod_self_right,
    Nat.mod_eq_of_lt q1, Nat.mod_eq_of_lt q2] at hm
  rw [← Nat.div_add_mod r1 S, ← Nat.div_add_mod r2 S, hd, hm]

theorem stripe_index_surj (S Z b : Nat) (hS : 0 < S) (hZ : 0 < Z) (hb : b < S * Z) :
    b % Z * S + b / Z < S * Z ∧
      (b % Z * S + b / Z) % S * Z + (b % Z * S + b / Z) / S = b := by
  have q : b / Z < S := by rw [Nat.div_lt_iff_lt_mul hZ]; exact hb
  have m : b % Z < Z := Nat.mod_lt _ hZ
  constructor
  · have h1 : b % Z * S ≤ (Z - 1) * S := Nat.mul_le_mul_right _ (by omega)
    have h2 : (Z - 1) * S + S = S * Z := by
      obtain ⟨k, hk⟩ : ∃ k, Z = k + 1 := ⟨Z - 1, by omega⟩
      rw [hk]; simp only [Nat.add_sub_cancel]; ring
    omega
  · rw [Nat.add_comm (b % Z * S), Nat.add_mul_mod_self_right, Nat.add_mul_div_right _ _ hS,
      Nat.mod_eq_of_lt q, Nat.div_eq_of_lt q, Nat.zero_add, Nat.mul_comm]
    exact Nat.div_add_mod b Z

theorem al_block_index_mod (md : drbd_md) (t : Nat) :
    al_block_index md (t % md.al_size_4k) = al_block_index md t := by
  unfold al_block_index
  rw [Nat.mod_mod]

/-- The sector of a transaction in a geometry whose activity log has at most `2 ^ 29`
blocks, where the 32 bit intermediates do not wrap. -/
theorem al_tr_number_to_on_disk_sector_of_fit (md : drbd_md) (t : Nat)
    (hprod : md.al_size_4k = md.al_stripes * md.al_stripe_size_4k)
    (hstripes : 0 < md.al_stripes) (hss : 0 < md.al_stripe_size_4k)
    (hfit : 8 * md.al_size_4k ≤ 2 ^ 32) :
    al_tr_number_to_on_disk_sector md t
      = some (sector_wrap ((md.md_offset : Int) + md.al_offset
          + ((8 * al_block_index md t : Nat) : Int))) := by
  have hlt := al_block_index_lt md t hprod hstripes hss
  unfold al_tr_number_to_on_disk_sector
  have h0 : ¬ (md.al_size_4k = 0 ∨ md.al_stripes = 0) := by omega
  simp only [h0, if_false]
  have e1 : u32 (u32 (u32 (t % md.al_size_4k % md.al_stripes * md.al_stripe_size_4k)
      + t % md.al_size_4k / md.al_stripes) * 8) = 8 * al_block_index md t := by
    unfold u32 al_block_index at *
    omega
  rw [e1]

theorem al_tr_number_after_eq (t k : Nat) (ht : t < 2 ^ 32) :
    al_tr_number_after t k = u32 (t + k) := by
  induction k with
  | zero => exact (u32_of_lt ht).symm
  | succ k ih =>
    unfold al_tr_number_after
    rw [ih]
    unfold u32
    omega

theorem add_mod_eq_iff_dvd (N t k : Nat) : (t + k) % N = t % N ↔ N ∣ k := by
  have h := @Nat.modEq_iff_dvd' N t (t + k) (Nat.le_add_right t k)
  rw [Nat.add_sub_cancel_left] at h
  rw [← h]
  exact ⟨fun e => e.symm, fun e => e.symm⟩

/-- The transaction number `k` transactions after `t`, reduced modulo `N`, when the 32 bit
counter does not wrap in between or `N` divides `2 ^ 32`. -/
theorem al_tr_number_after_mod (N t k : Nat) (ht : t < 2 ^ 32)
    (h : t + k < 2 ^ 32 ∨ N ∣ 2 ^ 32) :
    al_tr_number_after t k % N = (t + k) % N := by
  rw [al_tr_number_after_eq t k ht]
  rcases h with h | h
  · rw [u32_of_lt h]
  · unfold u32
    exact Nat.mod_mod_of_dvd _ h

/-- A transaction that is written advances `al_tr_number` to `al_tr_number_after _ 1`. -/
theorem _al_write_transaction_tr_number (env : drbd_env) (dev : drbd_device)
    (h : al_transaction_ready dev)
    (hok : env.bm_write_hinted_ok = true ∧ dev.al_updates = true ∧ env.md_write_ok = true) :
    (_al_write_transaction env dev).2.al_tr_number = al_tr_number_after dev.al_tr_number 1 := by
  obtain ⟨_, _, _, _, h4, _⟩ := _al_write_transaction_ready env dev h
  rw [h4, if_pos hok]
  rfl

set_option maxRecDepth 100000 in
/-- C23 as stated fails across the wrap of the 32 bit transaction number: with 3 stripes
of 8 blocks (`al_size_4k = 24`), the transaction with number `2 ^ 32 - 1` and the
transaction written 16 transactions later, which has number 15, have the same block index
5 and are written to the same sector 40. -/
theorem al_block_index_collides_after_wrap :
    (⟨0, 0, 3, 8, 24⟩ : drbd_md).al_size_4k
        = (⟨0, 0, 3, 8, 24⟩ : drbd_md).al_stripes * (⟨0, 0, 3, 8, 24⟩ : drbd_md).al_stripe_size_4k ∧
      al_tr_number_after (2 ^ 32 - 1) 16 = 15 ∧
      16 < (⟨0, 0, 3, 8, 24⟩ : drbd_md).al_size_4k ∧
      al_block_index ⟨0, 0, 3, 8, 24⟩ (2 ^ 32 - 1) = 5 ∧
      al_block_index ⟨0, 0, 3, 8, 24⟩ (al_tr_number_after (2 ^ 32 - 1) 16) = 5 ∧
      al_tr_number_to_on_disk_sector ⟨0, 0, 3, 8, 24⟩ (2 ^ 32 - 1) = some 40 ∧
      al_tr_number_to_on_disk_sector ⟨0, 0, 3, 8, 24⟩ (al_tr_number_after (2 ^ 32 - 1) 16)
        = some 40 := by
  decide

/-- C23 (amended): when `al_size_4k = al_stripes * al_stripe_size_4k` with both factors
positive, the block index `(r mod al_stripes) * al_stripe_size_4k + r / al_stripes` of
`r = t mod al_size_4k` is a bijection on `[0, al_size_4k)`: it maps into the range, is
injective and onto. For a transaction number `t` and the number `k` transactions later,
where the 32 bit counter does not wrap in between or `al_size_4k` divides `2 ^ 32`: the
two have the same block index exactly if `k` is a multiple of `al_size_4k`, so any
`al_size_4k` consecutive transactions have pairwise distinct block indices and a
transaction has the block of the one `al_size_4k` transactions older. The same holds for
the sectors that `al_tr_number_to_on_disk_sector` computes, for an activity log of at
most `2 ^ 29` blocks (so that the 32 bit product with 8 does not wrap). -/
theorem al_block_index_bijective (md : drbd_md)
    (hprod : md.al_size_4k = md.al_stripes * md.al_stripe_size_4k)
    (hstripes : 0 < md.al_stripes) (hss : 0 < md.al_stripe_size_4k) :
    (∀ r, r < md.al_size_4k →
      al_block_index md r = (r % md.al_stripes) * md.al_stripe_size_4k + r / md.al_stripes ∧
        al_block_index md r < md.al_size_4k) ∧
    (∀ r1 r2, r1 < md.al_size_4k → r2 < md.al_size_4k →
      al_block_index md r1 = al_block_index md r2 → r1 = r2) ∧
    (∀ b, b < md.al_size_4k → ∃ r, r < md.al_size_4k ∧ al_block_index md r = b) ∧
    (∀ t k, t < 2 ^ 32 → (t + k < 2 ^ 32 ∨ md.al_size_4k ∣ 2 ^ 32) →
      (al_block_index md (al_tr_number_after t k) = al_block_index md t ↔
        md.al_size_4k ∣ k)) ∧
    (8 * md.al_size_4k ≤ 2 ^ 32 →
      ∀ t k, t < 2 ^ 32 → (t + k < 2 ^ 32 ∨ md.al_size_4k ∣ 2 ^ 32) →
        (al_tr_number_to_on_disk_sector md t).isSome = true ∧
        (al_tr_number_to_on_disk_sector md (al_tr_number_after t k)
            = al_tr_number_to_on_disk_sector md t ↔
          md.al_size_4k ∣ k)) := by
  have hpos : 0 < md.al_size_4k := by rw [hprod]; exact Nat.mul_pos hstripes hss
  have hform : ∀ r, r < md.al_size_4k →
      al_block_index md r
        = (r % md.al_stripes) * md.al_stripe_size_4k + r / md.al_stripes := by
    intro r hr
    unfold al_block_index
    rw [Nat.mod_eq_of_lt hr]
  have hinj : ∀ r1 r2, r1 < md.al_size_4k → r2 < md.al_size_4k →
      al_block_index md r1 = al_block_index md r2 → r1 = r2 := by
    intro r1 r2 h1 h2 h
    rw [hform r1 h1, hform r2 h2] at h
    exact stripe_index_inj md.al_stripes md.al_stripe_size_4k r1 r2 hstripes hss
      (hprod ▸ h1) (hprod ▸ h2) h
  have hiff : ∀ t1 t2, al_block_index md t1 = al_block_index md t2 ↔
      t1 % md.al_size_4k = t2 % md.al_size_4k := by
    intro t1 t2
    constructor
    · intro h
      rw [← al_block_index_mod md t1, ← al_block_index_mod md t2] at h
      exact hinj _ _ (Nat.mod_lt _ hpos) (Nat.mod_lt _ hpos) h
    · intro h
      rw [← al_block_index_mod md t1, ← al_block_index_mod md t2, h]
  have hafter : ∀ t k, t < 2 ^ 32 → (t + k < 2 ^ 32 ∨ md.al_size_4k ∣ 2 ^ 32) →
      (al_block_index md (al_tr_number_after t k) = al_block_index md t ↔
        md.al_size_4k ∣ k) := by
    intro t k ht hw
    rw [hiff, al_tr_number_after_mod md.al_size_4k t k ht hw]
    exact add_mod_eq_iff_dvd _ t k
  refine ⟨fun r hr => ⟨hform r hr, al_block_index_lt md r hprod hstripes hss⟩, hinj, ?_,
    hafter, ?_⟩
  · intro b hb
    obtain ⟨s1, s2⟩ := stripe_index_surj md.al_stripes md.al_stripe_size_4k b hstripes hss
      (hprod ▸ hb)
    refine ⟨b % md.al_stripe_size_4k * md.al_stripes + b / md.al_stripe_size_4k, ?_, ?_⟩
    · rw [hprod]; exact s1
    · rw [hform _ (by rw [hprod]; exact s1)]; exact s2
  · intro hfit t k ht hw
    rw [al_tr_number_to_on_disk_sector_of_fit md t hprod hstripes hss hfit,
      al_tr_number_to_on_disk_sector_of_fit md _ hprod hstripes hss hfit]
    refine ⟨rfl, ?_⟩
    rw [← hafter t k ht hw]
    have l1 := al_block_index_lt md t hprod hstripes hss
    have l2 := al_block_index_lt md (al_tr_number_after t k) hprod hstripes hss
    constructor
    · intro h
      simp only [Option.some.injEq, sector_wrap] at h
      omega
    · intro h
      rw [h]

/-- The amended C23 at the example geometry, four stripes of two blocks: the transaction
written 5 transactions after number 1003 has another block index, the one written 8
transactions after it is written to the same sector. -/
theorem al_block_index_bijective_witness :
    al_block_index example_md (al_tr_number_after 1003 5) ≠ al_block_index example_md 1003 ∧
    al_tr_number_to_on_disk_sector example_md (al_tr_number_after 1003 8)
      = al_tr_number_to_on_disk_sector example_md 1003 :=
  ⟨fun h => absurd (((al_block_index_bijective example_md (by decide) (by decide)
      (by decide)).2.2.2.1 1003 5 (by decide) (Or.inl (by decide))).mp h) (by decide),
    (((al_block_index_bijective example_md (by decide) (by decide)
      (by decide)).2.2.2.2 (by decide) 1003 8 (by decide) (Or.inl (by decide))).2).mpr
      (by decide)⟩

/-! ## Properties: the assertion on the number of updates -/

/-- C24: in `_al_write_transaction` the walk over `to_be_changed` ends with
`i = min (length, 65)`. With at most 64 elements on the list `i` is the length of the
list, the condition of `BUG_ON (i > AL_UPDATES_PER_TRANSACTION)` is false, and (with an
on disk geometry that does not divide by zero) the call leaves the `BUG` flag as it was.
With more than 64 elements `i` is 65, and every call that gets its meta data buffer
(usable disk, buffer free) ends in the `BUG_ON` without a result. -/
theorem _al_write_transaction_bug_on (env : drbd_env) (dev : drbd_device) :
    (dev.act_log.to_be_changed.length ≤ AL_UPDATES_PER_TRANSACTION →
      (al_build_transaction env { dev with md_io_in_use := 1 }).1
          = dev.act_log.to_be_changed.length ∧
        ¬ (al_build_transaction env { dev with md_io_in_use := 1 }).1
          > AL_UPDATES_PER_TRANSACTION ∧
        (dev.md.al_size_4k ≠ 0 ∧ dev.md.al_stripes ≠ 0 →
          (_al_write_transaction env dev).2.bug = dev.bug)) ∧
    (AL_UPDATES_PER_TRANSACTION < dev.act_log.to_be_changed.length →
      (al_build_transaction env { dev with md_io_in_use := 1 }).1
          = AL_UPDATES_PER_TRANSACTION + 1 ∧
        (get_ldev dev = true → dev.md_io_in_use = 0 →
          (_al_write_transaction env dev).1 = none ∧
            (_al_write_transaction env dev).2.bug = true)) := by
  have hcount := al_build_transaction_count env { dev with md_io_in_use := 1 }
  have hal : ({ dev with md_io_in_use := 1 } : drbd_device).act_log = dev.act_log := rfl
  rw [hal] at hcount
  constructor
  · intro hle
    have hi : (al_build_transaction env { dev with md_io_in_use := 1 }).1
        = dev.act_log.to_be_changed.length := by
      rw [hcount]; omega
    refine ⟨hi, by rw [hi]; omega, fun hmd => ?_⟩
    unfold _al_write_transaction
    by_cases h1 : (!get_ldev dev) = true
    · rw [if_pos h1]
    rw [if_neg h1]
    by_cases h2 : dev.disk_state.val < drbd_disk_state.D_INCONSISTENT.val
    · rw [if_pos h2]
    rw [if_neg h2]
    by_cases h3 : dev.md_io_in_use ≠ 0
    · rw [if_pos h3]
    rw [if_neg h3]
    simp only []
    rw [if_neg (by rw [hi]; omega)]
    have hsome := (al_tr_number_to_on_disk_sector_isSome dev.md dev.al_tr_number).mpr hmd
    obtain ⟨sector, hs⟩ := Option.isSome_iff_exists.mp hsome
    rw [hs]
    simp only []
    split_ifs <;> rfl
  · intro hgt
    have hi : (al_build_transaction env { dev with md_io_in_use := 1 }).1
        = AL_UPDATES_PER_TRANSACTION + 1 := by
      rw [hcount]; omega
    refine ⟨hi, fun hld hmd => ?_⟩
    have h2 : ¬ dev.disk_state.val < drbd_disk_state.D_INCONSISTENT.val := by
      unfold get_ldev at hld
      simpa using hld
    unfold _al_write_transaction
    rw [if_neg (by simp [hld]), if_neg h2, if_neg (by simp [hmd])]
    simp only []
    rw [if_pos (by rw [hi]; omega)]
    exact ⟨rfl, rfl⟩

set_option maxRecDepth 100000 in
/-- C24 at the example device with one pending change, where the call leaves the `BUG`
flag clear, and at a state with 65 elements on `to_be_changed`, where it sets it. -/
theorem _al_write_transaction_bug_on_witness :
    example_device_prepared.act_log.to_be_changed.length ≤ AL_UPDATES_PER_TRANSACTION ∧
      (_al_write_transaction example_env example_device_prepared).2.bug = false ∧
      AL_UPDATES_PER_TRANSACTION < example_device_overfull.act_log.to_be_changed.length ∧
      (_al_write_transaction example_env example_device_overfull).1 = none ∧
      (_al_write_transaction example_env example_device_overfull).2.bug = true :=
  ⟨by decide,
    (((_al_write_transaction_bug_on example_env example_device_prepared).1 (by decide)).2.2
      (by decide)).trans (by decide),
    by decide,
    ((_al_write_transaction_bug_on example_env example_device_overfull).2 (by decide)).2
      (by decide) (by decide)⟩

/-! ## Properties: the result of `drbd_set_all_out_of_sync` -/

/-- With all bits of `bits` set, the peer loop of `drbd_set_sync` never takes the in-sync
branch, so `set` keeps its value. -/
theorem set_sync_peers_all_ones (env : drbd_env)
    (set_start set_end clear_start clear_end : Nat) (peers : List Nat) :
    ∀ (mask : Nat) (set wake_up : Bool) (dev : drbd_device), mask < 2 ^ 64 →
      (set_sync_peers env (2 ^ 64 - 1) set_start set_end clear_start clear_end peers mask set
        wake_up dev).2.1 = set := by
  induction peers with
  | nil => intro mask set wake_up dev _; rfl
  | cons p rest ih =>
    intro mask set wake_up dev hm
    unfold set_sync_peers
    simp only []
    by_cases ht : mask.testBit (dev.peer p).bitmap_index = true
    · have hidx : (dev.peer p).bitmap_index < 64 := by
        by_contra hge
        have h2 : mask < 2 ^ (dev.peer p).bitmap_index :=
          lt_of_lt_of_le hm (Nat.pow_le_pow_right (by decide) (not_lt.mp hge))
        rw [Nat.testBit_lt_two_pow h2] at ht
        exact absurd ht (by simp)
      have hb : (2 ^ 64 - 1 : Nat).testBit (dev.peer p).bitmap_index = true := by
        rw [Nat.testBit_two_pow_sub_one, decide_eq_true_eq]
        exact hidx
      have hc : clear_bit (dev.peer p).bitmap_index mask < 2 ^ 64 := by
        unfold clear_bit
        rw [if_pos ht]
        exact lt_of_le_of_lt (Nat.sub_le _ _) hm
      rw [if_neg (by simp [ht]), if_pos hb]
      exact ih _ _ _ _ hc
    · rw [if_pos (by simpa using ht)]
      exact ih _ _ _ _ hm

/-- C25: `drbd_set_all_out_of_sync` returns `false` for every environment, device state,
sector and size: it calls `drbd_set_sync` with all bits of `bits` and `mask` set, the
value returned is `set`, and `set` only changes in the in-sync branch, which needs a
bitmap index of the mask whose bit in `bits` is clear. -/
theorem drbd_set_all_out_of_sync_false (env : drbd_env) (dev : drbd_device) (sector : Nat)
    (size : Int) : (drbd_set_all_out_of_sync env dev sector size).1 = false := by
  unfold drbd_set_all_out_of_sync drbd_set_sync
  simp only []
  by_cases h1 : size ≤ 0 ∨ size % 512 ≠ 0
  · rw [if_pos h1]
  rw [if_neg h1]
  by_cases h2 : (!get_ldev dev) = true
  · rw [if_pos h2]
  rw [if_neg h2]
  cases hr : set_sync_range dev.capacity sector size with
  | none => rfl
  | some r =>
    obtain ⟨set_start, set_end, clear_start, clear_end⟩ := r
    simp only []
    exact set_sync_peers_all_ones env set_start set_end clear_start clear_end _ _ false false
      dev (Nat.and_lt_two_pow _ (Nat.mod_lt _ (by decide)))

set_option maxRecDepth 100000 in
/-- C25 at the example device: the call for sectors 8 to 71 sets the 8 bits 1 to 8 of
peer 0, which were clear, and returns `false`. -/
theorem drbd_set_all_out_of_sync_false_witness :
    drbd_bm_count_bits example_device.bitmap 0 1 8 = 0 ∧
      drbd_bm_count_bits
        (drbd_set_all_out_of_sync example_env example_device 8 32768).2.bitmap 0 1 8 = 8 ∧
      (drbd_set_all_out_of_sync example_env example_device 8 32768).1 = false :=
  ⟨by decide, by decide, drbd_set_all_out_of_sync_false example_env example_device 8 32768⟩

end Drbd
